import Mathlib

/-!
# Block generation and dataflow fixed-point engine (Block.cpp)

A shallow embedding of `src/src/Block.cpp`.

Conventions of the embedding.

* A statement, block, variable or fact is known by its identity (its C++
  address), a natural number; `0` is the NULL pointer.
* The fields of all objects are total maps from identities, collected in `State`.
  The whole state belongs to one `Function` (one `func`, one `FactMgr`).
* Code of the repository that is not in `Block.cpp` (statement generators, the
  per-statement analysis, `contains_stmt`, `find_typed_stmts`, ...) is a field of
  `Env`: the theorems hold for every implementation of these functions, under the
  hypotheses they state.
* Loops whose number of iterations is not bounded by the text of the program take
  a `fuel` argument; `none` / `Outcome.timeout` means the fuel ran out.
-/

namespace Block

/-- A C++ pointer, known by its identity; `0` is NULL. -/
abbrev Ptr := Nat

/-- A vector of fact pointers (`vector<const Fact*>`, `FactVec`). -/
abbrev FactVec := List Ptr

/-- The statement kinds (`eStatementType` of Statement.h); `Block.cpp` names
`eBlock`, `eFor`, `eReturn`, `eContinue`, `eBreak` and `eGoto`. -/
inductive eStatementType where
  | eAssign
  | eBlock
  | eFor
  | eIfElse
  | eInvoke
  | eReturn
  | eContinue
  | eBreak
  | eGoto
  | eArrayOp
  deriving DecidableEq, Repr

open eStatementType

/-- A control-flow edge of the function-wide registry (`CFGEdge`): source and
destination statement and the two flags given to `create_cfg_edge`. -/
structure CFGEdge where
  src : Ptr
  dest : Ptr
  post_dest : Bool
  back_link : Bool
  deriving DecidableEq, Repr

/-- The part of the state that the analysis functions write: the per-statement
maps of `FactMgr`, its `global_facts`, and the effects carried by `CGContext`.
`X` is everything else the external code keeps (random stream, depth counters,
variables, ...), `E` is the type `Effect`. -/
structure FactMgr (X E : Type) where
  map_visited : Ptr → Bool
  map_facts_in : Ptr → FactVec
  map_facts_out : Ptr → FactVec
  map_stm_effect : Ptr → E
  map_accum_effect : Ptr → E
  global_facts : FactVec
  effect_accum : E
  effect_stm : E
  ext : X

/-- The program state: fields of statements and blocks, of the current
`Function` (`blocks`, `stack`), the edge registry `fm->cfg_edges`, the Error flag
(`error = true` when `Error::get_error() != SUCCESS`) and the fact manager. -/
structure State (X E : Type) where
  eType : Ptr → eStatementType
  parent : Ptr → Ptr
  looping : Ptr → Bool
  need_revisit : Ptr → Bool
  in_array_loop : Ptr → Bool
  block_size : Ptr → Nat
  local_vars : Ptr → List Ptr
  stms : Ptr → List Ptr
  deleted_stms : Ptr → List Ptr
  break_stms : Ptr → List Ptr
  blocks : List Ptr
  stack : List Ptr
  cfg_edges : List CFGEdge
  error : Bool
  fm : FactMgr X E

/-- Assignment `m[a] = v` on a field map. -/
def upd {β : Type} (m : Ptr → β) (a : Ptr) (v : β) : Ptr → β :=
  fun x => if x = a then v else m x

/-- The code outside `Block.cpp` that `Block.cpp` calls. -/
structure Env (X E : Type) where
  /-- The call `s->contains_stmt(x)`: walks the ownership tree below `s`; of the mutable
  state it reads the `stms` lists. -/
  contains_stmt : (Ptr → List Ptr) → Ptr → Ptr → Bool
  /-- The call `s->find_typed_stmts(found, types)`: the statements of `s` of the given kinds. -/
  find_typed_stmts : (Ptr → List Ptr) → Ptr → List eStatementType → List Ptr
  /-- The call `Statement::find_edges_in(edges, post_dest, back_link)` on a statement. -/
  find_edges_in : List CFGEdge → Ptr → Bool → Bool → List CFGEdge
  /-- The call `Statement::has_edge_in(post_dest, back_link)` on a statement. -/
  has_edge_in : List CFGEdge → Ptr → Bool → Bool → Bool
  /-- The virtual `s->must_return()` of a statement held in some `stms`. -/
  must_return : State X E → Ptr → Bool
  /-- The virtual `s->must_jump()` of a statement held in some `stms`. -/
  must_jump : State X E → Ptr → Bool
  /-- The call `merge_facts(inputs, more)`, giving the new `inputs`. -/
  merge_facts : FactVec → FactVec → FactVec
  /-- The call `shortcut_analysis(inputs, cg_context)` on a block: result code, new `inputs`
  and what it wrote. -/
  shortcut_analysis : State X E → Ptr → FactVec → Int × FactVec × FactMgr X E
  /-- The call `FactMgr::add_new_var_fact(v, facts)`. -/
  add_new_var_fact : Ptr → FactVec → FactVec
  /-- The call `s->analyze_with_edges_in(facts, cg_context)`: verdict, new `facts`, what it wrote. -/
  analyze_with_edges_in : State X E → Ptr → FactVec → Bool × FactVec × FactMgr X E
  /-- The call `FactMgr::update_facts_for_oos_vars(local_vars, facts)`. -/
  update_facts_for_oos_vars : List Ptr → FactVec → FactVec
  /-- The call `fm->remove_rv_facts(facts)`. -/
  remove_rv_facts : State X E → FactVec → FactVec
  /-- The call `fm->reset_stm_fact_maps(stm)`. -/
  reset_stm_fact_maps : State X E → Ptr → FactMgr X E
  /-- The call `fm->makeup_new_var_facts(pre_facts, facts)`, giving the new `pre_facts`. -/
  makeup_new_var_facts : State X E → FactVec → FactVec → FactVec
  /-- The call `sr->visit_facts(facts, cg_context)` of a statement. -/
  visit_facts : State X E → Ptr → FactVec → Bool × FactVec × FactMgr X E
  /-- The empty effect `Effect()`. -/
  effect_empty : E
  /-- The call `eff.add_effect(other)`. -/
  add_effect : E → E → E
  /-- The call `func->need_return_stmt()`. -/
  need_return_stmt : State X E → Bool
  /-- The call `Statement::make_random(cg_context, kind)`; `none` when no kind is given.
  Gives the new statement (or NULL) and the state the generator leaves. -/
  Statement_make_random : Option eStatementType → State X E → Ptr × State X E
  /-- The call `StatementAssign::make_random(cg_context)`. -/
  StatementAssign_make_random : State X E → Ptr × State X E
  /-- The call `StatementFor::make_random(cg_context)`. -/
  StatementFor_make_random : State X E → Ptr × State X E
  /-- The call `Expression::make_random(cg_context, get_int_type(), NULL, false, ...)`. -/
  Expression_make_random : State X E → Ptr × State X E
  /-- The call `cg_context.get_current_block()`. -/
  get_current_block : State X E → Ptr
  /-- The size `cg_context.iv_bounds.size()`. -/
  iv_bounds_size : State X E → Nat
  /-- The pointer `cg_context.rw_directive`. -/
  rw_directive : State X E → Ptr
  /-- The vector `rwd->must_read_vars`. -/
  must_read_vars : State X E → List Ptr
  /-- The vector `rwd->must_write_vars`. -/
  must_write_vars : State X E → List Ptr
  /-- The call `v->get_dimension()` of a variable. -/
  get_dimension : Ptr → Nat
  /-- The call `rnd_flipcoin(p)`. -/
  rnd_flipcoin : Nat → State X E → Bool × State X E
  /-- The call `rnd_upto(n, &filter)`, the filter being built from the values listed. -/
  rnd_upto : Nat → List Nat → State X E → Nat × State X E
  /-- The test `cg_context.blk_depth < CGOptions::max_blk_depth()`. -/
  blk_depth_ok : State X E → Bool
  /-- The test of `DEPTH_GUARD_BY_TYPE_RETURN(dtBlock, NULL)`: whether the guard
  returns at once, and the depth counters it leaves. -/
  depth_guard : State X E → Bool × X
  /-- The value `CGOptions::max_block_size()`. -/
  max_block_size : Nat
  /-- The address `operator new` gives for the next object, and the allocator state. -/
  alloc : State X E → Ptr × X

variable {X E : Type}

/-- The test `find_stm_in_set(set, s) >= 0` (util): `s` occurs in `set`. -/
def find_stm_in_set (set : List Ptr) (s : Ptr) : Bool :=
  decide (s ∈ set)

/-- The walk `for (b = this; b && !b->looping; b = b->parent)` of `remove_stmt`:
the nearest looping block from `b` upwards, or NULL. -/
def enclosing_loop (σ : State X E) : Nat → Ptr → Option Ptr
  | 0, _ => none
  | fuel + 1, b =>
    if b ≠ 0 ∧ σ.looping b = false then enclosing_loop σ fuel (σ.parent b) else some b

/-- First part of `remove_stmt`: when `s` holds a continue, break or goto
(`cfg_stms` non-empty), drop them from the `break_stms` of the nearest looping
block and drop every edge whose source is one of them. The two loops erase in
place (`erase(begin() + i); i--; len--;`), which is a filter. -/
def remove_jump_refs (fuel : Nat) (this : Ptr) (cfg_stms : List Ptr) (σ : State X E) :
    Option (State X E) :=
  if cfg_stms.isEmpty then some σ
  else
    match enclosing_loop σ fuel this with
    | none => none
    | some b =>
      let brk := if b ≠ 0 then
          upd σ.break_stms b ((σ.break_stms b).filter (fun x => !find_stm_in_set cfg_stms x))
        else σ.break_stms
      some { σ with
        break_stms := brk
        cfg_edges := σ.cfg_edges.filter (fun e => !find_stm_in_set cfg_stms e.src) }

/-- Second part of `remove_stmt`: the scan of the registry for edges whose
destination lies in `s`. The state of the loop is the next index `i`, the local
`len` and `cnt`; `rm p g` stands for the recursive call `p->remove_stmt(g)`.
An index outside the vector gives `none`. -/
def scan_edges_in (env : Env X E) (rm : Ptr → Ptr → State X E → Option (Nat × State X E))
    (this s : Ptr) : Nat → Nat → Nat → Nat → State X E → Option (Nat × State X E)
  | 0, _, _, _, _ => none
  | fuel + 1, i, len, cnt, σ =>
    if i < len then
      match σ.cfg_edges.get? i with
      | none => none
      | some edge =>
        if env.contains_stmt σ.stms s edge.dest then
          let σ1 := { σ with cfg_edges := σ.cfg_edges.eraseIdx i }
          if σ.eType edge.src = eGoto then
            match rm (σ.parent edge.src) edge.src σ1 with
            | none => none
            | some (deleted, σ2) =>
              let cnt2 := if σ.parent edge.src = this then cnt + deleted else cnt
              if σ2.cfg_edges.length ≠ len - 1 then
                scan_edges_in env rm this s fuel 0 σ2.cfg_edges.length cnt2 σ2
              else
                scan_edges_in env rm this s fuel i (len - 1) cnt2 σ2
          else
            scan_edges_in env rm this s fuel i (len - 1) cnt σ1
        else
          scan_edges_in env rm this s fuel (i + 1) len cnt σ
    else some (cnt, σ)

/-- Last part of `remove_stmt`: the first occurrence of `s` in `this->stms` moves
to `deleted_stms` and is counted. -/
def delete_stmt_itself (this s : Ptr) (cnt : Nat) (σ : State X E) : Nat × State X E :=
  if s ∈ σ.stms this then
    (cnt + 1, { σ with
      deleted_stms := upd σ.deleted_stms this (σ.deleted_stms this ++ [s])
      stms := upd σ.stms this ((σ.stms this).erase s) })
  else (cnt, σ)

/-- The method `Block::remove_stmt(s)` called on block `this`; gives the returned count and
the new state. -/
def remove_stmt (env : Env X E) : Nat → Ptr → Ptr → State X E → Option (Nat × State X E)
  | 0, _, _, _ => none
  | fuel + 1, this, s, σ =>
    let cfg_stms := env.find_typed_stmts σ.stms s [eContinue, eBreak, eGoto]
    match remove_jump_refs fuel this cfg_stms σ with
    | none => none
    | some σ1 =>
      match scan_edges_in env (remove_stmt env fuel) this s fuel 0 σ1.cfg_edges.length 0 σ1 with
      | none => none
      | some (cnt, σ2) =>
        let σ3 := { σ2 with
          blocks := σ2.blocks.filter (fun b => !env.contains_stmt σ2.stms s b) }
        some (delete_stmt_itself this s cnt σ3)

/-- Result of a function that may stop on a failed `assert`; `timeout` is the
fuel of the embedding running out. -/
inductive Outcome (α : Type) where
  | ok (a : α)
  | assert_failed
  | timeout

/-- The loop of `get_last_stm` over the rest of `stms`, `s` being the statement
seen last. -/
def get_last_stm_from (σ : State X E) : List Ptr → Ptr → Ptr
  | [], s => s
  | x :: rest, _ => if σ.eType x = eReturn then x else get_last_stm_from σ rest x

/-- The method `Block::get_last_stm()`: the first return statement of `stms`, else the
last statement, else NULL. -/
def get_last_stm (σ : State X E) (this : Ptr) : Ptr :=
  get_last_stm_from σ (σ.stms this) 0

/-- The method `Block::must_return()`. -/
def must_return (env : Env X E) (σ : State X E) (this : Ptr) : Bool :=
  if (σ.stms this).length > 0 ∧ (σ.break_stms this).length = 0
      ∧ env.must_return σ (get_last_stm σ this) = true then
    (env.find_edges_in σ.cfg_edges this false true).all (fun e => decide (e.src = this))
  else false

/-- The method `Block::must_jump()`. -/
def must_jump (env : Env X E) (σ : State X E) (this : Ptr) : Bool :=
  decide ((σ.stms this).length > 0 ∧ (σ.break_stms this).length = 0
      ∧ env.must_jump σ (get_last_stm σ this) = true)

/-- The method `Block::must_break_or_return()`. -/
def must_break_or_return (env : Env X E) (σ : State X E) (this : Ptr) : Bool :=
  if (σ.stms this).length > 0 ∧ env.must_return σ (get_last_stm σ this) = true then
    (env.find_edges_in σ.cfg_edges this false true).all (fun e => decide (e.src = this))
  else false

/-- The method `Block::from_tail_to_head()`. -/
def from_tail_to_head (env : Env X E) (σ : State X E) (this : Ptr) : Bool :=
  if σ.looping this = true ∧ (σ.stms this).length > 0 then
    !env.must_jump σ (get_last_stm σ this)
  else false

/-- The method `Block::set_accumulated_effect(cg_context)`. -/
def set_accumulated_effect (env : Env X E) (σ : State X E) (this : Ptr) (fm : FactMgr X E) :
    FactMgr X E :=
  let eff := (σ.stms this).foldl (fun acc s => env.add_effect acc (fm.map_stm_effect s))
    env.effect_empty
  { fm with map_stm_effect := upd fm.map_stm_effect this eff }

/-- Modelled from the spec: `FactMgr::create_cfg_edge(src, dest, post_dest, back_link)` is
not in `Block.cpp`; it registers a new edge in the function-wide registry. -/
def create_cfg_edge (σ : State X E) (src dest : Ptr) (post_dest back_link : Bool) :
    State X E :=
  { σ with cfg_edges := σ.cfg_edges ++ [⟨src, dest, post_dest, back_link⟩] }

/-- Modelled from the spec: `cg_context.reset_effect_accum(e)` is not in `Block.cpp`; it
resets the accumulated effect to `e`. -/
def reset_effect_accum (σ : State X E) (e : E) : State X E :=
  { σ with fm := { σ.fm with effect_accum := e } }

/-- What `find_fixed_point` gives back: `success` for `true`, `failure` for `false`
with `fail_index`; both carry `post_facts` and what the analysis wrote. -/
inductive FixResult (X E : Type) where
  | success (post_facts : FactVec) (fm : FactMgr X E)
  | failure (fail_index : Nat) (post_facts : FactVec) (fm : FactMgr X E)
  | assert_failed

/-- The loop `for (i = 0; i < stms.size(); i++)` of `find_fixed_point` from index `i`
on: `some i` is the index of the statement whose analysis failed. -/
def analyze_stms (env : Env X E) (σ : State X E) :
    List Ptr → Nat → FactVec → FactMgr X E → Option Nat × FactVec × FactMgr X E
  | [], _, outputs, fm => (none, outputs, fm)
  | s :: rest, i, outputs, fm =>
    let r := env.analyze_with_edges_in { σ with fm := fm } s outputs
    if r.1 then analyze_stms env σ rest (i + 1) r.2.1 r.2.2
    else (some i, r.2.1, r.2.2)

/-- How one iteration of the loop of `find_fixed_point` ends: with a `return`, or at
`while (true)` with new values of the locals `cnt`, `inputs`, `post_facts` and a new
fact manager (`visit_once` is then `false`). -/
inductive PassResult (X E : Type) where
  | done (r : FixResult X E)
  | again (cnt : Nat) (inputs post_facts : FactVec) (fm : FactMgr X E)

/-- The statements under `if (fm->map_visited[this])` in `find_fixed_point`, after the
`cnt` check: `inputs` with the outgoing facts of the sources of the edges given by
`find_edges_in(edges, false, true)` merged in; `inputs` itself for a block not yet
visited. -/
def merge_edges_in (env : Env X E) (σ : State X E) (this : Ptr) (fm : FactMgr X E)
    (inputs : FactVec) : FactVec :=
  if fm.map_visited this then
    (env.find_edges_in σ.cfg_edges this false true).foldl
      (fun acc e => env.merge_facts acc (fm.map_facts_out e.src)) inputs
  else inputs

/-- The call `shortcut_analysis(inputs, cg_context)` of an iteration of `find_fixed_point`. -/
def pass_shortcut (env : Env X E) (σ : State X E) (this : Ptr) (fm : FactMgr X E)
    (inputs : FactVec) : Int × FactVec × FactMgr X E :=
  env.shortcut_analysis { σ with fm := fm } this (merge_edges_in env σ this fm inputs)

/-- The `inputs` and the fact manager at the line `FactVec outputs = inputs;` of an
iteration: those left by `shortcut_analysis` when it was called. -/
def pass_start (env : Env X E) (σ : State X E) (this : Ptr) (fm : FactMgr X E)
    (inputs : FactVec) (visit_once : Bool) : FactVec × FactMgr X E :=
  if visit_once then (merge_edges_in env σ this fm inputs, fm)
  else ((pass_shortcut env σ this fm inputs).2.1, (pass_shortcut env σ this fm inputs).2.2)

/-- The facts `outputs` before the first statement is analysed: `inputs` and the facts
of the local variables. -/
def pass_outputs (env : Env X E) (σ : State X E) (this : Ptr) (fm : FactMgr X E)
    (inputs : FactVec) (visit_once : Bool) : FactVec :=
  (σ.local_vars this).foldl (fun acc v => env.add_new_var_fact v acc)
    (pass_start env σ this fm inputs visit_once).1

/-- The analysis of the statements of the block in an iteration of `find_fixed_point`. -/
def pass_analysis (env : Env X E) (σ : State X E) (this : Ptr) (fm : FactMgr X E)
    (inputs : FactVec) (visit_once : Bool) : Option Nat × FactVec × FactMgr X E :=
  analyze_stms env σ (σ.stms this) 0 (pass_outputs env σ this fm inputs visit_once)
    (pass_start env σ this fm inputs visit_once).2

/-- The statements after the loop over `stms` in an iteration of `find_fixed_point`:
`set_fact_in(this, inputs)`, `update_facts_for_oos_vars(local_vars, outputs)`,
`set_fact_out(this, outputs)`, `map_visited[this] = true`, `set_accumulated_effect`. -/
def record_pass (env : Env X E) (σ : State X E) (this : Ptr) (inputs outputs : FactVec)
    (fm : FactMgr X E) : FactMgr X E :=
  set_accumulated_effect env σ this { fm with
    map_facts_in := upd fm.map_facts_in this inputs
    map_facts_out := upd fm.map_facts_out this
      (env.update_facts_for_oos_vars (σ.local_vars this) outputs)
    map_visited := upd fm.map_visited this true }

/-- The body of the `do ... while (true)` loop of `find_fixed_point`; the arguments
are the locals `cnt`, `inputs`, `post_facts`, `visit_once` and the fact manager.
The statement `assert(0)` ends the call with `assert_failed`. -/
def find_fixed_point_pass (env : Env X E) (σ : State X E) (this : Ptr) (cnt : Nat)
    (inputs post_facts : FactVec) (visit_once : Bool) (fm : FactMgr X E) : PassResult X E :=
  if fm.map_visited this = true ∧ cnt > 7 then PassResult.done FixResult.assert_failed
  else if visit_once = false ∧ (pass_shortcut env σ this fm inputs).1 = 0 then
    PassResult.done (FixResult.success post_facts (pass_shortcut env σ this fm inputs).2.2)
  else
    match pass_analysis env σ this fm inputs visit_once with
    | (some i, _, fm3) => PassResult.done (FixResult.failure i post_facts fm3)
    | (none, outputs3, fm3) =>
      PassResult.again (if fm.map_visited this then cnt + 1 else cnt)
        (pass_start env σ this fm inputs visit_once).1 outputs3
        (record_pass env σ this (pass_start env σ this fm inputs visit_once).1 outputs3 fm3)

/-- The `do ... while (true)` loop of `find_fixed_point`. -/
def find_fixed_point_loop (env : Env X E) (σ : State X E) (this : Ptr) :
    Nat → Nat → FactVec → FactVec → Bool → FactMgr X E → Option (FixResult X E)
  | 0, _, _, _, _, _ => none
  | fuel + 1, cnt, inputs, post_facts, visit_once, fm =>
    match find_fixed_point_pass env σ this cnt inputs post_facts visit_once fm with
    | PassResult.done r => some r
    | PassResult.again cnt1 inputs1 post_facts1 fm1 =>
      find_fixed_point_loop env σ this fuel cnt1 inputs1 post_facts1 false fm1

/-- The method `Block::find_fixed_point(inputs, post_facts, cg_context, fail_index,
visit_once)`. The tenth iteration of the loop stops on `assert(0)` at the latest,
so ten iterations are provided. -/
def find_fixed_point (env : Env X E) (σ : State X E) (this : Ptr) (inputs post_facts : FactVec)
    (visit_once : Bool) : Option (FixResult X E) :=
  find_fixed_point_loop env σ this 10 0 inputs post_facts visit_once σ.fm

/-- The loop `for (i = index; i < len; i++) { remove_stmt(stms[i]); i = index - 1;
len = stms.size(); }` of `post_creation_analysis`: as long as `stms` has an element
at `index`, that element is removed. -/
def prune (env : Env X E) (this : Ptr) (index rfuel : Nat) : Nat → State X E → Option (State X E)
  | 0, _ => none
  | n + 1, σ =>
    if h : index < (σ.stms this).length then
      match remove_stmt env rfuel this ((σ.stms this).get ⟨index, h⟩) σ with
      | none => none
      | some r => prune env this index rfuel n r.2
    else some σ

/-- The statements of the body of `while (!find_fixed_point(...))` that follow the
prune loop: `need_revisit = true`, `reset_stm_fact_maps(this)`, the self back edge
when there is none yet and `from_tail_to_head()` holds, `reset_effect_accum`.
Gives the new value of `self_back_edge` and the state. -/
def after_prune (env : Env X E) (this : Ptr) (pre_effect : E) (self_back_edge : Bool)
    (σ1 : State X E) : Bool × State X E :=
  let σ2 := { σ1 with need_revisit := upd σ1.need_revisit this true }
  let σ3 := { σ2 with fm := env.reset_stm_fact_maps σ2 this }
  if self_back_edge = false ∧ from_tail_to_head env σ3 this = true then
    (true, reset_effect_accum (create_cfg_edge σ3 this this false true) pre_effect)
  else (self_back_edge, reset_effect_accum σ3 pre_effect)

/-- The loop `while (!find_fixed_point(...)) { ... }` of `post_creation_analysis`;
the arguments are the number of calls of `find_fixed_point` allowed, the locals
`self_back_edge` and `post_facts`, and the state. -/
def converge_or_prune (env : Env X E) (this : Ptr) (facts_copy : FactVec) (pre_effect : E)
    (fuel : Nat) : Nat → Bool → FactVec → State X E → Outcome (FactVec × State X E)
  | 0, _, _, _ => Outcome.timeout
  | n + 1, self_back_edge, post_facts, σ =>
    match find_fixed_point env σ this facts_copy post_facts (σ.need_revisit this) with
    | none => Outcome.timeout
    | some FixResult.assert_failed => Outcome.assert_failed
    | some (FixResult.success pf fm) => Outcome.ok (pf, { σ with fm := fm })
    | some (FixResult.failure index pf fm) =>
      match prune env this index fuel fuel { σ with fm := fm } with
      | none => Outcome.timeout
      | some σ1 =>
        converge_or_prune env this facts_copy pre_effect fuel n
          (after_prune env this pre_effect self_back_edge σ1).1 pf
          (after_prune env this pre_effect self_back_edge σ1).2

/-- The method `Block::append_return_stmt(cg_context)`; gives the statement returned
(NULL after `ERROR_GUARD`). -/
def append_return_stmt (env : Env X E) (this : Ptr) (σ : State X E) :
    Outcome (Ptr × State X E) :=
  let pre_facts := σ.fm.global_facts
  let σ1 := { σ with fm := { σ.fm with effect_stm := env.effect_empty } }
  let g := env.Statement_make_random (some eReturn) σ1
  let sr := g.1
  let σ2 := g.2
  if σ2.error then Outcome.ok (0, σ2)
  else
    let σ3 := { σ2 with stms := upd σ2.stms this (σ2.stms this ++ [sr]) }
    let pre_facts1 := env.makeup_new_var_facts σ3 pre_facts σ3.fm.global_facts
    let v := env.visit_facts σ3 sr σ3.fm.global_facts
    if v.1 = false then Outcome.assert_failed
    else
      let fm4 := { v.2.2 with global_facts := v.2.1 }
      let fm5 := { fm4 with
        map_facts_in := upd fm4.map_facts_in sr pre_facts1
        map_facts_out := upd fm4.map_facts_out sr fm4.global_facts
        map_accum_effect := upd (upd fm4.map_accum_effect sr fm4.effect_accum) this
          fm4.effect_accum
        map_visited := upd fm4.map_visited sr true }
      let fm6 := { fm5 with
        map_stm_effect := upd fm5.map_stm_effect this
          (env.add_effect (fm5.map_stm_effect this) (fm5.map_stm_effect sr)) }
      Outcome.ok (sr, { σ3 with fm := fm6 })

/-- The first statements of `post_creation_analysis`, up to `set_fact_out(this,
fm->global_facts)`: gives the local `post_facts` and the state. -/
def analysis_prologue (env : Env X E) (this : Ptr) (σ0 : State X E) : FactVec × State X E :=
  let fm1 := { σ0.fm with map_visited := upd σ0.fm.map_visited this true }
  let fm2 := set_accumulated_effect env σ0 this fm1
  let g2 := env.remove_rv_facts { σ0 with fm := fm2 }
    (env.update_facts_for_oos_vars (σ0.local_vars this) fm2.global_facts)
  (fm2.global_facts,
    { σ0 with fm := { fm2 with global_facts := g2, map_facts_out := upd fm2.map_facts_out this g2 } })

/-- The local `is_loop_body` of `post_creation_analysis`. -/
def is_loop_body (env : Env X E) (σ : State X E) (this : Ptr) : Bool :=
  !must_break_or_return env σ this && σ.looping this

/-- The statement `if (is_loop_body && from_tail_to_head()) { self_back_edge = true;
fm->create_cfg_edge(this, this, false, true); }` of `post_creation_analysis`, the
first place where the self back edge is registered: gives the local
`self_back_edge` and the state. -/
def first_self_back_edge (env : Env X E) (this : Ptr) (σ1 : State X E) : Bool × State X E :=
  if is_loop_body env σ1 this = true ∧ from_tail_to_head env σ1 this = true then
    (true, create_cfg_edge σ1 this this false true)
  else (false, σ1)

/-- The statement `if (is_loop_body || need_revisit || has_edge_in(false, true)) { ... }`
of `post_creation_analysis`: gives `post_facts` and the state. -/
def fixed_point_phase (env : Env X E) (this : Ptr) (pre_effect : E) (rounds fuel : Nat)
    (post_facts : FactVec) (σ1 : State X E) : Outcome (FactVec × State X E) :=
  if is_loop_body env σ1 this = true ∨ σ1.need_revisit this = true
      ∨ env.has_edge_in σ1.cfg_edges this false true = true then
    match converge_or_prune env this
        ((first_self_back_edge env this σ1).2.fm.map_facts_in this) pre_effect fuel rounds
        (first_self_back_edge env this σ1).1 post_facts
        (reset_effect_accum (first_self_back_edge env this σ1).2 pre_effect) with
    | Outcome.ok r =>
      Outcome.ok (r.1,
        { r.2 with fm := { r.2.fm with global_facts := r.2.fm.map_facts_out this } })
    | Outcome.assert_failed => Outcome.assert_failed
    | Outcome.timeout => Outcome.timeout
  else Outcome.ok (post_facts, σ1)

/-- The last statement of `post_creation_analysis`: the return statement added to a
block without parent whose function needs one, when `must_return()` is false. -/
def return_phase (env : Env X E) (this : Ptr) (post_facts : FactVec) (σ5 : State X E) :
    Outcome (State X E) :=
  if σ5.parent this = 0 ∧ env.need_return_stmt σ5 = true ∧ must_return env σ5 this = false then
    match append_return_stmt env this
        { σ5 with fm := { σ5.fm with global_facts := post_facts } } with
    | Outcome.assert_failed => Outcome.assert_failed
    | Outcome.timeout => Outcome.timeout
    | Outcome.ok r =>
      Outcome.ok { r.2 with
        fm := { r.2.fm with
          map_facts_out := upd r.2.fm.map_facts_out this (r.2.fm.map_facts_out r.1) } }
  else Outcome.ok σ5

/-- The method `Block::post_creation_analysis(cg_context, pre_effect)`; `rounds` bounds
the calls of `find_fixed_point`, `fuel` the inner loops. -/
def post_creation_analysis (env : Env X E) (this : Ptr) (pre_effect : E) (rounds fuel : Nat)
    (σ0 : State X E) : Outcome (State X E) :=
  match fixed_point_phase env this pre_effect rounds fuel (analysis_prologue env this σ0).1
      (analysis_prologue env this σ0).2 with
  | Outcome.assert_failed => Outcome.assert_failed
  | Outcome.timeout => Outcome.timeout
  | Outcome.ok r => return_phase env this r.1 r.2

/-- One of the two loops of `need_nested_loop` over `must_read_vars` or
`must_write_vars`: `true` as soon as a variable asks for a further loop. -/
def need_loop_for_vars (env : Env X E) : List Ptr → State X E → Bool × State X E
  | [], σ => (false, σ)
  | v :: rest, σ =>
    if env.get_dimension v > env.iv_bounds_size σ then (true, σ)
    else if env.get_dimension v = env.iv_bounds_size σ then
      let r := env.rnd_flipcoin 10 σ
      if r.1 then (true, r.2) else need_loop_for_vars env rest r.2
    else need_loop_for_vars env rest σ

/-- The method `Block::need_nested_loop(cg_context)`. -/
def need_nested_loop (env : Env X E) (this : Ptr) (σ : State X E) : Bool × State X E :=
  let s := get_last_stm σ this
  if σ.looping this = true ∧ (s = 0 ∨ env.must_jump σ s = false) ∧ env.rw_directive σ ≠ 0 then
    let r := need_loop_for_vars env (env.must_read_vars σ) σ
    if r.1 then r else need_loop_for_vars env (env.must_write_vars r.2) r.2
  else (false, σ)

/-- The method `Block::append_nested_loop(cg_context)`. -/
def append_nested_loop (env : Env X E) (this : Ptr) (σ : State X E) : Ptr × State X E :=
  let pre_facts := σ.fm.global_facts
  let σ1 := { σ with fm := { σ.fm with effect_stm := env.effect_empty } }
  let g := env.Statement_make_random (some eFor) σ1
  let sf := g.1
  let σ2 := g.2
  if σ2.error then (0, σ2)
  else
    let σ3 := { σ2 with stms := upd σ2.stms this (σ2.stms this ++ [sf]) }
    let pre_facts1 := env.makeup_new_var_facts σ3 pre_facts σ3.fm.global_facts
    let fm4 := σ3.fm
    let fm5 := { fm4 with
      map_facts_in := upd fm4.map_facts_in sf pre_facts1
      map_facts_out := upd fm4.map_facts_out sf fm4.global_facts
      map_accum_effect := upd (upd fm4.map_accum_effect sf fm4.effect_accum) this
        fm4.effect_accum
      map_visited := upd fm4.map_visited sf true }
    let fm6 := { fm5 with
      map_stm_effect := upd fm5.map_stm_effect this
        (env.add_effect (fm5.map_stm_effect this) (fm5.map_stm_effect sf)) }
    (sf, { σ3 with fm := fm6 })

/-- The expression `new Block(parent, block_size)`: a new address and the fields the
constructor `Block::Block` sets (the vectors of a new block are empty; `looping`
and `in_array_loop` are not set by the constructor). -/
def new_Block (env : Env X E) (σ : State X E) (parent : Ptr) (block_size : Nat) :
    Ptr × State X E :=
  let a := env.alloc σ
  (a.1, { σ with
    eType := upd σ.eType a.1 eBlock
    parent := upd σ.parent a.1 parent
    need_revisit := upd σ.need_revisit a.1 false
    block_size := upd σ.block_size a.1 block_size
    local_vars := upd σ.local_vars a.1 []
    stms := upd σ.stms a.1 []
    deleted_stms := upd σ.deleted_stms a.1 []
    break_stms := upd σ.break_stms a.1 []
    fm := { σ.fm with ext := a.2 } })

/-- The function `BlockProbability(block)`: `rnd_upto(block_size, &filter)`, the filter
built from `block_size - 1` (unsigned arithmetic). -/
def BlockProbability (env : Env X E) (σ : State X E) (block : Ptr) : Nat × State X E :=
  env.rnd_upto (σ.block_size block) [(σ.block_size block + 2 ^ 32 - 1) % 2 ^ 32] σ

/-- The state of block `b` right after `b->stms.push_back(s)` in the population loop of
`make_random`, `s` being the statement `Statement::make_random` gave in state `σ`. -/
def populate_push (env : Env X E) (b : Ptr) (σ : State X E) : State X E :=
  { (env.Statement_make_random none σ).2 with
    stms := upd (env.Statement_make_random none σ).2.stms b
      ((env.Statement_make_random none σ).2.stms b ++ [(env.Statement_make_random none σ).1]) }

/-- The loop `for (i = 0; i <= max; ++i)` of `Block::make_random`, `i` and `max` being
`unsigned int`: it ends when `Statement::make_random` gives NULL and after the
append of a statement that reports `must_return()`. -/
def populate (env : Env X E) (b max : Nat) : Nat → Nat → State X E → Option (State X E)
  | 0, _, _ => none
  | fuel + 1, i, σ =>
    if i ≤ max then
      if (env.Statement_make_random none σ).1 = 0 then some (env.Statement_make_random none σ).2
      else if env.must_return (populate_push env b σ) (env.Statement_make_random none σ).1 then
        some (populate_push env b σ)
      else populate env b max fuel ((i + 1) % 2 ^ 32) (populate_push env b σ)
    else some σ

/-- The statement `curr_func->stack.pop_back()`. -/
def stack_pop_back (σ : State X E) : State X E :=
  { σ with stack := σ.stack.dropLast }

/-- The statements of `Block::make_random` (and of `make_random_from_template_tree`)
from `new Block(...)` to `fm->set_fact_in(b, fm->global_facts)`: the new block is
set up and pushed on the block stack and on the inventory. Gives the block and
the state. -/
def enter_block (env : Env X E) (looping : Bool) (σ0 : State X E) : Ptr × State X E :=
  let nb := new_Block env σ0 (env.get_current_block σ0) env.max_block_size
  let b := nb.1
  let σ1 := { nb.2 with
    looping := upd nb.2.looping b looping
    in_array_loop := upd nb.2.in_array_loop b (decide (env.iv_bounds_size nb.2 ≠ 0)) }
  let σ2 := { σ1 with stack := σ1.stack ++ [b], blocks := σ1.blocks ++ [b] }
  (b, { σ2 with
    fm := { σ2.fm with map_facts_in := upd σ2.fm.map_facts_in b σ2.fm.global_facts } })

/-- The statement `if (b->need_nested_loop(cg_context) && cg_context.blk_depth <
CGOptions::max_blk_depth()) b->append_nested_loop(cg_context);` of `make_random`. -/
def nested_loop_phase (env : Env X E) (b : Ptr) (σ : State X E) : State X E :=
  if (need_nested_loop env b σ).1 = true ∧ env.blk_depth_ok (need_nested_loop env b σ).2 = true
  then (append_nested_loop env b (need_nested_loop env b σ).2).2
  else (need_nested_loop env b σ).2

/-- The statements of `make_random` after `post_creation_analysis`: the two tests of the
Error flag around `curr_func->stack.pop_back()` and the final `return b`. -/
def finish_block (b : Ptr) (σ9 : State X E) : Ptr × State X E :=
  if σ9.error then (0, stack_pop_back σ9)
  else if (stack_pop_back σ9).error then (0, stack_pop_back σ9)
  else (b, { stack_pop_back σ9 with error := false })

/-- The method `Block::make_random(cg_context, looping)`; gives the block returned (NULL
when generation failed) and the state. `delete b` frees memory, which the state
does not record. -/
def make_random (env : Env X E) (fuel : Nat) (looping : Bool) (σ : State X E) :
    Outcome (Ptr × State X E) :=
  if (env.depth_guard σ).1 then
    Outcome.ok (0, { σ with fm := { σ.fm with ext := (env.depth_guard σ).2 } })
  else
    let e := enter_block env looping { σ with fm := { σ.fm with ext := (env.depth_guard σ).2 } }
    let pre_effect := e.2.fm.effect_accum
    let bp := BlockProbability env e.2 e.1
    if bp.2.error then Outcome.ok (0, stack_pop_back bp.2)
    else
      match populate env e.1 (bp.1 % 2 ^ 32) fuel 0 bp.2 with
      | none => Outcome.timeout
      | some σ6 =>
        if σ6.error then Outcome.ok (0, stack_pop_back σ6)
        else
          match post_creation_analysis env e.1 pre_effect fuel fuel
              (nested_loop_phase env e.1 σ6) with
          | Outcome.assert_failed => Outcome.assert_failed
          | Outcome.timeout => Outcome.timeout
          | Outcome.ok σ9 => Outcome.ok (finish_block e.1 σ9)

/-- The method `Block::make_dummy_block(cg_context)`. -/
def make_dummy_block (env : Env X E) (fuel : Nat) (σ : State X E) : Outcome (Ptr × State X E) :=
  let nb := new_Block env σ (env.get_current_block σ) 0
  let b := nb.1
  let σ1 := { nb.2 with
    in_array_loop := upd nb.2.in_array_loop b (decide (env.iv_bounds_size nb.2 ≠ 0)) }
  let σ2 := { σ1 with blocks := σ1.blocks ++ [b], stack := σ1.stack ++ [b] }
  let σ3 := { σ2 with
    fm := { σ2.fm with map_facts_in := upd σ2.fm.map_facts_in b σ2.fm.global_facts } }
  let pre_effect := σ3.fm.effect_accum
  match post_creation_analysis env b pre_effect fuel fuel σ3 with
  | Outcome.assert_failed => Outcome.assert_failed
  | Outcome.timeout => Outcome.timeout
  | Outcome.ok σ4 => Outcome.ok (b, stack_pop_back σ4)

/-- A value of `nlohmann::json`, as far as the template walk looks at it: the
members of an object come in iteration order. -/
inductive Json where
  | null
  | scalar
  | array (items : List Json)
  | object (members : List (String × Json))

/-- What `j[key]` on a `const` json gives: the member, a `type_error` exception when
`j` is not an object, a failed assertion when the key is missing. -/
inductive JsonAccess where
  | value (j : Json)
  | type_error
  | assert_failed

/-- The member access `j[key]` on a `const json&`. -/
def Json.const_at : Json → String → JsonAccess
  | Json.object members, key =>
    match members.lookup key with
    | some v => JsonAccess.value v
    | none => JsonAccess.assert_failed
  | _, _ => JsonAccess.type_error

/-- The test `j.contains(key)`. -/
def Json.contains : Json → String → Bool
  | Json.object members, key => (members.lookup key).isSome
  | _, _ => false

/-- Result of walking a template: `thrown` is a C++ exception leaving the walk. -/
inductive GenOutcome (X E : Type) where
  | ok (σ : State X E)
  | thrown (σ : State X E)
  | assert_failed
  | timeout

/-- Sequencing of a walk: it goes on with `f` from the state `o` ended in when `o`
ended normally; an exception, a failed assertion or a timeout ends it. -/
def GenOutcome.and_then (o : GenOutcome X E) (f : State X E → GenOutcome X E) :
    GenOutcome X E :=
  match o with
  | GenOutcome.ok σ => f σ
  | GenOutcome.thrown σ => GenOutcome.thrown σ
  | GenOutcome.assert_failed => GenOutcome.assert_failed
  | GenOutcome.timeout => GenOutcome.timeout

/-- A range-for over json values, each handled by `f`. -/
def for_each_json (f : Json → State X E → GenOutcome X E) :
    List Json → State X E → GenOutcome X E
  | [], σ => GenOutcome.ok σ
  | j :: rest, σ => (f j σ).and_then (for_each_json f rest)

/-- The method `Block::generate_statements_from_json(cg_context, statements, b)`, where
`gen` stands for `generate_statement_from_json`: a range-for over the elements of
an array, the values of an object, or the value itself when it is a scalar. -/
def generate_statements_from_json (gen : Json → Ptr → State X E → GenOutcome X E)
    (statements : Json) (b : Ptr) (σ : State X E) : GenOutcome X E :=
  match statements with
  | Json.null => GenOutcome.ok σ
  | Json.scalar => gen Json.scalar b σ
  | Json.array items => for_each_json (fun j => gen j b) items σ
  | Json.object members => for_each_json (fun j => gen j b) (members.map Prod.snd) σ

/-- The walk `generate_statements_from_json(cg_context, node[key]["Statements"], b)`. -/
def generate_body (gen : Json → Ptr → State X E → GenOutcome X E) (node : Json) (key : String)
    (b : Ptr) (σ : State X E) : GenOutcome X E :=
  match node.const_at key with
  | JsonAccess.type_error => GenOutcome.thrown σ
  | JsonAccess.assert_failed => GenOutcome.assert_failed
  | JsonAccess.value body =>
    match body.const_at "Statements" with
    | JsonAccess.type_error => GenOutcome.thrown σ
    | JsonAccess.assert_failed => GenOutcome.assert_failed
    | JsonAccess.value statements => generate_statements_from_json gen statements b σ

/-- The expression `new StatementIf(b, *expr, *if_true, *if_false)`: a new address with
kind `eIfElse` and parent `b`. -/
def new_StatementIf (env : Env X E) (σ : State X E) (b : Ptr) : Ptr × State X E :=
  let a := env.alloc σ
  (a.1, { σ with
    eType := upd σ.eType a.1 eIfElse
    parent := upd σ.parent a.1 b
    fm := { σ.fm with ext := a.2 } })

/-- The statement `b->stms.push_back(s)`. -/
def stms_push_back (σ : State X E) (b s : Ptr) : State X E :=
  { σ with stms := upd σ.stms b (σ.stms b ++ [s]) }

/-- The body of the loop of `generate_statement_from_json` for one member `type : node`
of the statement object. -/
def generate_member (env : Env X E) (gen : Json → Ptr → State X E → GenOutcome X E)
    (type : String) (node : Json) (b : Ptr) (σ : State X E) : GenOutcome X E :=
  if type = "StatementAssign" then
    let g := env.StatementAssign_make_random σ
    GenOutcome.ok (if g.1 ≠ 0 then stms_push_back g.2 b g.1 else g.2)
  else if type = "StatementFor" then
    let g := env.StatementFor_make_random σ
    let σ1 := stms_push_back g.2 b g.1
    if node.contains "Block" then generate_body gen node "Block" b σ1
    else GenOutcome.ok σ1
  else if type = "StatementIf" then
    let e := env.Expression_make_random σ
    let t := new_Block env e.2 b env.max_block_size
    let f := new_Block env t.2 b env.max_block_size
    (if node.contains "Block" then generate_body gen node "Block" t.1 f.2
      else GenOutcome.ok f.2).and_then fun σ1 =>
    (if node.contains "ElseBlock" then generate_body gen node "ElseBlock" f.1 σ1
      else GenOutcome.ok σ1).and_then fun σ2 =>
    let n := new_StatementIf env σ2 b
    GenOutcome.ok (if n.1 ≠ 0 then stms_push_back n.2 b n.1 else n.2)
  else GenOutcome.ok σ

/-- The loop `for (it = stmt_json.begin(); ...)` of `generate_statement_from_json` over
the members of an object. -/
def generate_members (env : Env X E) (gen : Json → Ptr → State X E → GenOutcome X E) (b : Ptr) :
    List (String × Json) → State X E → GenOutcome X E
  | [], σ => GenOutcome.ok σ
  | m :: rest, σ => (generate_member env gen m.1 m.2 b σ).and_then (generate_members env gen b rest)

/-- The method `Block::generate_statement_from_json(cg_context, stmt_json, b)`; the fuel
bounds the nesting of the template. On a non-empty array or a scalar `it.key()`
throws. -/
def generate_statement_from_json (env : Env X E) :
    Nat → Json → Ptr → State X E → GenOutcome X E
  | 0, _, _, _ => GenOutcome.timeout
  | fuel + 1, stmt_json, b, σ =>
    match stmt_json with
    | Json.null => GenOutcome.ok σ
    | Json.scalar => GenOutcome.thrown σ
    | Json.array [] => GenOutcome.ok σ
    | Json.array (_ :: _) => GenOutcome.thrown σ
    | Json.object members =>
      generate_members env (generate_statement_from_json env fuel) b members σ

/-- The method `Block::make_random_from_template_tree(cg_context, structure, looping)`;
`tree` is the argument `structure`. An exception of the walk is caught: the stack
is popped and NULL returned. -/
def make_random_from_template_tree (env : Env X E) (fuel : Nat) (tree : Json)
    (looping : Bool) (σ : State X E) : Outcome (Ptr × State X E) :=
  if (env.depth_guard σ).1 then
    Outcome.ok (0, { σ with fm := { σ.fm with ext := (env.depth_guard σ).2 } })
  else
    let e := enter_block env looping { σ with fm := { σ.fm with ext := (env.depth_guard σ).2 } }
    let pre_effect := e.2.fm.effect_accum
    match generate_body (generate_statement_from_json env fuel) tree "Block" e.1 e.2 with
    | GenOutcome.timeout => Outcome.timeout
    | GenOutcome.assert_failed => Outcome.assert_failed
    | GenOutcome.thrown σ4 => Outcome.ok (0, stack_pop_back σ4)
    | GenOutcome.ok σ4 =>
      match post_creation_analysis env e.1 pre_effect fuel fuel σ4 with
      | Outcome.assert_failed => Outcome.assert_failed
      | Outcome.timeout => Outcome.timeout
      | Outcome.ok σ5 =>
        if σ5.error then Outcome.ok (0, stack_pop_back σ5)
        else Outcome.ok (e.1, { stack_pop_back σ5 with error := false })

/-! ## A small implementation of the external interface, for concrete runs -/

/-- Union of two fact vectors. -/
def exMerge (a b : FactVec) : FactVec :=
  a ++ b.filter (fun x => !a.contains x)

/-- A small implementation of the external interface. Every statement contains only
itself and its kind is `kind`; `find_edges_in` gives the edges with the given
destination and flags; facts merge by union; the analysis of a statement fails
exactly on the statements of `bad`; the shortcut analysis reports 0 for a visited
block whose recorded incoming facts are the inputs; the external state is the list
of the addresses that the generators and `operator new` hand out next (NULL when
it is empty), a generated statement has kind `kind` and no parent. -/
def exEnv (kind : Ptr → eStatementType) (bad : List Ptr) (needRet : Bool) :
    Env (List Ptr) Unit where
  contains_stmt := fun _ s x => decide (s = x)
  find_typed_stmts := fun _ s types => if kind s ∈ types then [s] else []
  find_edges_in := fun edges this pd bl =>
    edges.filter (fun e => decide (e.dest = this) && (e.post_dest == pd) && (e.back_link == bl))
  has_edge_in := fun edges this pd bl =>
    edges.any (fun e => decide (e.dest = this) && (e.post_dest == pd) && (e.back_link == bl))
  must_return := fun σ s => decide (σ.eType s = eReturn)
  must_jump := fun σ s => decide (σ.eType s = eReturn ∨ σ.eType s = eGoto
    ∨ σ.eType s = eBreak ∨ σ.eType s = eContinue)
  merge_facts := exMerge
  shortcut_analysis := fun σ this inputs =>
    if σ.fm.map_visited this = true ∧ inputs = σ.fm.map_facts_in this then
      (0, σ.fm.map_facts_out this, σ.fm)
    else (2, inputs, σ.fm)
  add_new_var_fact := fun v f => exMerge f [v]
  analyze_with_edges_in := fun σ s f => (!bad.contains s, f, σ.fm)
  update_facts_for_oos_vars := fun vars f => f.filter (fun x => !vars.contains x)
  remove_rv_facts := fun _ f => f
  reset_stm_fact_maps := fun σ _ => σ.fm
  makeup_new_var_facts := fun _ a _ => a
  visit_facts := fun σ _ f => (true, f, σ.fm)
  effect_empty := ()
  add_effect := fun _ _ => ()
  need_return_stmt := fun _ => needRet
  Statement_make_random := fun k σ =>
    match k with
    | some t => (σ.fm.ext.headD 0, { σ with
        eType := upd σ.eType (σ.fm.ext.headD 0) t
        fm := { σ.fm with ext := σ.fm.ext.tail } })
    | none => (σ.fm.ext.headD 0, { σ with
        eType := upd σ.eType (σ.fm.ext.headD 0) (kind (σ.fm.ext.headD 0))
        fm := { σ.fm with ext := σ.fm.ext.tail } })
  StatementAssign_make_random := fun σ =>
    (σ.fm.ext.headD 0, { σ with
      eType := upd σ.eType (σ.fm.ext.headD 0) eAssign
      fm := { σ.fm with ext := σ.fm.ext.tail } })
  StatementFor_make_random := fun σ =>
    (σ.fm.ext.headD 0, { σ with
      eType := upd σ.eType (σ.fm.ext.headD 0) eFor
      fm := { σ.fm with ext := σ.fm.ext.tail } })
  Expression_make_random := fun σ =>
    (σ.fm.ext.headD 0, { σ with fm := { σ.fm with ext := σ.fm.ext.tail } })
  get_current_block := fun σ => σ.stack.getLastD 0
  iv_bounds_size := fun _ => 0
  rw_directive := fun _ => 0
  must_read_vars := fun _ => []
  must_write_vars := fun _ => []
  get_dimension := fun _ => 0
  rnd_flipcoin := fun _ σ => (false, σ)
  rnd_upto := fun n _ σ => (n - 1, σ)
  blk_depth_ok := fun _ => true
  depth_guard := fun σ => (false, σ.fm.ext)
  max_block_size := 4
  alloc := fun σ => (σ.fm.ext.headD 0, σ.fm.ext.tail)

/-- A fact manager with nothing recorded; `supply` is the external state. -/
def exFactMgr (supply : List Ptr) : FactMgr (List Ptr) Unit where
  map_visited := fun _ => false
  map_facts_in := fun _ => []
  map_facts_out := fun _ => []
  map_stm_effect := fun _ => ()
  map_accum_effect := fun _ => ()
  global_facts := [7]
  effect_accum := ()
  effect_stm := ()
  ext := supply

/-- A state with one block, `1`, in the inventory: it is the body of a loop when
`loop` holds, its statements are `body` (their kinds are `kind`, their parent is
block `1`) and the registry holds `edges`. -/
def exState (kind : Ptr → eStatementType) (loop : Bool) (body : List Ptr)
    (edges : List CFGEdge) (supply : List Ptr) : State (List Ptr) Unit where
  eType := kind
  parent := fun p => if p ∈ body then 1 else 0
  looping := fun p => decide (p = 1) && loop
  need_revisit := fun _ => false
  in_array_loop := fun _ => false
  block_size := fun _ => 4
  local_vars := fun _ => []
  stms := fun b => if b = 1 then body else []
  deleted_stms := fun _ => []
  break_stms := fun _ => []
  blocks := [1]
  stack := []
  cfg_edges := edges
  error := false
  fm := exFactMgr supply

/-- Kinds for the concrete runs: `1` is a block, `10` a goto, `20` a return, `30` a
continue, everything else an assignment. -/
def exKind : Ptr → eStatementType :=
  fun p => if p = 1 then eBlock else if p = 10 then eGoto else if p = 20 then eReturn
    else if p = 30 then eContinue else eAssign

/-- The index reported by a failed `find_fixed_point`. -/
def FixResult.failed_at {X E : Type} : FixResult X E → Option Nat
  | FixResult.failure i _ _ => some i
  | _ => none

/-- Block `1` with the statements `10` (a goto to `11`), `11` and `12`; the registry
holds the edge of the goto. The block is not a loop body. -/
def exGotoBlock : State (List Ptr) Unit :=
  exState exKind false [10, 11, 12] [⟨10, 11, false, false⟩] []

/-- The state `exGotoBlock` with block `1` the body of a loop. -/
def exGotoLoop : State (List Ptr) Unit :=
  exState exKind true [10, 11, 12] [⟨10, 11, false, false⟩] []

/-- A state in which block `1` is on the block stack and the generators hand out the
addresses `2`, `11`, `20`, `12` in turn (`20` is a return statement). -/
def exGenState : State (List Ptr) Unit :=
  { exState exKind false [] [] [2, 11, 20, 12] with stack := [1] }

/-- The template `{"Block": {"Statements": [{"StatementAssign": {}}, {"StatementFor":
{"Block": {"Statements": [{"StatementAssign": {}}]}}}]}}`. -/
def exTemplate : Json :=
  Json.object [("Block", Json.object [("Statements", Json.array [
    Json.object [("StatementAssign", Json.object [])],
    Json.object [("StatementFor", Json.object [("Block", Json.object [("Statements",
      Json.array [Json.object [("StatementAssign", Json.object [])]])])])]])])]

/-- Kinds for the concrete runs with a second goto: `13` is a goto, `12` an if
statement, the others are as in `exKind`. -/
def exKind2 : Ptr → eStatementType :=
  fun p => if p = 13 then eGoto else if p = 12 then eIfElse else exKind p

/-- Two blocks: block `1` = `[11, 12, 13]` and block `2` = `[10]`, a branch of the if
statement `12`. The goto `10` of block `2` jumps to `11`, the goto `13` of block `1`
jumps to `10`. -/
def exCrossState : State (List Ptr) Unit :=
  { exState exKind2 false [11, 12, 13]
      [⟨10, 11, false, true⟩, ⟨13, 10, false, true⟩] [] with
    parent := fun p => if p = 11 ∨ p = 12 ∨ p = 13 ∨ p = 2 then 1 else if p = 10 then 2 else 0
    stms := fun b => if b = 1 then [11, 12, 13] else if b = 2 then [10] else []
    blocks := [1, 2] }

/-- The implementation `exEnv exKind [] needRet` in which every call of
`Statement::make_random` fails: it gives NULL and sets the Error flag. -/
def exErrorEnv (needRet : Bool) : Env (List Ptr) Unit :=
  { exEnv exKind [] needRet with
    Statement_make_random := fun _ σ => (0, { σ with error := true }) }

/-- The state a template walk ended in, normally or with an exception. -/
def GenOutcome.state {X E : Type} : GenOutcome X E → Option (State X E)
  | GenOutcome.ok σ => some σ
  | GenOutcome.thrown σ => some σ
  | _ => none

/-- A state in which block `1` is on the block stack and the generators hand out the
addresses `2`, `11`, `12`, `13` in turn. -/
def exTemplateState : State (List Ptr) Unit :=
  { exState exKind false [] [] [2, 11, 12, 13] with stack := [1] }

/-- The implementation `exEnv exKind [] false` with an analysis that adds a fact to
the facts it is given as long as there are fewer than six of them. -/
def exGrowEnv : Env (List Ptr) Unit :=
  { exEnv exKind [] false with
    analyze_with_edges_in := fun σ _ f =>
      (true, if f.length < 6 then f ++ [100 + f.length] else f, σ.fm) }

/-- The loop body `1` = `[11]` with its self back edge, already visited, nothing
recorded for it. -/
def exVisitedLoop : State (List Ptr) Unit :=
  { exState exKind true [11] [⟨1, 1, false, true⟩] [] with
    fm := { exFactMgr [] with map_visited := fun p => decide (p = 1) } }

/-- A state in which block `1` is on the block stack and the generators hand out the
addresses `2`, `11`, `12`, `13`, `14`, `15` in turn. -/
def exCountState : State (List Ptr) Unit :=
  { exState exKind false [] [] [2, 11, 12, 13, 14, 15] with stack := [1] }

/-- Kinds for the concrete run with a statement that owns a block: `1` and `2` are
blocks, `10` is a goto, `12` an if statement, everything else an assignment. -/
def exOwnKind : Ptr → eStatementType :=
  fun p => if p = 1 ∨ p = 2 then eBlock else if p = 10 then eGoto
    else if p = 12 then eIfElse else eAssign

/-- The implementation `exEnv exOwnKind [] false` in which the if statement `12` owns
block `2`: `12` contains itself, block `2` and the statements of block `2`, and
`find_typed_stmts` looks through them. -/
def exOwnEnv : Env (List Ptr) Unit :=
  { exEnv exOwnKind [] false with
    contains_stmt := fun st s x =>
      decide (s = x) || (decide (s = 12) && (decide (x = 2) || (st 2).contains x))
    find_typed_stmts := fun st s types =>
      (if exOwnKind s ∈ types then [s] else []) ++
        (if s = 12 then (st 2).filter (fun x => decide (exOwnKind x ∈ types)) else []) }

/-- Two blocks in the inventory: block `1` = `[10, 11, 12]` and block `2` = `[14]`, the
branch of the if statement `12`; the goto `10` jumps to `14`. -/
def exOwnState : State (List Ptr) Unit :=
  { exState exOwnKind false [10, 11, 12] [⟨10, 14, false, false⟩] [] with
    parent := fun p => if p = 10 ∨ p = 11 ∨ p = 12 ∨ p = 2 then 1 else if p = 14 then 2 else 0
    stms := fun b => if b = 1 then [10, 11, 12] else if b = 2 then [14] else []
    blocks := [1, 2] }

/-- The result of a run that ended normally. -/
def Outcome.result {α : Type} : Outcome α → Option α
  | Outcome.ok a => some a
  | _ => none

/-! ## Notions used in the statements -/

/-- State `σ'` comes from `σ` by deleting only: statements leave `stms` and
`break_stms`, blocks leave the inventory, edges leave the registry, and every other
field but `deleted_stms` is unchanged. -/
structure Shrinks (σ σ' : State X E) : Prop where
  eType : σ'.eType = σ.eType
  parent : σ'.parent = σ.parent
  looping : σ'.looping = σ.looping
  need_revisit : σ'.need_revisit = σ.need_revisit
  in_array_loop : σ'.in_array_loop = σ.in_array_loop
  block_size : σ'.block_size = σ.block_size
  local_vars : σ'.local_vars = σ.local_vars
  stms : ∀ b, (σ'.stms b).Sublist (σ.stms b)
  break_stms : ∀ b, (σ'.break_stms b).Sublist (σ.break_stms b)
  blocks : σ'.blocks.Sublist σ.blocks
  stack : σ'.stack = σ.stack
  cfg_edges : σ'.cfg_edges.Sublist σ.cfg_edges
  error : σ'.error = σ.error
  fm : σ'.fm = σ.fm

/-- The statement generators and the random functions, which are outside `Block.cpp`,
leave the block stack of the function as they found it. -/
structure Env.keeps_stack (env : Env X E) : Prop where
  Statement_make_random : ∀ k σ, (env.Statement_make_random k σ).2.stack = σ.stack
  StatementAssign_make_random : ∀ σ, (env.StatementAssign_make_random σ).2.stack = σ.stack
  StatementFor_make_random : ∀ σ, (env.StatementFor_make_random σ).2.stack = σ.stack
  Expression_make_random : ∀ σ, (env.Expression_make_random σ).2.stack = σ.stack
  rnd_flipcoin : ∀ p σ, (env.rnd_flipcoin p σ).2.stack = σ.stack
  rnd_upto : ∀ n f σ, (env.rnd_upto n f σ).2.stack = σ.stack

/-- The stack of the state a template walk leaves, when it ends normally or with an
exception. -/
def GenOutcome.stack_is (o : GenOutcome X E) (st : List Ptr) : Prop :=
  match o with
  | GenOutcome.ok σ => σ.stack = st
  | GenOutcome.thrown σ => σ.stack = st
  | _ => True

/-- The population loop `populate` with a log: the statements appended, in order, each
with what its `must_return()` reported in the test that follows the append. -/
def populate_log (env : Env X E) (b max : Nat) :
    Nat → Nat → State X E → Option (State X E × List (Ptr × Bool))
  | 0, _, _ => none
  | fuel + 1, i, σ =>
    if i ≤ max then
      if (env.Statement_make_random none σ).1 = 0 then
        some ((env.Statement_make_random none σ).2, [])
      else if env.must_return (populate_push env b σ) (env.Statement_make_random none σ).1 then
        some (populate_push env b σ, [((env.Statement_make_random none σ).1, true)])
      else
        (populate_log env b max fuel ((i + 1) % 2 ^ 32) (populate_push env b σ)).map
          (fun r => (r.1, ((env.Statement_make_random none σ).1, false) :: r.2))
    else some (σ, [])

/-- Whether `find_fixed_point` returned `true`. -/
def FixResult.succeeded : FixResult X E → Bool
  | FixResult.success _ _ => true
  | _ => false

/-- From `σ` to `σ'` statements only moved from `stms` to the end of `deleted_stms` of
their block: for every block, `deleted_stms` grew by a list `added` that, together
with what is left of `stms`, makes up the former `stms`. -/
def Moved (σ σ' : State X E) : Prop :=
  ∀ b, ∃ added, σ'.deleted_stms b = σ.deleted_stms b ++ added ∧
    (σ'.stms b ++ added).Perm (σ.stms b)

/-- The self back edge of block `b`, as `post_creation_analysis` registers it with
`create_cfg_edge(this, this, false, true)`. -/
def self_edge (b : Ptr) : CFGEdge := ⟨b, b, false, true⟩

/-- The state in which the body of the loop `while (!find_fixed_point(...))` tests
`from_tail_to_head()`, after `need_revisit = true` and `reset_stm_fact_maps(this)`. -/
def after_reset (env : Env X E) (this : Ptr) (σ1 : State X E) : State X E :=
  { σ1 with
    need_revisit := upd σ1.need_revisit this true
    fm := env.reset_stm_fact_maps { σ1 with need_revisit := upd σ1.need_revisit this true } this }

/-- The request for a return statement that `append_return_stmt` makes when
`post_creation_analysis` calls it after the fixed-point phase ended in state `σ5`
with the local `post_facts`: `fm->global_facts = post_facts`, the statement effect is
cleared, then `Statement::make_random(cg_context, eReturn)`. -/
def return_request (env : Env X E) (post_facts : FactVec) (σ5 : State X E) : Ptr × State X E :=
  env.Statement_make_random (some eReturn)
    { σ5 with fm := { σ5.fm with global_facts := post_facts, effect_stm := env.effect_empty } }

/-- The state in which `append_return_stmt` analyses the return statement: the state
after `return_request`, with the statement pushed on `stms` of the block. -/
def return_pushed (env : Env X E) (this : Ptr) (post_facts : FactVec) (σ5 : State X E) :
    State X E :=
  { (return_request env post_facts σ5).2 with
    stms := upd (return_request env post_facts σ5).2.stms this
      ((return_request env post_facts σ5).2.stms this ++ [(return_request env post_facts σ5).1]) }

/-- The call `sr->visit_facts(fm->global_facts, cg_context)` of `append_return_stmt`
in the state `return_pushed`. -/
def return_visit (env : Env X E) (this : Ptr) (post_facts : FactVec) (σ5 : State X E) :
    Bool × FactVec × FactMgr X E :=
  env.visit_facts (return_pushed env this post_facts σ5)
    (return_request env post_facts σ5).1
    (return_pushed env this post_facts σ5).fm.global_facts

/-- The loop of `find_fixed_point` together with the number of iterations of the
`do ... while (true)` loop that were begun, the one that ends the call included.
The first component is `find_fixed_point_loop`. -/
def find_fixed_point_loop_count (env : Env X E) (σ : State X E) (this : Ptr) :
    Nat → Nat → FactVec → FactVec → Bool → FactMgr X E → Option (FixResult X E × Nat)
  | 0, _, _, _, _, _ => none
  | fuel + 1, cnt, inputs, post_facts, visit_once, fm =>
    match find_fixed_point_pass env σ this cnt inputs post_facts visit_once fm with
    | PassResult.done r => some (r, 1)
    | PassResult.again cnt1 inputs1 post_facts1 fm1 =>
      match find_fixed_point_loop_count env σ this fuel cnt1 inputs1 post_facts1 false fm1 with
      | none => none
      | some q => some (q.1, q.2 + 1)

/-- The result of `find_fixed_point` together with the number of iterations begun. -/
def find_fixed_point_count (env : Env X E) (σ : State X E) (this : Ptr)
    (inputs post_facts : FactVec) (visit_once : Bool) : Option (FixResult X E × Nat) :=
  find_fixed_point_loop_count env σ this 10 0 inputs post_facts visit_once σ.fm

/-- Fuel that suffices for `remove_stmt` on a registry of `n` edges, when every walk
to the enclosing loop ends within `D` steps. -/
def remove_stmt_fuel (n D : Nat) : Nat := (n + 1) * (n + 1) + D + 1

/-! ## Lemmas on `remove_stmt` -/

theorem Shrinks.refl (σ : State X E) : Shrinks σ σ :=
  ⟨rfl, rfl, rfl, rfl, rfl, rfl, rfl, fun _ => List.Sublist.refl _, fun _ => List.Sublist.refl _,
    List.Sublist.refl _, rfl, List.Sublist.refl _, rfl, rfl⟩

theorem Shrinks.trans {σ1 σ2 σ3 : State X E} (h12 : Shrinks σ1 σ2) (h23 : Shrinks σ2 σ3) :
    Shrinks σ1 σ3 :=
  ⟨h23.eType.trans h12.eType, h23.parent.trans h12.parent, h23.looping.trans h12.looping,
    h23.need_revisit.trans h12.need_revisit, h23.in_array_loop.trans h12.in_array_loop,
    h23.block_size.trans h12.block_size, h23.local_vars.trans h12.local_vars,
    fun b => (h23.stms b).trans (h12.stms b), fun b => (h23.break_stms b).trans (h12.break_stms b),
    h23.blocks.trans h12.blocks, h23.stack.trans h12.stack, h23.cfg_edges.trans h12.cfg_edges,
    h23.error.trans h12.error, h23.fm.trans h12.fm⟩

theorem upd_sublist (m : Ptr → List Ptr) (a : Ptr) (v : List Ptr) (h : v.Sublist (m a)) (b : Ptr) :
    (upd m a v b).Sublist (m b) := by
  unfold upd
  split
  · next hb => subst hb; exact h
  · exact List.Sublist.refl _

theorem remove_jump_refs_shrinks (fuel : Nat) (this : Ptr) (cfg_stms : List Ptr)
    (σ σ1 : State X E) (h : remove_jump_refs fuel this cfg_stms σ = some σ1) : Shrinks σ σ1 := by
  unfold remove_jump_refs at h
  split at h
  · cases h; exact Shrinks.refl σ
  · split at h
    · cases h
    · next b _ =>
      cases h
      refine ⟨rfl, rfl, rfl, rfl, rfl, rfl, rfl, fun _ => List.Sublist.refl _, ?_,
        List.Sublist.refl _, rfl, List.filter_sublist _, rfl, rfl⟩
      intro c
      dsimp only
      split
      · exact upd_sublist _ _ _ (List.filter_sublist _) c
      · exact List.Sublist.refl _

theorem delete_stmt_itself_shrinks (this s : Ptr) (cnt : Nat) (σ : State X E) :
    Shrinks σ (delete_stmt_itself this s cnt σ).2 := by
  unfold delete_stmt_itself
  split
  · exact ⟨rfl, rfl, rfl, rfl, rfl, rfl, rfl,
      fun b => upd_sublist _ _ _ (List.erase_sublist _ _) b, fun _ => List.Sublist.refl _,
      List.Sublist.refl _, rfl, List.Sublist.refl _, rfl, rfl⟩
  · exact Shrinks.refl σ

theorem erase_edge_shrinks (σ : State X E) (i : Nat) :
    Shrinks σ { σ with cfg_edges := σ.cfg_edges.eraseIdx i } :=
  ⟨rfl, rfl, rfl, rfl, rfl, rfl, rfl, fun _ => List.Sublist.refl _, fun _ => List.Sublist.refl _,
    List.Sublist.refl _, rfl, List.eraseIdx_sublist _ _, rfl, rfl⟩

/-- The five ways one step of the scan goes on. -/
theorem scan_edges_in_cases (env : Env X E)
    (rm : Ptr → Ptr → State X E → Option (Nat × State X E)) (this s : Ptr)
    (fuel i len cnt : Nat) (σ : State X E) (r : Nat × State X E)
    (h : scan_edges_in env rm this s (fuel + 1) i len cnt σ = some r) :
    (¬ i < len ∧ r = (cnt, σ)) ∨
    (i < len ∧ ∃ edge, σ.cfg_edges.get? i = some edge ∧
      ((env.contains_stmt σ.stms s edge.dest = false ∧
          scan_edges_in env rm this s fuel (i + 1) len cnt σ = some r) ∨
       (env.contains_stmt σ.stms s edge.dest = true ∧ σ.eType edge.src ≠ eGoto ∧
          scan_edges_in env rm this s fuel i (len - 1) cnt
            { σ with cfg_edges := σ.cfg_edges.eraseIdx i } = some r) ∨
       (env.contains_stmt σ.stms s edge.dest = true ∧ σ.eType edge.src = eGoto ∧
          ∃ deleted σ2, rm (σ.parent edge.src) edge.src
              { σ with cfg_edges := σ.cfg_edges.eraseIdx i } = some (deleted, σ2) ∧
            ((σ2.cfg_edges.length ≠ len - 1 ∧
                scan_edges_in env rm this s fuel 0 σ2.cfg_edges.length
                  (if σ.parent edge.src = this then cnt + deleted else cnt) σ2 = some r) ∨
             (σ2.cfg_edges.length = len - 1 ∧
                scan_edges_in env rm this s fuel i (len - 1)
                  (if σ.parent edge.src = this then cnt + deleted else cnt) σ2 = some r))))) := by
  rw [scan_edges_in] at h
  by_cases hlt : i < len
  · rw [if_pos hlt] at h
    right
    refine ⟨hlt, ?_⟩
    cases hget : σ.cfg_edges.get? i with
    | none => rw [hget] at h; cases h
    | some edge =>
      rw [hget] at h
      dsimp only at h
      refine ⟨edge, rfl, ?_⟩
      by_cases hc : env.contains_stmt σ.stms s edge.dest = true
      · rw [if_pos hc] at h
        right
        by_cases hg : σ.eType edge.src = eGoto
        · rw [if_pos hg] at h
          right
          refine ⟨hc, hg, ?_⟩
          cases hr : rm (σ.parent edge.src) edge.src
              { σ with cfg_edges := σ.cfg_edges.eraseIdx i } with
          | none => rw [hr] at h; cases h
          | some r2 =>
            obtain ⟨deleted, σ2⟩ := r2
            rw [hr] at h
            dsimp only at h
            refine ⟨deleted, σ2, rfl, ?_⟩
            by_cases hsz : σ2.cfg_edges.length ≠ len - 1
            · rw [if_pos hsz] at h
              exact Or.inl ⟨hsz, h⟩
            · rw [if_neg hsz] at h
              exact Or.inr ⟨not_not.mp hsz, h⟩
        · rw [if_neg hg] at h
          exact Or.inl ⟨hc, hg, h⟩
      · rw [if_neg hc] at h
        exact Or.inl ⟨by simpa using hc, h⟩
  · rw [if_neg hlt] at h
    left
    exact ⟨hlt, (Option.some.inj h).symm⟩

/-- An invariant of the states that holds across erasing an edge and across the
recursive calls holds across the scan. -/
theorem scan_edges_in_invariant (env : Env X E)
    (rm : Ptr → Ptr → State X E → Option (Nat × State X E)) (this s : Ptr)
    (P : State X E → Prop)
    (herase : ∀ σ i, P σ → P { σ with cfg_edges := σ.cfg_edges.eraseIdx i })
    (hrm : ∀ p g σa r, P σa → σa.eType g = eGoto → rm p g σa = some r → P r.2) :
    ∀ fuel i len cnt σ r, P σ → scan_edges_in env rm this s fuel i len cnt σ = some r → P r.2 := by
  intro fuel
  induction fuel with
  | zero => intro i len cnt σ r _ h; simp [scan_edges_in] at h
  | succ n ih =>
    intro i len cnt σ r hP h
    rcases scan_edges_in_cases env rm this s n i len cnt σ r h with
      ⟨_, rfl⟩ | ⟨_, edge, _, ⟨_, h1⟩ | ⟨_, _, h1⟩ | ⟨_, hg, deleted, σ2, hr, ⟨_, h1⟩ | ⟨_, h1⟩⟩⟩
    · exact hP
    · exact ih _ _ _ _ _ hP h1
    · exact ih _ _ _ _ _ (herase σ i hP) h1
    · exact ih _ _ _ _ _ (hrm _ _ _ _ (herase σ i hP) hg hr) h1
    · exact ih _ _ _ _ _ (hrm _ _ _ _ (herase σ i hP) hg hr) h1

theorem remove_stmt_shrinks (env : Env X E) :
    ∀ fuel this s (σ : State X E) r, remove_stmt env fuel this s σ = some r → Shrinks σ r.2 := by
  intro fuel
  induction fuel with
  | zero => intro this s σ r h; simp [remove_stmt] at h
  | succ n ih =>
    intro this s σ r h
    rw [remove_stmt] at h
    dsimp only at h
    split at h
    · cases h
    · next σ1 h1 =>
      split at h
      · cases h
      · next cnt σ2 h2 =>
        cases h
        have s1 := remove_jump_refs_shrinks _ _ _ _ _ h1
        have s2 : Shrinks σ σ2 :=
          scan_edges_in_invariant env (remove_stmt env n) this s (fun τ => Shrinks σ τ)
            (fun τ i hτ => hτ.trans (erase_edge_shrinks τ i))
            (fun p g σa r hσa _ hr => hσa.trans (ih p g σa r hr))
            _ _ _ _ _ _ s1 h2
        refine (s2.trans ?_).trans (delete_stmt_itself_shrinks _ _ _ _)
        exact ⟨rfl, rfl, rfl, rfl, rfl, rfl, rfl, fun _ => List.Sublist.refl _,
          fun _ => List.Sublist.refl _, List.filter_sublist _, rfl, List.Sublist.refl _, rfl, rfl⟩

theorem enclosing_loop_congr (σ σ' : State X E) (hl : σ'.looping = σ.looping)
    (hp : σ'.parent = σ.parent) : ∀ D b, enclosing_loop σ' D b = enclosing_loop σ D b := by
  intro D
  induction D with
  | zero => intro b; rfl
  | succ n ih => intro b; simp only [enclosing_loop, hl, hp, ih]

theorem enclosing_loop_mono (σ : State X E) :
    ∀ D b, enclosing_loop σ D b ≠ none → enclosing_loop σ (D + 1) b ≠ none := by
  intro D
  induction D with
  | zero => intro b h; exact absurd rfl h
  | succ n ih =>
    intro b h
    rw [enclosing_loop] at h ⊢
    split
    · next hc => rw [if_pos hc] at h; exact ih _ h
    · simp

theorem enclosing_loop_mono_le (σ : State X E) (D D' : Nat) (hle : D ≤ D') (b : Ptr)
    (h : enclosing_loop σ D b ≠ none) : enclosing_loop σ D' b ≠ none := by
  induction hle with
  | refl => exact h
  | step _ ih => exact enclosing_loop_mono σ _ b ih

theorem remove_jump_refs_total (fuel D : Nat) (this : Ptr) (cfg_stms : List Ptr) (σ : State X E)
    (hD : ∀ b, enclosing_loop σ D b ≠ none) (hle : D ≤ fuel) :
    ∃ σ1, remove_jump_refs fuel this cfg_stms σ = some σ1 := by
  unfold remove_jump_refs
  split
  · exact ⟨_, rfl⟩
  · cases hw : enclosing_loop σ fuel this with
    | none => exact absurd hw (enclosing_loop_mono_le σ D fuel hle this (hD this))
    | some b => exact ⟨_, rfl⟩

theorem scan_edges_in_total (env : Env X E)
    (rm : Ptr → Ptr → State X E → Option (Nat × State X E)) (this s : Ptr) (L0 : Nat)
    (Q : State X E → Prop)
    (hQ : ∀ σ σ', Q σ → Shrinks σ σ' → Q σ')
    (htotal : ∀ p g σa, Q σa → σa.cfg_edges.length < L0 → ∃ r, rm p g σa = some r)
    (hshr : ∀ p g σa r, rm p g σa = some r → Shrinks σa r.2) :
    ∀ k i len cnt σ, len = σ.cfg_edges.length → i ≤ len → len ≤ L0 → Q σ →
      (len + 1) * (len + 1) ≤ k + i →
      ∃ r, scan_edges_in env rm this s k i len cnt σ = some r := by
  intro k
  induction k with
  | zero =>
    intro i len cnt σ _ hi _ _ hk
    exfalso
    have : len + 1 ≤ (len + 1) * (len + 1) := Nat.le_mul_of_pos_left _ (Nat.succ_pos _)
    omega
  | succ n ih =>
    intro i len cnt σ hlen hi hL hQσ hk
    rw [scan_edges_in]
    by_cases hlt : i < len
    · rw [if_pos hlt]
      have hget : σ.cfg_edges.get? i = some (σ.cfg_edges.get ⟨i, hlen ▸ hlt⟩) :=
        List.get?_eq_get _
      rw [hget]
      dsimp only
      have hlen1 : len - 1 = (σ.cfg_edges.eraseIdx i).length := by
        rw [List.length_eraseIdx, if_pos (hlen ▸ hlt), hlen]
      have hsq : len * len + 2 * len + 1 = (len + 1) * (len + 1) := by ring
      have hsq1 : (len - 1 + 1) * (len - 1 + 1) = len * len := by
        have : len - 1 + 1 = len := by omega
        rw [this]
      split
      · split
        · cases hr : rm (σ.parent (σ.cfg_edges.get ⟨i, hlen ▸ hlt⟩).src)
              (σ.cfg_edges.get ⟨i, hlen ▸ hlt⟩).src
              { σ with cfg_edges := σ.cfg_edges.eraseIdx i } with
          | none =>
            exfalso
            obtain ⟨r, hr2⟩ := htotal (σ.parent (σ.cfg_edges.get ⟨i, hlen ▸ hlt⟩).src)
              (σ.cfg_edges.get ⟨i, hlen ▸ hlt⟩).src
              { σ with cfg_edges := σ.cfg_edges.eraseIdx i }
              (hQ _ _ hQσ (erase_edge_shrinks σ i)) (by
                show (σ.cfg_edges.eraseIdx i).length < L0
                omega)
            rw [hr] at hr2
            cases hr2
          | some r2 =>
            obtain ⟨deleted, σ2⟩ := r2
            dsimp only
            have hs2 : Shrinks { σ with cfg_edges := σ.cfg_edges.eraseIdx i } σ2 :=
              hshr _ _ _ _ hr
            have hQ2 : Q σ2 := hQ _ _ (hQ _ _ hQσ (erase_edge_shrinks σ i)) hs2
            have hle2 : σ2.cfg_edges.length ≤ len - 1 := by
              have := hs2.cfg_edges.length_le
              simpa [hlen1] using this
            split
            · next hne =>
              apply ih _ _ _ _ rfl (Nat.zero_le _) (by omega) hQ2
              have hlt2 : σ2.cfg_edges.length + 1 ≤ len - 1 := by omega
              have : (σ2.cfg_edges.length + 1) * (σ2.cfg_edges.length + 1)
                  ≤ (len - 1) * (len - 1) := Nat.mul_le_mul hlt2 hlt2
              have : (len - 1) * (len - 1) ≤ len * len :=
                Nat.mul_le_mul (Nat.sub_le _ _) (Nat.sub_le _ _)
              omega
            · next heq =>
              have heq2 : len - 1 = σ2.cfg_edges.length := (not_not.mp heq).symm
              apply ih _ _ _ _ heq2 (by omega) (by omega) hQ2
              rw [hsq1]
              omega
        · apply ih _ _ _ _ hlen1 (by omega) (by omega) (hQ _ _ hQσ (erase_edge_shrinks σ i))
          rw [hsq1]
          omega
      · exact ih _ _ _ _ hlen (by omega) hL hQσ (by omega)
    · rw [if_neg hlt]
      exact ⟨_, rfl⟩

theorem remove_stmt_total (env : Env X E) (D : Nat) :
    ∀ fuel this s (σ : State X E), (∀ b, enclosing_loop σ D b ≠ none) →
      remove_stmt_fuel σ.cfg_edges.length D ≤ fuel →
      ∃ r, remove_stmt env fuel this s σ = some r := by
  intro fuel
  induction fuel with
  | zero => intro this s σ _ h; simp [remove_stmt_fuel] at h
  | succ n ih =>
    intro this s σ hD hf
    unfold remove_stmt_fuel at hf
    rw [remove_stmt]
    dsimp only
    obtain ⟨σ1, h1⟩ := remove_jump_refs_total n D this
      (env.find_typed_stmts σ.stms s [eContinue, eBreak, eGoto]) σ hD (by omega)
    rw [h1]
    dsimp only
    have s1 := remove_jump_refs_shrinks _ _ _ _ _ h1
    have hle1 : σ1.cfg_edges.length ≤ σ.cfg_edges.length := s1.cfg_edges.length_le
    have hmul : (σ1.cfg_edges.length + 1) * (σ1.cfg_edges.length + 1)
        ≤ (σ.cfg_edges.length + 1) * (σ.cfg_edges.length + 1) :=
      Nat.mul_le_mul (by omega) (by omega)
    have hQ : ∀ τ τ' : State X E, (∀ b, enclosing_loop τ D b ≠ none) → Shrinks τ τ' →
        ∀ b, enclosing_loop τ' D b ≠ none := by
      intro τ τ' hτ hs b
      rw [enclosing_loop_congr τ τ' hs.looping hs.parent]
      exact hτ b
    obtain ⟨r, hr⟩ := scan_edges_in_total env (remove_stmt env n) this s σ1.cfg_edges.length
      (fun τ => ∀ b, enclosing_loop τ D b ≠ none) hQ
      (fun p g σa hQa hlt => ih p g σa hQa (by
        unfold remove_stmt_fuel
        have h2 : (σa.cfg_edges.length + 1) * (σa.cfg_edges.length + 1)
            ≤ σ1.cfg_edges.length * σ1.cfg_edges.length := Nat.mul_le_mul hlt hlt
        have h3 : σ1.cfg_edges.length * σ1.cfg_edges.length
            ≤ σ.cfg_edges.length * σ.cfg_edges.length := Nat.mul_le_mul hle1 hle1
        have h4 : (σ.cfg_edges.length + 1) * (σ.cfg_edges.length + 1)
            = σ.cfg_edges.length * σ.cfg_edges.length + 2 * σ.cfg_edges.length + 1 := by ring
        omega))
      (fun p g σa r hr => remove_stmt_shrinks env n p g σa r hr)
      n 0 σ1.cfg_edges.length 0 σ1 rfl (Nat.zero_le _) (Nat.le_refl _) (hQ σ σ1 hD s1)
      (by omega)
    rw [hr]
    exact ⟨_, rfl⟩

theorem take_eraseIdx_same {α : Type} (l : List α) (i : Nat) :
    (l.eraseIdx i).take i = l.take i := by
  induction l generalizing i with
  | nil => simp
  | cons a t ih =>
    cases i with
    | zero => simp
    | succ j => simp [List.eraseIdx, ih]

/-- After the scan no edge of the registry leads into `s`, when the recursive calls
only delete and `contains_stmt` finds no more in smaller statement lists. -/
theorem scan_edges_in_no_edge_into (env : Env X E)
    (rm : Ptr → Ptr → State X E → Option (Nat × State X E)) (this s : Ptr)
    (hshr : ∀ p g σa r, rm p g σa = some r → Shrinks σa r.2)
    (hanti : ∀ st st' : Ptr → List Ptr, (∀ b, (st' b).Sublist (st b)) →
      ∀ x, env.contains_stmt st s x = false → env.contains_stmt st' s x = false) :
    ∀ k i len cnt σ r, len = σ.cfg_edges.length →
      (∀ e ∈ σ.cfg_edges.take i, env.contains_stmt σ.stms s e.dest = false) →
      scan_edges_in env rm this s k i len cnt σ = some r →
      ∀ e ∈ r.2.cfg_edges, env.contains_stmt r.2.stms s e.dest = false := by
  intro k
  induction k with
  | zero => intro i len cnt σ r _ _ h; simp [scan_edges_in] at h
  | succ n ih =>
    intro i len cnt σ r hlen hinv h
    rcases scan_edges_in_cases env rm this s n i len cnt σ r h with
      ⟨hge, rfl⟩ | ⟨hlt, edge, hget, ⟨hc, h1⟩ | ⟨_, _, h1⟩ | ⟨_, _, deleted, σ2, hr, ⟨_, h1⟩ | ⟨hsz, h1⟩⟩⟩
    · intro e he
      apply hinv
      rw [List.take_of_length_le (by omega)]
      exact he
    · apply ih _ _ _ _ _ hlen _ h1
      intro e he
      rw [List.take_succ, List.mem_append] at he
      rcases he with he | he
      · exact hinv e he
      · have hget2 : σ.cfg_edges[i]? = some edge := by simpa using hget
        rw [hget2] at he
        simp at he
        rw [he]; exact hc
    · have hlen1 : len - 1 = (σ.cfg_edges.eraseIdx i).length := by
        rw [List.length_eraseIdx, if_pos (hlen ▸ hlt), hlen]
      apply ih _ _ _ _ _ hlen1 _ h1
      intro e he
      apply hinv
      simpa [take_eraseIdx_same] using he
    · apply ih _ _ _ _ _ rfl _ h1
      intro e he
      simp at he
    · have hlen1 : len - 1 = (σ.cfg_edges.eraseIdx i).length := by
        rw [List.length_eraseIdx, if_pos (hlen ▸ hlt), hlen]
      have hs2 : Shrinks { σ with cfg_edges := σ.cfg_edges.eraseIdx i } σ2 := hshr _ _ _ _ hr
      have heq : σ2.cfg_edges = σ.cfg_edges.eraseIdx i :=
        hs2.cfg_edges.eq_of_length (by rw [hsz, hlen1])
      apply ih _ _ _ _ _ hsz.symm _ h1
      intro e he
      rw [heq, take_eraseIdx_same] at he
      exact hanti σ.stms σ2.stms hs2.stms _ (hinv e he)

theorem remove_stmt_no_edge_into (env : Env X E) (fuel : Nat) (this s : Ptr) (σ : State X E)
    (r : Nat × State X E)
    (hanti : ∀ st st' : Ptr → List Ptr, (∀ b, (st' b).Sublist (st b)) →
      ∀ x, env.contains_stmt st s x = false → env.contains_stmt st' s x = false)
    (h : remove_stmt env fuel this s σ = some r) :
    ∀ e ∈ r.2.cfg_edges, env.contains_stmt r.2.stms s e.dest = false := by
  cases fuel with
  | zero => simp [remove_stmt] at h
  | succ n =>
    rw [remove_stmt] at h
    dsimp only at h
    split at h
    · cases h
    · next σ1 h1 =>
      split at h
      · cases h
      · next cnt σ2 h2 =>
        cases h
        have key := scan_edges_in_no_edge_into env (remove_stmt env n) this s
          (fun p g σa r hr => remove_stmt_shrinks env n p g σa r hr) hanti
          n 0 _ 0 σ1 (cnt, σ2) rfl (by intro e he; simp at he) h2
        have hsh := delete_stmt_itself_shrinks this s cnt
          { σ2 with blocks := σ2.blocks.filter (fun b => !env.contains_stmt σ2.stms s b) }
        intro e he
        have he2 : e ∈ σ2.cfg_edges := hsh.cfg_edges.subset he
        exact hanti σ2.stms _ hsh.stms _ (key e he2)

/-! ## Concrete states -/

theorem exState_walks_end (kind : Ptr → eStatementType) (loop : Bool) (body : List Ptr)
    (edges : List CFGEdge) (supply : List Ptr) (h1 : 1 ∉ body) :
    ∀ b, enclosing_loop (exState kind loop body edges supply) 3 b ≠ none := by
  intro b
  simp only [enclosing_loop, exState]
  by_cases hb : b ∈ body
  · have hb1 : b ≠ 1 := fun h => h1 (h ▸ hb)
    simp [hb, hb1, h1]
    split_ifs <;> simp
  · simp [hb]
    split_ifs <;> simp

theorem exEnv_contains_anti (kind : Ptr → eStatementType) (bad : List Ptr) (needRet : Bool)
    (s : Ptr) : ∀ st st' : Ptr → List Ptr, (∀ b, (st' b).Sublist (st b)) →
      ∀ x, (exEnv kind bad needRet).contains_stmt st s x = false →
        (exEnv kind bad needRet).contains_stmt st' s x = false :=
  fun _ _ _ _ h => h

/-! ## C2 -/

/-- C2. After `remove_stmt(s)` has returned, the edge registry holds no edge whose
destination is `s` or a statement contained in `s`: `s->contains_stmt(edge->dest)` is
false for every edge left, whatever the registry was at the call, also when goto
sources are removed recursively and the scan restarts. The call returns when every
walk to the enclosing loop ends (`hD`) and the fuel covers the registry; of
`contains_stmt`, which is outside `Block.cpp`, it is assumed that it finds nothing
new in `s` once statement lists have shrunk (`hanti`). -/
theorem remove_stmt_clears_edges_into (env : Env X E) (D fuel : Nat) (this s : Ptr)
    (σ : State X E)
    (hD : ∀ b, enclosing_loop σ D b ≠ none)
    (hfuel : remove_stmt_fuel σ.cfg_edges.length D ≤ fuel)
    (hanti : ∀ st st' : Ptr → List Ptr, (∀ b, (st' b).Sublist (st b)) →
      ∀ x, env.contains_stmt st s x = false → env.contains_stmt st' s x = false) :
    ∃ r, remove_stmt env fuel this s σ = some r ∧
      ∀ e ∈ r.2.cfg_edges, env.contains_stmt r.2.stms s e.dest = false := by
  obtain ⟨r, hr⟩ := remove_stmt_total env D fuel this s σ hD hfuel
  exact ⟨r, hr, remove_stmt_no_edge_into env fuel this s σ r hanti hr⟩

/-- Witness of C2: block `1` holds a goto `10` to the assignment `11`, and `11` is
removed. -/
theorem remove_stmt_clears_edges_into_witness :
    (∀ b, enclosing_loop (exState exKind false [10, 11, 12] [⟨10, 11, false, false⟩] []) 3 b
        ≠ none) ∧
    remove_stmt_fuel
        (exState exKind false [10, 11, 12] [⟨10, 11, false, false⟩] []).cfg_edges.length 3 ≤ 8 ∧
    ∃ r, remove_stmt (exEnv exKind [] false) 8 1 11
          (exState exKind false [10, 11, 12] [⟨10, 11, false, false⟩] []) = some r ∧
      ∀ e ∈ r.2.cfg_edges, (exEnv exKind [] false).contains_stmt r.2.stms 11 e.dest = false :=
  ⟨exState_walks_end _ _ _ _ _ (by decide), by decide,
    remove_stmt_clears_edges_into (exEnv exKind [] false) 3 8 1 11
      (exState exKind false [10, 11, 12] [⟨10, 11, false, false⟩] [])
      (exState_walks_end _ _ _ _ _ (by decide)) (by decide)
      (exEnv_contains_anti exKind [] false 11)⟩

/-! ## C3 -/

theorem remove_jump_refs_edges (fuel : Nat) (this : Ptr) (cfg_stms : List Ptr)
    (σ σ1 : State X E) (h : remove_jump_refs fuel this cfg_stms σ = some σ1) :
    ∀ e ∈ σ1.cfg_edges, e.src ∉ cfg_stms := by
  unfold remove_jump_refs at h
  split at h
  · next hemp =>
    cases h
    intro e _ hmem
    rw [List.isEmpty_iff] at hemp
    rw [hemp] at hmem
    cases hmem
  · split at h
    · cases h
    · cases h
      intro e he
      simp only [List.mem_filter, find_stm_in_set] at he
      simpa using he.2

/-- C3, as stated, fails: block `1` holds the assignment `11`, the registry holds an
edge from `11` to `12`; after `remove_stmt(11)` the edge is still there, and its
source is the removed statement. -/
theorem remove_stmt_edge_from_removed_stays :
    ∃ r, remove_stmt (exEnv exKind [] false) 8 1 11
          (exState exKind false [11, 12] [⟨11, 12, false, false⟩] []) = some r ∧
      r.2.stms 1 = [12] ∧
      ∃ e ∈ r.2.cfg_edges, (exEnv exKind [] false).contains_stmt r.2.stms 11 e.src = true := by
  refine ⟨_, rfl, ?_, ⟨11, 12, false, false⟩, ?_, ?_⟩ <;> decide

/-- C3, amended. After `remove_stmt(s)` has returned, the edge registry holds no edge
whose source is one of the continue, break or goto statements that
`find_typed_stmts` finds in `s` at the call. -/
theorem remove_stmt_clears_edges_from_jumps (env : Env X E) (D fuel : Nat) (this s : Ptr)
    (σ : State X E)
    (hD : ∀ b, enclosing_loop σ D b ≠ none)
    (hfuel : remove_stmt_fuel σ.cfg_edges.length D ≤ fuel) :
    ∃ r, remove_stmt env fuel this s σ = some r ∧
      ∀ e ∈ r.2.cfg_edges,
        e.src ∉ env.find_typed_stmts σ.stms s [eContinue, eBreak, eGoto] := by
  obtain ⟨r, hr⟩ := remove_stmt_total env D fuel this s σ hD hfuel
  refine ⟨r, hr, ?_⟩
  cases fuel with
  | zero => simp [remove_stmt] at hr
  | succ n =>
    have hr0 := hr
    rw [remove_stmt] at hr
    dsimp only at hr
    split at hr
    · cases hr
    · next σ1 h1 =>
      split at hr
      · cases hr
      · next cnt σ2 h2 =>
        cases hr
        have s2 : Shrinks σ1 σ2 :=
          scan_edges_in_invariant env (remove_stmt env n) this s (fun τ => Shrinks σ1 τ)
            (fun τ i hτ => hτ.trans (erase_edge_shrinks τ i))
            (fun p g σa r hσa _ hr => hσa.trans (remove_stmt_shrinks env n p g σa r hr))
            _ _ _ _ _ _ (Shrinks.refl σ1) h2
        have s3 := delete_stmt_itself_shrinks this s cnt
          { σ2 with blocks := σ2.blocks.filter (fun b => !env.contains_stmt σ2.stms s b) }
        intro e he
        exact remove_jump_refs_edges _ _ _ _ _ h1 e (s2.cfg_edges.subset (s3.cfg_edges.subset he))

/-- Witness of C3 amended: the goto `10` of block `1`, with its edge to `11`, is removed. -/
theorem remove_stmt_clears_edges_from_jumps_witness :
    (∀ b, enclosing_loop (exState exKind false [10, 11, 12] [⟨10, 11, false, false⟩] []) 3 b
        ≠ none) ∧
    remove_stmt_fuel
        (exState exKind false [10, 11, 12] [⟨10, 11, false, false⟩] []).cfg_edges.length 3 ≤ 8 ∧
    ∃ r, remove_stmt (exEnv exKind [] false) 8 1 10
          (exState exKind false [10, 11, 12] [⟨10, 11, false, false⟩] []) = some r ∧
      ∀ e ∈ r.2.cfg_edges, e.src ∉ (exEnv exKind [] false).find_typed_stmts
        (exState exKind false [10, 11, 12] [⟨10, 11, false, false⟩] []).stms 10
        [eContinue, eBreak, eGoto] :=
  ⟨exState_walks_end _ _ _ _ _ (by decide), by decide,
    remove_stmt_clears_edges_from_jumps (exEnv exKind [] false) 3 8 1 10
      (exState exKind false [10, 11, 12] [⟨10, 11, false, false⟩] [])
      (exState_walks_end _ _ _ _ _ (by decide)) (by decide)⟩

/-! ## C4 -/

theorem remove_stmt_goto_blocks (env : Env X E) :
    ∀ fuel p g (σ : State X E) r,
      (∀ st g' b, σ.eType g' = eGoto → b ∈ σ.blocks → env.contains_stmt st g' b = false) →
      σ.eType g = eGoto → remove_stmt env fuel p g σ = some r → r.2.blocks = σ.blocks := by
  intro fuel
  induction fuel with
  | zero => intro p g σ r _ _ h; simp [remove_stmt] at h
  | succ n ih =>
    intro p g σ r hgoto hg h
    rw [remove_stmt] at h
    dsimp only at h
    split at h
    · cases h
    · next σ1 h1 =>
      split at h
      · cases h
      · next cnt σ2 h2 =>
        cases h
        have s1 := remove_jump_refs_shrinks _ _ _ _ _ h1
        have hb1 : σ1.blocks = σ.blocks := by
          unfold remove_jump_refs at h1
          split at h1
          · cases h1; rfl
          · split at h1
            · cases h1
            · cases h1; rfl
        have inv : σ2.blocks = σ.blocks ∧ σ2.eType = σ.eType :=
          scan_edges_in_invariant env (remove_stmt env n) p g
            (fun τ => τ.blocks = σ.blocks ∧ τ.eType = σ.eType)
            (fun τ i hτ => hτ)
            (fun p' g' σa r' hσa hg' hr' => by
              have hbl := ih p' g' σa r' (by
                intro st g2 b hg2 hb
                rw [hσa.2] at hg2
                rw [hσa.1] at hb
                exact hgoto st g2 b hg2 hb) hg' hr'
              exact ⟨hbl.trans hσa.1,
                (remove_stmt_shrinks env n p' g' σa r' hr').eType.trans hσa.2⟩)
            _ _ _ _ _ _ ⟨hb1, s1.eType⟩ h2
        have hfil : σ2.blocks.filter (fun b => !env.contains_stmt σ2.stms g b) = σ2.blocks := by
          rw [List.filter_eq_self]
          intro b hb
          rw [inv.1] at hb
          simp [hgoto σ2.stms g b hg hb]
        show (delete_stmt_itself p g cnt _).2.blocks = σ.blocks
        unfold delete_stmt_itself
        split
        · exact hfil.trans inv.1
        · exact hfil.trans inv.1

/-- The inventory after `remove_stmt(s)`: the blocks that `s` did not contain at some
moment of the call, between the state at the call and the state at the return. -/
theorem remove_stmt_blocks (env : Env X E) (fuel : Nat) (this s : Ptr) (σ : State X E)
    (r : Nat × State X E)
    (hgoto : ∀ st g b, σ.eType g = eGoto → b ∈ σ.blocks → env.contains_stmt st g b = false)
    (h : remove_stmt env fuel this s σ = some r) :
    ∃ st2 : Ptr → List Ptr, (∀ b, (st2 b).Sublist (σ.stms b)) ∧
      (∀ b, (r.2.stms b).Sublist (st2 b)) ∧
      r.2.blocks = σ.blocks.filter (fun b => !env.contains_stmt st2 s b) := by
  cases fuel with
  | zero => simp [remove_stmt] at h
  | succ n =>
    rw [remove_stmt] at h
    dsimp only at h
    split at h
    · cases h
    · next σ1 h1 =>
      split at h
      · cases h
      · next cnt σ2 h2 =>
        cases h
        have s1 := remove_jump_refs_shrinks _ _ _ _ _ h1
        have hb1 : σ1.blocks = σ.blocks := by
          unfold remove_jump_refs at h1
          split at h1
          · cases h1; rfl
          · split at h1
            · cases h1
            · cases h1; rfl
        have s2 : Shrinks σ1 σ2 :=
          scan_edges_in_invariant env (remove_stmt env n) this s (fun τ => Shrinks σ1 τ)
            (fun τ i hτ => hτ.trans (erase_edge_shrinks τ i))
            (fun p g σa r hσa _ hr => hσa.trans (remove_stmt_shrinks env n p g σa r hr))
            _ _ _ _ _ _ (Shrinks.refl σ1) h2
        have inv : σ2.blocks = σ.blocks ∧ σ2.eType = σ.eType :=
          scan_edges_in_invariant env (remove_stmt env n) this s
            (fun τ => τ.blocks = σ.blocks ∧ τ.eType = σ.eType)
            (fun τ i hτ => hτ)
            (fun p' g' σa r' hσa hg' hr' => by
              have hbl := remove_stmt_goto_blocks env n p' g' σa r' (by
                intro st g2 b hg2 hb
                rw [hσa.2] at hg2
                rw [hσa.1] at hb
                exact hgoto st g2 b hg2 hb) hg' hr'
              exact ⟨hbl.trans hσa.1,
                (remove_stmt_shrinks env n p' g' σa r' hr').eType.trans hσa.2⟩)
            _ _ _ _ _ _ ⟨hb1, s1.eType⟩ h2
        have s3 := delete_stmt_itself_shrinks this s cnt
          { σ2 with blocks := σ2.blocks.filter (fun b => !env.contains_stmt σ2.stms s b) }
        refine ⟨σ2.stms, (s1.trans s2).stms, s3.stms, ?_⟩
        have hbl : (delete_stmt_itself this s cnt
            { σ2 with blocks := σ2.blocks.filter (fun b => !env.contains_stmt σ2.stms s b) }).2.blocks
            = σ2.blocks.filter (fun b => !env.contains_stmt σ2.stms s b) := by
          unfold delete_stmt_itself
          split <;> rfl
        rw [hbl, inv.1]

/-- C4. After `remove_stmt(s)` has returned, the block inventory `func->blocks` holds no
block contained in `s` (no `b` with `s->contains_stmt(b)`), and every block of the
inventory that `s` did not contain is still there, in the same relative order. Of
the code outside `Block.cpp` it is assumed that `contains_stmt` finds nothing new
in `s` once statement lists have shrunk (`hanti`) and that a goto statement contains
no block of the inventory (`hgoto`). -/
theorem remove_stmt_clears_blocks (env : Env X E) (D fuel : Nat) (this s : Ptr)
    (σ : State X E)
    (hD : ∀ b, enclosing_loop σ D b ≠ none)
    (hfuel : remove_stmt_fuel σ.cfg_edges.length D ≤ fuel)
    (hanti : ∀ st st' : Ptr → List Ptr, (∀ b, (st' b).Sublist (st b)) →
      ∀ x, env.contains_stmt st s x = false → env.contains_stmt st' s x = false)
    (hgoto : ∀ st g b, σ.eType g = eGoto → b ∈ σ.blocks → env.contains_stmt st g b = false) :
    ∃ r, remove_stmt env fuel this s σ = some r ∧
      (∀ b ∈ r.2.blocks, env.contains_stmt r.2.stms s b = false) ∧
      r.2.blocks.Sublist σ.blocks ∧
      (σ.blocks.filter (fun b => !env.contains_stmt σ.stms s b)).Sublist r.2.blocks := by
  obtain ⟨r, hr⟩ := remove_stmt_total env D fuel this s σ hD hfuel
  obtain ⟨st2, h1, h2, h3⟩ := remove_stmt_blocks env fuel this s σ r hgoto hr
  refine ⟨r, hr, ?_, ?_, ?_⟩
  · intro b hb
    rw [h3, List.mem_filter] at hb
    exact hanti st2 r.2.stms h2 b (by simpa using hb.2)
  · rw [h3]; exact List.filter_sublist _
  · rw [h3]
    apply List.monotone_filter_right
    intro b hb
    have : env.contains_stmt σ.stms s b = false := by simpa using hb
    simp [hanti σ.stms st2 h1 b this]

theorem exOwnState_walks_end : ∀ b, enclosing_loop exOwnState 4 b ≠ none := by
  intro b
  have hl : ∀ p, exOwnState.looping p = false := by
    intro p
    simp [exOwnState, exState]
  have hp : ∀ p, exOwnState.parent p = 0 ∨ exOwnState.parent p = 1 ∨ exOwnState.parent p = 2 := by
    intro p
    simp only [exOwnState]
    split_ifs <;> simp
  have h0 : exOwnState.parent 0 = 0 := by decide
  have h1 : exOwnState.parent 1 = 0 := by decide
  have h2 : exOwnState.parent 2 = 1 := by decide
  have e0 : ∀ n, enclosing_loop exOwnState (n + 1) 0 = some 0 := by
    intro n
    simp [enclosing_loop]
  have e1 : ∀ n, enclosing_loop exOwnState (n + 2) 1 = some 0 := by
    intro n
    rw [enclosing_loop, if_pos ⟨by decide, hl 1⟩, h1]
    exact e0 n
  have e2 : ∀ n, enclosing_loop exOwnState (n + 3) 2 = some 0 := by
    intro n
    rw [enclosing_loop, if_pos ⟨by decide, hl 2⟩, h2]
    exact e1 n
  rw [enclosing_loop]
  split
  · rcases hp b with h | h | h
    · rw [h, e0]; simp
    · rw [h, e1]; simp
    · rw [h, e2]; simp
  · simp

theorem exOwnEnv_contains_anti : ∀ st st' : Ptr → List Ptr, (∀ b, (st' b).Sublist (st b)) →
    ∀ x, exOwnEnv.contains_stmt st 12 x = false → exOwnEnv.contains_stmt st' 12 x = false := by
  intro st st' hsub x h
  cases ht : exOwnEnv.contains_stmt st' 12 x with
  | false => rfl
  | true =>
    exfalso
    have hc : exOwnEnv.contains_stmt st 12 x = true := by
      simp only [exOwnEnv, Bool.or_eq_true, Bool.and_eq_true, decide_eq_true_eq,
        List.contains_eq_any_beq, List.any_eq_true, beq_iff_eq] at ht ⊢
      rcases ht with h1 | ⟨h1, h2 | h2⟩
      · exact Or.inl h1
      · exact Or.inr ⟨h1, Or.inl h2⟩
      · obtain ⟨y, hy, hyx⟩ := h2
        exact Or.inr ⟨h1, Or.inr ⟨y, (hsub 2).subset hy, hyx⟩⟩
    rw [h] at hc
    cases hc

theorem exOwnEnv_goto_no_block : ∀ (st : Ptr → List Ptr) (g b : Ptr),
    exOwnState.eType g = eGoto → b ∈ exOwnState.blocks → exOwnEnv.contains_stmt st g b = false := by
  intro st g b hg hb
  have hg10 : g = 10 := by
    simp only [exOwnState, exState, exOwnKind] at hg
    split_ifs at hg
    assumption
  subst hg10
  have hb12 : b = 1 ∨ b = 2 := by
    simpa [exOwnState] using hb
  rcases hb12 with rfl | rfl <;> rfl

/-- Witness of C4: the if statement `12` of block `1` owns block `2`, and the goto `10`
jumps into block `2`; `remove_stmt(12)` takes block `2` out of the inventory
`[1, 2]` and leaves block `1`. -/
theorem remove_stmt_clears_blocks_witness :
    (∀ b, enclosing_loop exOwnState 4 b ≠ none) ∧
    remove_stmt_fuel exOwnState.cfg_edges.length 4 ≤ 10 ∧
    exOwnState.blocks = [1, 2] ∧
    exOwnEnv.contains_stmt exOwnState.stms 12 2 = true ∧
    (remove_stmt exOwnEnv 10 1 12 exOwnState).map (fun r => r.2.blocks) = some [1] ∧
    ∃ r, remove_stmt exOwnEnv 10 1 12 exOwnState = some r ∧
      (∀ b ∈ r.2.blocks, exOwnEnv.contains_stmt r.2.stms 12 b = false) ∧
      r.2.blocks.Sublist exOwnState.blocks ∧
      (exOwnState.blocks.filter
        (fun b => !exOwnEnv.contains_stmt exOwnState.stms 12 b)).Sublist r.2.blocks :=
  ⟨exOwnState_walks_end, by decide, rfl, by decide, by decide,
    remove_stmt_clears_blocks exOwnEnv 4 10 1 12 exOwnState exOwnState_walks_end (by decide)
      exOwnEnv_contains_anti exOwnEnv_goto_no_block⟩

/-! ## Lemmas on the prune loop and on `find_fixed_point` -/

theorem upd_same {β : Type} (m : Ptr → β) (a : Ptr) (v : β) : upd m a v a = v := by
  simp [upd]

theorem remove_stmt_length_lt (env : Env X E) (fuel : Nat) (this s : Ptr) (σ : State X E)
    (r : Nat × State X E) (hs : s ∈ σ.stms this) (h : remove_stmt env fuel this s σ = some r) :
    (r.2.stms this).length < (σ.stms this).length := by
  have hshr := remove_stmt_shrinks env fuel this s σ r h
  cases fuel with
  | zero => simp [remove_stmt] at h
  | succ n =>
    rw [remove_stmt] at h
    dsimp only at h
    split at h
    · cases h
    · next σ1 h1 =>
      split at h
      · cases h
      · next cnt σ2 h2 =>
        cases h
        have s1 := remove_jump_refs_shrinks _ _ _ _ _ h1
        have s2 : Shrinks σ1 σ2 :=
          scan_edges_in_invariant env (remove_stmt env n) this s (fun τ => Shrinks σ1 τ)
            (fun τ i hτ => hτ.trans (erase_edge_shrinks τ i))
            (fun p g σa r hσa _ hr => hσa.trans (remove_stmt_shrinks env n p g σa r hr))
            _ _ _ _ _ _ (Shrinks.refl σ1) h2
        have hsub : (σ2.stms this).Sublist (σ.stms this) := (s1.trans s2).stms this
        unfold delete_stmt_itself
        split
        · next hmem =>
          have hmem2 : s ∈ σ2.stms this := hmem
          show (upd σ2.stms this ((σ2.stms this).erase s) this).length < _
          rw [upd_same, List.length_erase_of_mem hmem2]
          have hpos : 0 < (σ2.stms this).length := List.length_pos_of_mem hmem2
          have := hsub.length_le
          omega
        · next hmem =>
          have hmem2 : s ∉ σ2.stms this := hmem
          show (σ2.stms this).length < _
          have hle := hsub.length_le
          rcases Nat.lt_or_ge (σ2.stms this).length (σ.stms this).length with hlt | hge
          · exact hlt
          · exfalso
            have heq := hsub.eq_of_length (Nat.le_antisymm hle hge)
            exact hmem2 (heq ▸ hs)

theorem prune_spec (env : Env X E) (this : Ptr) (index rfuel : Nat) :
    ∀ n (σ σ' : State X E), prune env this index rfuel n σ = some σ' →
      Shrinks σ σ' ∧ (σ'.stms this).length ≤ index := by
  intro n
  induction n with
  | zero => intro σ σ' h; simp [prune] at h
  | succ k ih =>
    intro σ σ' h
    rw [prune] at h
    split at h
    · next hlt =>
      split at h
      · cases h
      · next r hr =>
        obtain ⟨h1, h2⟩ := ih _ _ h
        exact ⟨(remove_stmt_shrinks env rfuel this _ σ r hr).trans h1, h2⟩
    · next hge =>
      cases h
      exact ⟨Shrinks.refl σ, by omega⟩

theorem remove_stmt_fuel_mono {n m : Nat} (D : Nat) (h : n ≤ m) :
    remove_stmt_fuel n D ≤ remove_stmt_fuel m D := by
  unfold remove_stmt_fuel
  have : (n + 1) * (n + 1) ≤ (m + 1) * (m + 1) := Nat.mul_le_mul (by omega) (by omega)
  omega

theorem walks_end_of_shrinks (D : Nat) (σ σ' : State X E) (hs : Shrinks σ σ')
    (hD : ∀ b, enclosing_loop σ D b ≠ none) : ∀ b, enclosing_loop σ' D b ≠ none := by
  intro b
  rw [enclosing_loop_congr σ σ' hs.looping hs.parent]
  exact hD b

theorem prune_total (env : Env X E) (this : Ptr) (index rfuel D : Nat) :
    ∀ n (σ : State X E), (∀ b, enclosing_loop σ D b ≠ none) →
      remove_stmt_fuel σ.cfg_edges.length D ≤ rfuel → (σ.stms this).length < n →
      ∃ σ', prune env this index rfuel n σ = some σ' := by
  intro n
  induction n with
  | zero => intro σ _ _ h; omega
  | succ k ih =>
    intro σ hD hf hlen
    rw [prune]
    split
    · next hlt =>
      obtain ⟨r, hr⟩ := remove_stmt_total env D rfuel this
        ((σ.stms this).get ⟨index, hlt⟩) σ hD hf
      rw [hr]
      dsimp only
      have hs := remove_stmt_shrinks env rfuel this _ σ r hr
      have hl := remove_stmt_length_lt env rfuel this _ σ r (List.get_mem _ _ _) hr
      exact ih r.2 (walks_end_of_shrinks D σ r.2 hs hD)
        (le_trans (remove_stmt_fuel_mono D hs.cfg_edges.length_le) hf) (by omega)
    · exact ⟨σ, rfl⟩

theorem analyze_stms_fail_lt (env : Env X E) (σ : State X E) :
    ∀ (l : List Ptr) (i0 : Nat) (out : FactVec) (fm : FactMgr X E) (i : Nat) (o : FactVec)
      (f : FactMgr X E), analyze_stms env σ l i0 out fm = (some i, o, f) →
      i0 ≤ i ∧ i < i0 + l.length := by
  intro l
  induction l with
  | nil => intro i0 out fm i o f h; simp [analyze_stms] at h
  | cons s rest ih =>
    intro i0 out fm i o f h
    rw [analyze_stms] at h
    split at h
    · have := ih _ _ _ _ _ _ h
      simp only [List.length_cons]
      omega
    · simp only [Prod.mk.injEq, Option.some.injEq] at h
      simp only [List.length_cons]
      omega

/-- The four ways an iteration of `find_fixed_point` ends. -/
theorem find_fixed_point_pass_cases (env : Env X E) (σ : State X E) (this : Ptr) (cnt : Nat)
    (inputs post_facts : FactVec) (visit_once : Bool) (fm : FactMgr X E) :
    (fm.map_visited this = true ∧ cnt > 7 ∧
      find_fixed_point_pass env σ this cnt inputs post_facts visit_once fm
        = PassResult.done FixResult.assert_failed) ∨
    (¬ (fm.map_visited this = true ∧ cnt > 7) ∧ visit_once = false ∧
      (pass_shortcut env σ this fm inputs).1 = 0 ∧
      find_fixed_point_pass env σ this cnt inputs post_facts visit_once fm
        = PassResult.done (FixResult.success post_facts (pass_shortcut env σ this fm inputs).2.2)) ∨
    (¬ (fm.map_visited this = true ∧ cnt > 7) ∧
      ¬ (visit_once = false ∧ (pass_shortcut env σ this fm inputs).1 = 0) ∧
      ∃ i o fm3, pass_analysis env σ this fm inputs visit_once = (some i, o, fm3) ∧
        find_fixed_point_pass env σ this cnt inputs post_facts visit_once fm
          = PassResult.done (FixResult.failure i post_facts fm3)) ∨
    (¬ (fm.map_visited this = true ∧ cnt > 7) ∧
      ¬ (visit_once = false ∧ (pass_shortcut env σ this fm inputs).1 = 0) ∧
      ∃ outputs3 fm3, pass_analysis env σ this fm inputs visit_once = (none, outputs3, fm3) ∧
        find_fixed_point_pass env σ this cnt inputs post_facts visit_once fm
          = PassResult.again (if fm.map_visited this then cnt + 1 else cnt)
              (pass_start env σ this fm inputs visit_once).1 outputs3
              (record_pass env σ this (pass_start env σ this fm inputs visit_once).1
                outputs3 fm3)) := by
  unfold find_fixed_point_pass
  by_cases h1 : fm.map_visited this = true ∧ cnt > 7
  · left
    exact ⟨h1.1, h1.2, by rw [if_pos h1]⟩
  · right
    rw [if_neg h1]
    by_cases h2 : visit_once = false ∧ (pass_shortcut env σ this fm inputs).1 = 0
    · left
      exact ⟨h1, h2.1, h2.2, by rw [if_pos h2]⟩
    · right
      rw [if_neg h2]
      rcases hpa : pass_analysis env σ this fm inputs visit_once with ⟨oi, o, fm3⟩
      cases oi with
      | some i => left; exact ⟨h1, h2, i, o, fm3, rfl, rfl⟩
      | none => right; exact ⟨h1, h2, o, fm3, rfl, rfl⟩

theorem find_fixed_point_pass_fail_lt (env : Env X E) (σ : State X E) (this : Ptr) (cnt : Nat)
    (inputs post_facts : FactVec) (visit_once : Bool) (fm : FactMgr X E)
    (i : Nat) (pf : FactVec) (fm' : FactMgr X E)
    (h : find_fixed_point_pass env σ this cnt inputs post_facts visit_once fm
      = PassResult.done (FixResult.failure i pf fm')) :
    i < (σ.stms this).length := by
  rcases find_fixed_point_pass_cases env σ this cnt inputs post_facts visit_once fm with
    ⟨_, _, h1⟩ | ⟨_, _, _, h1⟩ | ⟨_, _, i', o, fm3, ha, h1⟩ | ⟨_, _, o, fm3, _, h1⟩
  · rw [h1] at h; cases h
  · rw [h1] at h; cases h
  · rw [h1] at h
    cases h
    have := analyze_stms_fail_lt env σ _ _ _ _ _ _ _ ha
    omega
  · rw [h1] at h; cases h

theorem find_fixed_point_loop_fail_lt (env : Env X E) (σ : State X E) (this : Ptr) :
    ∀ fuel cnt inputs post_facts visit_once fm i pf fm',
      find_fixed_point_loop env σ this fuel cnt inputs post_facts visit_once fm
        = some (FixResult.failure i pf fm') → i < (σ.stms this).length := by
  intro fuel
  induction fuel with
  | zero => intro cnt inputs post_facts visit_once fm i pf fm' h; simp [find_fixed_point_loop] at h
  | succ n ih =>
    intro cnt inputs post_facts visit_once fm i pf fm' h
    rw [find_fixed_point_loop] at h
    split at h
    · next r hp =>
      cases h
      exact find_fixed_point_pass_fail_lt env σ this _ _ _ _ _ _ _ _ hp
    · exact ih _ _ _ _ _ _ _ _ h

theorem find_fixed_point_pass_again_visited (env : Env X E) (σ : State X E) (this : Ptr)
    (cnt : Nat) (inputs post_facts : FactVec) (visit_once : Bool) (fm : FactMgr X E)
    (cnt1 : Nat) (inputs1 pf1 : FactVec) (fm1 : FactMgr X E)
    (h : find_fixed_point_pass env σ this cnt inputs post_facts visit_once fm
      = PassResult.again cnt1 inputs1 pf1 fm1) :
    fm1.map_visited this = true ∧
      cnt1 = (if fm.map_visited this = true then cnt + 1 else cnt) ∧
      (fm.map_visited this = true → cnt ≤ 7) := by
  rcases find_fixed_point_pass_cases env σ this cnt inputs post_facts visit_once fm with
    ⟨_, _, h1⟩ | ⟨_, _, _, h1⟩ | ⟨_, _, i', o, fm3, ha, h1⟩ | ⟨hna, _, o, fm3, _, h1⟩
  · rw [h1] at h; cases h
  · rw [h1] at h; cases h
  · rw [h1] at h; cases h
  · rw [h1] at h
    simp only [PassResult.again.injEq] at h
    obtain ⟨h1, _, _, h4⟩ := h
    refine ⟨?_, ?_, ?_⟩
    · rw [← h4]
      simp [record_pass, set_accumulated_effect, upd]
    · rw [← h1]
    · intro hv
      by_contra hc
      exact hna ⟨hv, by omega⟩

/-- Once the block is visited, the loop of `find_fixed_point` ends within `9 - cnt`
further iterations. -/
theorem find_fixed_point_loop_total_visited (env : Env X E) (σ : State X E) (this : Ptr) :
    ∀ fuel cnt inputs post_facts visit_once fm, fm.map_visited this = true →
      9 ≤ cnt + fuel → 1 ≤ fuel →
      find_fixed_point_loop env σ this fuel cnt inputs post_facts visit_once fm ≠ none := by
  intro fuel
  induction fuel with
  | zero =>
    intro cnt inputs post_facts visit_once fm _ _ h1
    omega
  | succ n ih =>
    intro cnt inputs post_facts visit_once fm hv hle _
    rw [find_fixed_point_loop]
    split
    · simp
    · next cnt1 inputs1 pf1 fm1 hp =>
      obtain ⟨h1, h2, h3⟩ := find_fixed_point_pass_again_visited env σ this _ _ _ _ _ _ _ _ _ hp
      rw [if_pos hv] at h2
      have := h3 hv
      exact ih _ _ _ _ _ h1 (by omega) (by omega)

theorem find_fixed_point_total (env : Env X E) (σ : State X E) (this : Ptr)
    (inputs post_facts : FactVec) (visit_once : Bool) :
    find_fixed_point env σ this inputs post_facts visit_once ≠ none := by
  unfold find_fixed_point
  by_cases hv : σ.fm.map_visited this = true
  · exact find_fixed_point_loop_total_visited env σ this 10 0 _ _ _ _ hv (by omega) (by omega)
  · rw [find_fixed_point_loop]
    split
    · simp
    · next cnt1 inputs1 pf1 fm1 hp =>
      obtain ⟨h1, h2, _⟩ := find_fixed_point_pass_again_visited env σ this _ _ _ _ _ _ _ _ _ hp
      rw [if_neg hv] at h2
      exact find_fixed_point_loop_total_visited env σ this 9 cnt1 _ _ _ _ h1 (by omega) (by omega)

theorem find_fixed_point_fail_lt (env : Env X E) (σ : State X E) (this : Ptr)
    (inputs post_facts : FactVec) (visit_once : Bool) (i : Nat) (pf : FactVec)
    (fm' : FactMgr X E)
    (h : find_fixed_point env σ this inputs post_facts visit_once
      = some (FixResult.failure i pf fm')) : i < (σ.stms this).length :=
  find_fixed_point_loop_fail_lt env σ this _ _ _ _ _ _ _ _ _ h

theorem after_prune_frame (env : Env X E) (this : Ptr) (pre_effect : E) (sbe : Bool)
    (σ1 : State X E) :
    (after_prune env this pre_effect sbe σ1).2.stms = σ1.stms ∧
    (after_prune env this pre_effect sbe σ1).2.parent = σ1.parent ∧
    (after_prune env this pre_effect sbe σ1).2.looping = σ1.looping ∧
    (after_prune env this pre_effect sbe σ1).2.stack = σ1.stack ∧
    (after_prune env this pre_effect sbe σ1).2.blocks = σ1.blocks ∧
    (after_prune env this pre_effect sbe σ1).2.cfg_edges.length
        + (if (after_prune env this pre_effect sbe σ1).1 = true then 0 else 1)
      ≤ σ1.cfg_edges.length + (if sbe = true then 0 else 1) := by
  unfold after_prune
  dsimp only
  split
  · next h =>
    refine ⟨rfl, rfl, rfl, rfl, rfl, ?_⟩
    simp [reset_effect_accum, create_cfg_edge, h.1]
  · refine ⟨rfl, rfl, rfl, rfl, rfl, ?_⟩
    simp [reset_effect_accum]

/-- The loop `while (!find_fixed_point(...))` ends within as many calls of
`find_fixed_point` as the block has statements, and one more. -/
theorem converge_or_prune_no_timeout (env : Env X E) (this : Ptr) (facts_copy : FactVec)
    (pre_effect : E) (D fuel B : Nat) (hB : remove_stmt_fuel B D ≤ fuel) :
    ∀ n (sbe : Bool) (post_facts : FactVec) (σ : State X E),
      (∀ b, enclosing_loop σ D b ≠ none) →
      σ.cfg_edges.length + (if sbe = true then 0 else 1) ≤ B →
      (σ.stms this).length < fuel → (σ.stms this).length < n →
      converge_or_prune env this facts_copy pre_effect fuel n sbe post_facts σ
        ≠ Outcome.timeout := by
  intro n
  induction n with
  | zero => intro sbe post_facts σ _ _ _ h; omega
  | succ k ih =>
    intro sbe post_facts σ hD hE hlf hlen
    rw [converge_or_prune]
    cases hff : find_fixed_point env σ this facts_copy post_facts (σ.need_revisit this) with
    | none => exact absurd hff (find_fixed_point_total env σ this _ _ _)
    | some res =>
      cases res with
      | assert_failed => simp
      | success pf fm => simp
      | failure index pf fm =>
        dsimp only
        have hidx := find_fixed_point_fail_lt env σ this _ _ _ _ _ _ hff
        have hD1 : ∀ b, enclosing_loop { σ with fm := fm } D b ≠ none := by
          intro b
          rw [enclosing_loop_congr σ { σ with fm := fm } rfl rfl]
          exact hD b
        obtain ⟨σ1, hp⟩ := prune_total env this index fuel D fuel { σ with fm := fm } hD1
          (le_trans (remove_stmt_fuel_mono D (by
            show σ.cfg_edges.length ≤ B
            omega)) hB) hlf
        rw [hp]
        dsimp only
        obtain ⟨hs, hl⟩ := prune_spec env this index fuel fuel _ _ hp
        have hedges : σ1.cfg_edges.length ≤ σ.cfg_edges.length := hs.cfg_edges.length_le
        obtain ⟨f1, f2, f3, _, _, f6⟩ := after_prune_frame env this pre_effect sbe σ1
        apply ih
        · intro b
          rw [enclosing_loop_congr σ1 _ f3 f2]
          exact walks_end_of_shrinks D _ σ1 hs hD1 b
        · omega
        · rw [f1]
          have : (σ.stms this).length < fuel := hlf
          omega
        · rw [f1]
          have : (σ.stms this).length < k + 1 := hlen
          omega

/-! ## C1 -/

/-- C1 fails on the code: in block `1` = `[10, 11, 12]`, `10` being a goto to `11`, the
analysis fails on `11`, so `find_fixed_point` reports index 1. Removing `11` removes
the goto `10` too, `12` moves to index 0 and the prune loop, which goes on at index
1, leaves it: `12` stood at index 2 and is still in `stms` after the prune and
after the whole of `post_creation_analysis`. -/
theorem prune_keeps_statement_after_fail_index :
    exGotoLoop.stms 1 = [10, 11, 12] ∧
    (find_fixed_point (exEnv exKind [11] false) exGotoLoop 1 [] [] false).bind
        FixResult.failed_at = some 1 ∧
    (prune (exEnv exKind [11] false) 1 1 13 13 exGotoLoop).map (fun σ => σ.stms 1)
        = some [12] ∧
    (post_creation_analysis (exEnv exKind [11] false) 1 () 4 13 exGotoLoop).result.map
        (fun σ => σ.stms 1) = some [12] := by
  refine ⟨?_, ?_, ?_, ?_⟩ <;> decide

/-! ## C5 -/

/-- C5. In the loop `while (!find_fixed_point(...))` of `post_creation_analysis`: a call
of `find_fixed_point` that fails is followed by a prune loop that ends and leaves
fewer statements in `stms` (at most `fail_index` of them); the loop ends within
`N + 1` calls of `find_fixed_point`, hence after at most `N` prunes, for a block of
`N` statements; and a prune at index 0 leaves the block without statements. The
loop ends with a result or on a failed assertion of `find_fixed_point`. -/
theorem converge_or_prune_terminates (env : Env X E) (this : Ptr) (facts_copy : FactVec)
    (pre_effect : E) (D fuel : Nat) (self_back_edge : Bool) (post_facts : FactVec)
    (σ : State X E)
    (hD : ∀ b, enclosing_loop σ D b ≠ none)
    (hfuel : remove_stmt_fuel (σ.cfg_edges.length + 1) D ≤ fuel)
    (hlen : (σ.stms this).length < fuel) :
    (∀ index pf fm,
        find_fixed_point env σ this facts_copy post_facts (σ.need_revisit this)
          = some (FixResult.failure index pf fm) →
        ∃ σ', prune env this index fuel fuel { σ with fm := fm } = some σ' ∧
          (σ'.stms this).length ≤ index ∧ (σ'.stms this).length < (σ.stms this).length) ∧
    converge_or_prune env this facts_copy pre_effect fuel ((σ.stms this).length + 1)
        self_back_edge post_facts σ ≠ Outcome.timeout ∧
    (∀ fm, ∃ σ', prune env this 0 fuel fuel { σ with fm := fm } = some σ' ∧
        σ'.stms this = []) := by
  have hfuel0 : remove_stmt_fuel σ.cfg_edges.length D ≤ fuel :=
    le_trans (remove_stmt_fuel_mono D (Nat.le_succ _)) hfuel
  have hprune : ∀ index fm, ∃ σ', prune env this index fuel fuel { σ with fm := fm } = some σ' ∧
      (σ'.stms this).length ≤ index := by
    intro index fm
    have hD1 : ∀ b, enclosing_loop { σ with fm := fm } D b ≠ none := by
      intro b
      rw [enclosing_loop_congr σ { σ with fm := fm } rfl rfl]
      exact hD b
    obtain ⟨σ', hp⟩ := prune_total env this index fuel D fuel { σ with fm := fm } hD1 hfuel0 hlen
    exact ⟨σ', hp, (prune_spec env this index fuel fuel _ _ hp).2⟩
  refine ⟨?_, ?_, ?_⟩
  · intro index pf fm hff
    have hidx := find_fixed_point_fail_lt env σ this _ _ _ _ _ _ hff
    obtain ⟨σ', hp, hl⟩ := hprune index fm
    exact ⟨σ', hp, hl, by omega⟩
  · exact converge_or_prune_no_timeout env this facts_copy pre_effect D fuel
      (σ.cfg_edges.length + 1) hfuel _ self_back_edge post_facts σ hD
      (by split <;> omega) hlen (Nat.lt_succ_self _)
  · intro fm
    obtain ⟨σ', hp, hl⟩ := hprune 0 fm
    exact ⟨σ', hp, List.length_eq_zero.mp (Nat.le_zero.mp hl)⟩

/-- Witness of C5: the loop body `1` = `[10, 11, 12]` whose analysis fails on `11`. -/
theorem converge_or_prune_terminates_witness :
    ((∀ b, enclosing_loop exGotoLoop 3 b ≠ none) ∧
      remove_stmt_fuel (exGotoLoop.cfg_edges.length + 1) 3 ≤ 13 ∧
      (exGotoLoop.stms 1).length < 13) ∧
    ((∀ index pf fm,
        find_fixed_point (exEnv exKind [11] false) exGotoLoop 1 [] [7]
            (exGotoLoop.need_revisit 1) = some (FixResult.failure index pf fm) →
        ∃ σ', prune (exEnv exKind [11] false) 1 index 13 13 { exGotoLoop with fm := fm }
            = some σ' ∧
          (σ'.stms 1).length ≤ index ∧ (σ'.stms 1).length < (exGotoLoop.stms 1).length) ∧
    converge_or_prune (exEnv exKind [11] false) 1 [] () 13 ((exGotoLoop.stms 1).length + 1)
        false [7] exGotoLoop ≠ Outcome.timeout ∧
    (∀ fm, ∃ σ', prune (exEnv exKind [11] false) 1 0 13 13 { exGotoLoop with fm := fm }
        = some σ' ∧ σ'.stms 1 = [])) :=
  ⟨⟨exState_walks_end _ _ _ _ _ (by decide), by decide, by decide⟩,
    converge_or_prune_terminates (exEnv exKind [11] false) 1 [] () 3 13 false [7] exGotoLoop
      (exState_walks_end _ _ _ _ _ (by decide)) (by decide) (by decide)⟩

/-! ## C6 -/

theorem converge_or_prune_stack (env : Env X E) (this : Ptr) (facts_copy : FactVec)
    (pre_effect : E) (fuel : Nat) :
    ∀ n (sbe : Bool) (post_facts : FactVec) (σ : State X E) r,
      converge_or_prune env this facts_copy pre_effect fuel n sbe post_facts σ = Outcome.ok r →
      r.2.stack = σ.stack := by
  intro n
  induction n with
  | zero => intro sbe post_facts σ r h; simp [converge_or_prune] at h
  | succ k ih =>
    intro sbe post_facts σ r h
    rw [converge_or_prune] at h
    split at h
    · cases h
    · cases h
    · cases h; rfl
    · split at h
      · cases h
      · next σ1 hp =>
        have h1 := ih _ _ _ _ h
        have h2 := (prune_spec env this _ fuel fuel _ _ hp).1.stack
        obtain ⟨_, _, _, f4, _, _⟩ := after_prune_frame env this pre_effect sbe σ1
        rw [h1, f4, h2]

theorem first_self_back_edge_cases (env : Env X E) (this : Ptr) (σ1 : State X E) :
    ((first_self_back_edge env this σ1).1 = false ∧ (first_self_back_edge env this σ1).2 = σ1) ∨
    ((first_self_back_edge env this σ1).1 = true ∧ is_loop_body env σ1 this = true ∧
      from_tail_to_head env σ1 this = true ∧
      (first_self_back_edge env this σ1).2 = create_cfg_edge σ1 this this false true) := by
  unfold first_self_back_edge
  split
  · next h => exact Or.inr ⟨rfl, h.1, h.2, rfl⟩
  · exact Or.inl ⟨rfl, rfl⟩

theorem fixed_point_phase_stack (env : Env X E) (this : Ptr) (pre_effect : E)
    (rounds fuel : Nat) (post_facts : FactVec) (σ1 : State X E) (r : FactVec × State X E)
    (h : fixed_point_phase env this pre_effect rounds fuel post_facts σ1 = Outcome.ok r) :
    r.2.stack = σ1.stack := by
  unfold fixed_point_phase at h
  split at h
  · dsimp only at h
    split at h
    · next r' hc =>
      cases h
      have hst := converge_or_prune_stack env this _ pre_effect fuel _ _ _ _ _ hc
      show r'.2.stack = σ1.stack
      rw [hst]
      rcases first_self_back_edge_cases env this σ1 with ⟨_, e2⟩ | ⟨_, _, _, e2⟩
      · rw [e2]; rfl
      · rw [e2]; rfl
    · cases h
    · cases h
  · cases h; rfl

theorem append_return_stmt_stack (env : Env X E) (hk : env.keeps_stack) (this : Ptr)
    (σ : State X E) (r : Ptr × State X E) (h : append_return_stmt env this σ = Outcome.ok r) :
    r.2.stack = σ.stack := by
  unfold append_return_stmt at h
  dsimp only at h
  split at h
  · cases h
    exact hk.Statement_make_random _ _
  · split at h
    · cases h
    · cases h
      exact hk.Statement_make_random _ _

theorem return_phase_stack (env : Env X E) (hk : env.keeps_stack) (this : Ptr)
    (post_facts : FactVec) (σ5 σ' : State X E)
    (h : return_phase env this post_facts σ5 = Outcome.ok σ') : σ'.stack = σ5.stack := by
  unfold return_phase at h
  split at h
  · split at h
    · cases h
    · cases h
    · next r hr =>
      cases h
      exact append_return_stmt_stack env hk this
        { σ5 with fm := { σ5.fm with global_facts := post_facts } } r hr
  · cases h; rfl

theorem post_creation_analysis_stack (env : Env X E) (hk : env.keeps_stack) (this : Ptr)
    (pre_effect : E) (rounds fuel : Nat) (σ0 σ' : State X E)
    (h : post_creation_analysis env this pre_effect rounds fuel σ0 = Outcome.ok σ') :
    σ'.stack = σ0.stack := by
  unfold post_creation_analysis at h
  split at h
  · cases h
  · cases h
  · next r hr =>
    rw [return_phase_stack env hk this _ _ _ h, fixed_point_phase_stack env this _ _ _ _ _ _ hr]
    rfl

theorem populate_stack (env : Env X E) (hk : env.keeps_stack) (b max : Nat) :
    ∀ fuel i (σ σ' : State X E), populate env b max fuel i σ = some σ' → σ'.stack = σ.stack := by
  intro fuel
  induction fuel with
  | zero => intro i σ σ' h; simp [populate] at h
  | succ n ih =>
    intro i σ σ' h
    rw [populate] at h
    split at h
    · split at h
      · cases h
        exact hk.Statement_make_random _ _
      · split at h
        · cases h
          exact hk.Statement_make_random _ _
        · rw [ih _ _ _ h]
          exact hk.Statement_make_random _ _
    · cases h; rfl

theorem need_loop_for_vars_stack (env : Env X E) (hk : env.keeps_stack) :
    ∀ (l : List Ptr) (σ : State X E), (need_loop_for_vars env l σ).2.stack = σ.stack := by
  intro l
  induction l with
  | nil => intro σ; rfl
  | cons v rest ih =>
    intro σ
    rw [need_loop_for_vars]
    dsimp only
    split
    · rfl
    · split
      · split
        · exact hk.rnd_flipcoin _ _
        · rw [ih]; exact hk.rnd_flipcoin _ _
      · exact ih σ

theorem need_nested_loop_stack (env : Env X E) (hk : env.keeps_stack) (this : Ptr)
    (σ : State X E) : (need_nested_loop env this σ).2.stack = σ.stack := by
  unfold need_nested_loop
  dsimp only
  split
  · split
    · exact need_loop_for_vars_stack env hk _ _
    · rw [need_loop_for_vars_stack env hk, need_loop_for_vars_stack env hk]
  · rfl

theorem append_nested_loop_stack (env : Env X E) (hk : env.keeps_stack) (this : Ptr)
    (σ : State X E) : (append_nested_loop env this σ).2.stack = σ.stack := by
  unfold append_nested_loop
  dsimp only
  split
  · exact hk.Statement_make_random _ _
  · exact hk.Statement_make_random _ _

theorem nested_loop_phase_stack (env : Env X E) (hk : env.keeps_stack) (b : Ptr)
    (σ : State X E) : (nested_loop_phase env b σ).stack = σ.stack := by
  unfold nested_loop_phase
  split
  · rw [append_nested_loop_stack env hk, need_nested_loop_stack env hk]
  · exact need_nested_loop_stack env hk b σ

theorem enter_block_stack (env : Env X E) (looping : Bool) (σ0 : State X E) :
    (enter_block env looping σ0).2.stack = σ0.stack ++ [(enter_block env looping σ0).1] := rfl

theorem stack_pop_back_of_push (σ : State X E) (st : List Ptr) (b : Ptr)
    (h : σ.stack = st ++ [b]) : (stack_pop_back σ).stack = st := by
  unfold stack_pop_back
  simp [h]

theorem finish_block_stack (b : Ptr) (σ9 : State X E) :
    (finish_block b σ9).2.stack = (stack_pop_back σ9).stack := by
  unfold finish_block
  split
  · rfl
  · split <;> rfl

theorem and_then_stack (o : GenOutcome X E) (f : State X E → GenOutcome X E) (st : List Ptr)
    (ho : o.stack_is st) (hf : ∀ σ, σ.stack = st → (f σ).stack_is st) :
    (o.and_then f).stack_is st := by
  cases o with
  | ok σ => exact hf σ ho
  | thrown σ => exact ho
  | assert_failed => trivial
  | timeout => trivial

theorem stack_is_trans (o : GenOutcome X E) (st st' : List Ptr) (h : o.stack_is st)
    (heq : st = st') : o.stack_is st' := heq ▸ h

theorem for_each_json_stack (f : Json → State X E → GenOutcome X E)
    (hf : ∀ j σ, (f j σ).stack_is σ.stack) :
    ∀ (l : List Json) (σ : State X E), (for_each_json f l σ).stack_is σ.stack := by
  intro l
  induction l with
  | nil => intro σ; rfl
  | cons j rest ih =>
    intro σ
    rw [for_each_json]
    exact and_then_stack _ _ _ (hf j σ) (fun σ1 h1 => stack_is_trans _ _ _ (ih σ1) h1)

theorem generate_statements_from_json_stack (gen : Json → Ptr → State X E → GenOutcome X E)
    (hgen : ∀ j b σ, (gen j b σ).stack_is σ.stack) (statements : Json) (b : Ptr)
    (σ : State X E) : (generate_statements_from_json gen statements b σ).stack_is σ.stack := by
  unfold generate_statements_from_json
  cases statements with
  | null => rfl
  | scalar => exact hgen _ _ _
  | array items => exact for_each_json_stack _ (fun j σ => hgen j b σ) _ _
  | object members => exact for_each_json_stack _ (fun j σ => hgen j b σ) _ _

theorem generate_body_stack (gen : Json → Ptr → State X E → GenOutcome X E)
    (hgen : ∀ j b σ, (gen j b σ).stack_is σ.stack) (node : Json) (key : String) (b : Ptr)
    (σ : State X E) : (generate_body gen node key b σ).stack_is σ.stack := by
  unfold generate_body
  split
  · rfl
  · trivial
  · split
    · rfl
    · trivial
    · exact generate_statements_from_json_stack gen hgen _ _ _

theorem generate_member_stack (env : Env X E) (hk : env.keeps_stack)
    (gen : Json → Ptr → State X E → GenOutcome X E)
    (hgen : ∀ j b σ, (gen j b σ).stack_is σ.stack) (type : String) (node : Json) (b : Ptr)
    (σ : State X E) : (generate_member env gen type node b σ).stack_is σ.stack := by
  unfold generate_member
  split
  · dsimp only [GenOutcome.stack_is]
    split
    · exact hk.StatementAssign_make_random σ
    · exact hk.StatementAssign_make_random σ
  · split
    · dsimp only
      split
      · exact stack_is_trans _ _ _ (generate_body_stack gen hgen _ _ _ _)
          (hk.StatementFor_make_random σ)
      · exact hk.StatementFor_make_random σ
    · split
      · dsimp only
        have hf : (new_Block env (new_Block env (env.Expression_make_random σ).2 b
            env.max_block_size).2 b env.max_block_size).2.stack = σ.stack :=
          hk.Expression_make_random σ
        apply and_then_stack
        · split
          · exact stack_is_trans _ _ _ (generate_body_stack gen hgen _ _ _ _) hf
          · exact hf
        · intro σ1 h1
          apply and_then_stack
          · split
            · exact stack_is_trans _ _ _ (generate_body_stack gen hgen _ _ _ _) h1
            · exact h1
          · intro σ2 h2
            dsimp only [GenOutcome.stack_is]
            split
            · exact h2
            · exact h2
      · rfl

theorem generate_members_stack (env : Env X E) (hk : env.keeps_stack)
    (gen : Json → Ptr → State X E → GenOutcome X E)
    (hgen : ∀ j b σ, (gen j b σ).stack_is σ.stack) (b : Ptr) :
    ∀ (l : List (String × Json)) (σ : State X E),
      (generate_members env gen b l σ).stack_is σ.stack := by
  intro l
  induction l with
  | nil => intro σ; rfl
  | cons m rest ih =>
    intro σ
    rw [generate_members]
    exact and_then_stack _ _ _ (generate_member_stack env hk gen hgen m.1 m.2 b σ)
      (fun σ1 h1 => stack_is_trans _ _ _ (ih σ1) h1)

theorem generate_statement_from_json_stack (env : Env X E) (hk : env.keeps_stack) :
    ∀ fuel (j : Json) (b : Ptr) (σ : State X E),
      (generate_statement_from_json env fuel j b σ).stack_is σ.stack := by
  intro fuel
  induction fuel with
  | zero => intro j b σ; trivial
  | succ n ih =>
    intro j b σ
    cases j with
    | null => rfl
    | scalar => rfl
    | array items =>
      cases items with
      | nil => rfl
      | cons x xs => rfl
    | object members =>
      show (generate_members env (generate_statement_from_json env n) b members σ).stack_is σ.stack
      exact generate_members_stack env hk _ ih b _ σ

/-- C6. Every call of `Block::make_random` and of `Block::make_random_from_template_tree`
that returns, with a block or with NULL (depth guard, Error flag set after the
size is chosen, after the population, after the post-creation analysis, exception
in the walk of the template), leaves the block stack of the function equal to the
stack before the call, provided the statement generators leave the stack as they
found it (`hk`); the analysis called, `post_creation_analysis`, is part of the
embedding and is shown to do so. -/
theorem make_random_restores_stack (env : Env X E) (hk : env.keeps_stack) (fuel : Nat)
    (looping : Bool) (tree : Json) (σ : State X E) :
    (∀ r, make_random env fuel looping σ = Outcome.ok r → r.2.stack = σ.stack) ∧
    (∀ r, make_random_from_template_tree env fuel tree looping σ = Outcome.ok r →
      r.2.stack = σ.stack) := by
  constructor
  · intro r h
    unfold make_random at h
    split at h
    · cases h; rfl
    · dsimp only at h
      have he := enter_block_stack env looping
        { σ with fm := { σ.fm with ext := (env.depth_guard σ).2 } }
      have hbp := hk.rnd_upto
        ((enter_block env looping
          { σ with fm := { σ.fm with ext := (env.depth_guard σ).2 } }).2.block_size
          (enter_block env looping
            { σ with fm := { σ.fm with ext := (env.depth_guard σ).2 } }).1)
        [((enter_block env looping
          { σ with fm := { σ.fm with ext := (env.depth_guard σ).2 } }).2.block_size
          (enter_block env looping
            { σ with fm := { σ.fm with ext := (env.depth_guard σ).2 } }).1 + 2 ^ 32 - 1) % 2 ^ 32]
        (enter_block env looping
          { σ with fm := { σ.fm with ext := (env.depth_guard σ).2 } }).2
      split at h
      · cases h
        exact stack_pop_back_of_push _ _ _ (hbp.trans he)
      · split at h
        · cases h
        · next σ6 hpop =>
          have h6 := (populate_stack env hk _ _ _ _ _ _ hpop).trans (hbp.trans he)
          split at h
          · cases h
            exact stack_pop_back_of_push _ _ _ h6
          · split at h
            · cases h
            · cases h
            · next σ9 hpca =>
              cases h
              rw [finish_block_stack]
              apply stack_pop_back_of_push
              rw [post_creation_analysis_stack env hk _ _ _ _ _ _ hpca,
                nested_loop_phase_stack env hk]
              exact h6
  · intro r h
    unfold make_random_from_template_tree at h
    split at h
    · cases h; rfl
    · dsimp only at h
      have he := enter_block_stack env looping
        { σ with fm := { σ.fm with ext := (env.depth_guard σ).2 } }
      have hg := generate_body_stack (generate_statement_from_json env fuel)
        (generate_statement_from_json_stack env hk fuel) tree "Block"
        (enter_block env looping
          { σ with fm := { σ.fm with ext := (env.depth_guard σ).2 } }).1
        (enter_block env looping
          { σ with fm := { σ.fm with ext := (env.depth_guard σ).2 } }).2
      split at h
      · cases h
      · cases h
      · next σ4 hgb =>
        cases h
        rw [hgb] at hg
        exact stack_pop_back_of_push _ _ _ (Eq.trans hg he)
      · next σ4 hgb =>
        rw [hgb] at hg
        have h4 : σ4.stack = _ := Eq.trans hg he
        split at h
        · cases h
        · cases h
        · next σ5 hpca =>
          have h5 := (post_creation_analysis_stack env hk _ _ _ _ _ _ hpca).trans h4
          split at h
          · cases h
            exact stack_pop_back_of_push _ _ _ h5
          · cases h
            exact stack_pop_back_of_push _ _ _ h5

theorem exEnv_keeps_stack (kind : Ptr → eStatementType) (bad : List Ptr) (needRet : Bool) :
    (exEnv kind bad needRet).keeps_stack :=
  ⟨fun k _ => by cases k <;> rfl, fun _ => rfl, fun _ => rfl, fun _ => rfl, fun _ _ => rfl,
    fun _ _ _ => rfl⟩

/-- Witness of C6: a call of `make_random` that returns block `2`, a call of
`make_random_from_template_tree` that returns block `2`, and one that returns NULL
on a malformed template; each leaves the stack `[1]`. -/
theorem make_random_restores_stack_witness :
    (exEnv exKind [] true).keeps_stack ∧
    (∃ r, make_random (exEnv exKind [] true) 13 false exGenState = Outcome.ok r ∧
      r.1 = 2 ∧ r.2.stack = exGenState.stack) ∧
    (∃ r, make_random_from_template_tree (exEnv exKind [] true) 13 exTemplate false exGenState
        = Outcome.ok r ∧ r.1 = 2 ∧ r.2.stack = exGenState.stack) ∧
    (∃ r, make_random_from_template_tree (exEnv exKind [] true) 13
        (Json.object [("Block", Json.scalar)]) false exGenState
        = Outcome.ok r ∧ r.1 = 0 ∧ r.2.stack = exGenState.stack) :=
  ⟨exEnv_keeps_stack _ _ _,
    ⟨_, rfl, by decide,
      (make_random_restores_stack (exEnv exKind [] true) (exEnv_keeps_stack _ _ _) 13 false
        exTemplate exGenState).1 _ rfl⟩,
    ⟨_, rfl, by decide,
      (make_random_restores_stack (exEnv exKind [] true) (exEnv_keeps_stack _ _ _) 13 false
        exTemplate exGenState).2 _ rfl⟩,
    ⟨_, rfl, by decide,
      (make_random_restores_stack (exEnv exKind [] true) (exEnv_keeps_stack _ _ _) 13 false
        (Json.object [("Block", Json.scalar)]) exGenState).2 _ rfl⟩⟩

/-! ## Lemmas on `get_last_stm` and on the population loop -/

theorem populate_log_fst (env : Env X E) (b max : Nat) :
    ∀ fuel i (σ : State X E),
      (populate_log env b max fuel i σ).map Prod.fst = populate env b max fuel i σ := by
  intro fuel
  induction fuel with
  | zero => intro i σ; rfl
  | succ n ih =>
    intro i σ
    rw [populate_log, populate]
    split
    · split
      · rfl
      · split
        · rfl
        · rw [← ih]
          simp only [Option.map_map]
          rfl
    · rfl

theorem populate_log_verdicts (env : Env X E) (b max : Nat) :
    ∀ fuel i (σ : State X E) r, populate_log env b max fuel i σ = some r →
      ∀ p ∈ r.2.dropLast, p.2 = false := by
  intro fuel
  induction fuel with
  | zero => intro i σ r h; simp [populate_log] at h
  | succ n ih =>
    intro i σ r h
    rw [populate_log] at h
    split at h
    · split at h
      · cases h; intro p hp; simp at hp
      · split at h
        · cases h; intro p hp; simp at hp
        · rw [Option.map_eq_some'] at h
          obtain ⟨r', hr', rfl⟩ := h
          intro p hp
          have hih := ih _ _ _ hr'
          dsimp only at hp
          cases hr2 : r'.2 with
          | nil => rw [hr2] at hp; simp at hp
          | cons q qs =>
            rw [hr2, List.dropLast_cons₂, List.mem_cons] at hp
            rcases hp with rfl | hp
            · rfl
            · exact hih p (hr2 ▸ hp)
    · cases h; intro p hp; simp at hp

theorem populate_log_stms (env : Env X E) (b max : Nat)
    (hgen : ∀ τ, (env.Statement_make_random none τ).2.stms b = τ.stms b) :
    ∀ fuel i (σ : State X E) r, populate_log env b max fuel i σ = some r →
      r.1.stms b = σ.stms b ++ r.2.map Prod.fst := by
  intro fuel
  induction fuel with
  | zero => intro i σ r h; simp [populate_log] at h
  | succ n ih =>
    intro i σ r h
    rw [populate_log] at h
    have hpush : (populate_push env b σ).stms b
        = σ.stms b ++ [(env.Statement_make_random none σ).1] := by
      unfold populate_push
      show upd _ b _ b = _
      rw [upd_same, hgen]
    split at h
    · split at h
      · cases h; simp [hgen]
      · split at h
        · cases h
          simp [hpush]
        · rw [Option.map_eq_some'] at h
          obtain ⟨r', hr', rfl⟩ := h
          have hih := ih _ _ _ hr'
          dsimp only
          rw [hih, hpush]
          simp
    · cases h; simp

/-! ## C8 -/

/-- C8, as stated, fails: block `1` = `[20]` ends with a return statement and the
registry holds an edge into block `1` from statement `30` that is not a back link;
`must_return()` is true although an edge into the block has another source. -/
theorem must_return_with_foreign_edge :
    must_return (exEnv exKind [] false)
        (exState exKind false [20] [⟨30, 1, false, false⟩] []) 1 = true ∧
    ∃ e ∈ (exState exKind false [20] [⟨30, 1, false, false⟩] []).cfg_edges,
      e.dest = 1 ∧ e.src ≠ 1 := by
  refine ⟨by decide, ⟨30, 1, false, false⟩, by decide, by decide, by decide⟩

/-- C8, amended. For every block `B` for which `must_return()` is true, every edge that
`find_edges_in(edges, false, true)` gives for `B` (the back links into `B`)
originates from `B` itself; equivalently, if one of these edges has a source other
than `B`, `must_return()` is false. Edges that `find_edges_in(edges, false, true)`
does not give are not looked at. -/
theorem must_return_back_edges_from_self (env : Env X E) (σ : State X E) (B : Ptr) :
    (must_return env σ B = true →
      ∀ e ∈ env.find_edges_in σ.cfg_edges B false true, e.src = B) ∧
    ((∃ e ∈ env.find_edges_in σ.cfg_edges B false true, e.src ≠ B) →
      must_return env σ B = false) := by
  have key : must_return env σ B = true →
      ∀ e ∈ env.find_edges_in σ.cfg_edges B false true, e.src = B := by
    intro h e he
    unfold must_return at h
    split at h
    · rw [List.all_eq_true] at h
      simpa using h e he
    · cases h
  refine ⟨key, ?_⟩
  rintro ⟨e, he, hne⟩
  cases hm : must_return env σ B with
  | false => rfl
  | true => exact absurd (key hm e he) hne

/-- Witness of C8 amended: the loop body `1` = `[20]` with its self back edge. -/
theorem must_return_back_edges_from_self_witness :
    must_return (exEnv exKind [] false)
        (exState exKind true [20] [⟨1, 1, false, true⟩] []) 1 = true ∧
    ∀ e ∈ (exEnv exKind [] false).find_edges_in
        (exState exKind true [20] [⟨1, 1, false, true⟩] []).cfg_edges 1 false true, e.src = 1 :=
  ⟨by decide,
    (must_return_back_edges_from_self (exEnv exKind [] false)
      (exState exKind true [20] [⟨1, 1, false, true⟩] []) 1).1 (by decide)⟩

/-! ## C9 -/

/-- C12 fails on the code: in `exCrossState` block `1` = `[11, 12, 13]`; removing `11`
removes the goto `10` (of block `2`) that jumps to it, and that call removes the
goto `13` of block `1` that jumps to `10`. Block `1` loses two statements, `11` and
`13`, and `remove_stmt` returns 1. -/
theorem remove_stmt_count_misses_cascade :
    exCrossState.stms 1 = [11, 12, 13] ∧
    (remove_stmt (exEnv exKind2 [] false) 20 1 11 exCrossState).map
        (fun r => (r.1, r.2.stms 1, r.2.deleted_stms 1, r.2.stms 2)) =
      some (1, [12], [13, 11], []) := by
  refine ⟨?_, ?_⟩ <;> decide

/-! ## C14 -/

/-- C14 fails on the code: a call of `make_random` in which the statement generator
sets the Error flag returns NULL, and a call of `make_random_from_template_tree`
on a malformed template returns NULL; in both the block `2` allocated by the call
is not in the inventory before the call and is in it after the call. -/
theorem make_random_failure_leaves_block_in_inventory :
    2 ∉ exGenState.blocks ∧
    (make_random (exErrorEnv false) 13 false exGenState).result.map
        (fun r => (r.1, r.2.blocks, r.2.stack)) = some (0, [1, 2], [1]) ∧
    (make_random_from_template_tree (exEnv exKind [] false) 13
        (Json.object [("Block", Json.scalar)]) false exGenState).result.map
        (fun r => (r.1, r.2.blocks, r.2.stack)) = some (0, [1, 2], [1]) := by
  refine ⟨?_, ?_, ?_⟩ <;> decide

/-! ## C15 -/

/-- C15 fails on the code: for the template of one `StatementAssign` node followed by one
`StatementFor` node that holds one `StatementAssign` node, with every statement
request successful and nothing pruned, `make_random_from_template_tree` returns
block `2` with three top-level statements: the assignment `11`, the loop `12` and
the assignment `13` of the nested node, appended to the block itself. -/
theorem template_nested_statement_in_enclosing_block :
    (make_random_from_template_tree (exEnv exKind [] false) 13 exTemplate false
        exTemplateState).result.map
        (fun r => (r.1, r.2.stms r.1, (r.2.stms r.1).map r.2.eType, r.2.deleted_stms r.1)) =
      some (2, [11, 12, 13], [eAssign, eFor, eAssign], []) := by
  decide

/-! ## C17 -/

/-- C17 fails on the code: for a `StatementFor` node, when `StatementFor::make_random` gives
NULL, `generate_statement_from_json` appends NULL to `stms` of the block, which held
no NULL before; for a `StatementAssign` node with the same generator result nothing
is appended. -/
theorem template_for_appends_null :
    (0 : Ptr) ∉ (exState exKind false [11] [] []).stms 1 ∧
    ((generate_statement_from_json (exEnv exKind [] false) 2
        (Json.object [("StatementFor", Json.object [])]) 1
        (exState exKind false [11] [] [])).state.map (fun σ => σ.stms 1)) = some [11, 0] ∧
    ((generate_statement_from_json (exEnv exKind [] false) 2
        (Json.object [("StatementAssign", Json.object [])]) 1
        (exState exKind false [11] [] [])).state.map (fun σ => σ.stms 1)) = some [11] := by
  refine ⟨?_, ?_, ?_⟩ <;> decide

/-! ## C13 -/

theorem moved_refl (σ : State X E) : Moved σ σ :=
  fun b => ⟨[], by simp, by simp⟩

theorem moved_trans {σ1 σ2 σ3 : State X E} (h12 : Moved σ1 σ2) (h23 : Moved σ2 σ3) :
    Moved σ1 σ3 := by
  intro b
  obtain ⟨a1, hd1, hp1⟩ := h12 b
  obtain ⟨a2, hd2, hp2⟩ := h23 b
  refine ⟨a1 ++ a2, by rw [hd2, hd1, List.append_assoc], ?_⟩
  have h1 : (σ3.stms b ++ (a1 ++ a2)).Perm (σ3.stms b ++ (a2 ++ a1)) :=
    List.Perm.append_left _ List.perm_append_comm
  have h2 : (σ3.stms b ++ (a2 ++ a1)).Perm (σ2.stms b ++ a1) := by
    rw [← List.append_assoc]
    exact List.Perm.append_right _ hp2
  exact (h1.trans h2).trans hp1

theorem moved_of_eq {σ σ' : State X E} (hs : σ'.stms = σ.stms)
    (hd : σ'.deleted_stms = σ.deleted_stms) : Moved σ σ' :=
  fun b => ⟨[], by simp [hd], by simp [hs]⟩

theorem remove_jump_refs_moved (fuel : Nat) (this : Ptr) (cfg_stms : List Ptr)
    (σ σ1 : State X E) (h : remove_jump_refs fuel this cfg_stms σ = some σ1) : Moved σ σ1 := by
  unfold remove_jump_refs at h
  split at h
  · cases h; exact moved_refl σ
  · split at h
    · cases h
    · cases h; exact moved_of_eq rfl rfl

theorem delete_stmt_itself_moved (this s : Ptr) (cnt : Nat) (σ : State X E) :
    Moved σ (delete_stmt_itself this s cnt σ).2 := by
  unfold delete_stmt_itself
  split
  · next hmem =>
    intro b
    by_cases hb : b = this
    · subst hb
      refine ⟨[s], by simp [upd], ?_⟩
      show (upd σ.stms b ((σ.stms b).erase s) b ++ [s]).Perm (σ.stms b)
      rw [upd_same]
      exact (List.perm_append_comm.trans (List.perm_cons_erase hmem).symm)
    · exact ⟨[], by simp [upd, hb], by simp [upd, hb]⟩
  · exact moved_refl σ

theorem remove_stmt_moved (env : Env X E) :
    ∀ fuel this s (σ : State X E) r, remove_stmt env fuel this s σ = some r → Moved σ r.2 := by
  intro fuel
  induction fuel with
  | zero => intro this s σ r h; simp [remove_stmt] at h
  | succ n ih =>
    intro this s σ r h
    rw [remove_stmt] at h
    dsimp only at h
    split at h
    · cases h
    · next σ1 h1 =>
      split at h
      · cases h
      · next cnt σ2 h2 =>
        cases h
        have m1 := remove_jump_refs_moved _ _ _ _ _ h1
        have m2 : Moved σ σ2 :=
          scan_edges_in_invariant env (remove_stmt env n) this s (fun τ => Moved σ τ)
            (fun τ i hτ => moved_trans hτ (moved_of_eq rfl rfl))
            (fun p g σa r hσa _ hr => moved_trans hσa (ih p g σa r hr))
            _ _ _ _ _ _ m1 h2
        refine moved_trans (moved_trans m2 ?_) (delete_stmt_itself_moved _ _ _ _)
        exact moved_of_eq rfl rfl

theorem remove_stmt_count_lt (env : Env X E) (fuel : Nat) (this s : Ptr) (σ : State X E)
    (r : Nat × State X E) (hs : s ∈ σ.stms this) (h : remove_stmt env fuel this s σ = some r) :
    (r.2.stms this).count s < (σ.stms this).count s := by
  cases fuel with
  | zero => simp [remove_stmt] at h
  | succ n =>
    rw [remove_stmt] at h
    dsimp only at h
    split at h
    · cases h
    · next σ1 h1 =>
      split at h
      · cases h
      · next cnt σ2 h2 =>
        cases h
        have s1 := remove_jump_refs_shrinks _ _ _ _ _ h1
        have s2 : Shrinks σ1 σ2 :=
          scan_edges_in_invariant env (remove_stmt env n) this s (fun τ => Shrinks σ1 τ)
            (fun τ i hτ => hτ.trans (erase_edge_shrinks τ i))
            (fun p g σa r hσa _ hr => hσa.trans (remove_stmt_shrinks env n p g σa r hr))
            _ _ _ _ _ _ (Shrinks.refl σ1) h2
        have hsub : (σ2.stms this).Sublist (σ.stms this) := (s1.trans s2).stms this
        have hcle : (σ2.stms this).count s ≤ (σ.stms this).count s := hsub.count_le s
        have hpos : 0 < (σ.stms this).count s := List.count_pos_iff.mpr hs
        unfold delete_stmt_itself
        split
        · next hmem =>
          have hmem2 : s ∈ σ2.stms this := hmem
          show (upd σ2.stms this ((σ2.stms this).erase s) this).count s < _
          rw [upd_same, List.count_erase_self]
          have : 0 < (σ2.stms this).count s := List.count_pos_iff.mpr hmem2
          omega
        · next hmem =>
          have hmem2 : s ∉ σ2.stms this := hmem
          show (σ2.stms this).count s < _
          rw [List.count_eq_zero_of_not_mem hmem2]
          exact hpos

/-- C13. If `s` is an element of `B.stms`, `B.remove_stmt(s)` removes `s` from `B.stms`
(one occurrence less; none left when `B.stms` had no repetition) and appends it to
`B.deleted_stms`: `deleted_stms` grows at its end by a list that holds `s` and that,
with what is left of `stms`, makes up the former `stms`; so every statement that
leaves `stms` is in `deleted_stms` afterwards and the multiset `stms + deleted_stms`
is unchanged, for `B` and for every other block; the statements that stay in
`B.stms` keep their relative order. -/
theorem remove_stmt_moves_to_deleted (env : Env X E) (D fuel : Nat) (B s : Ptr)
    (σ : State X E)
    (hs : s ∈ σ.stms B)
    (hD : ∀ b, enclosing_loop σ D b ≠ none)
    (hfuel : remove_stmt_fuel σ.cfg_edges.length D ≤ fuel) :
    ∃ r, remove_stmt env fuel B s σ = some r ∧
      (r.2.stms B).Sublist (σ.stms B) ∧
      (r.2.stms B).count s < (σ.stms B).count s ∧
      ((σ.stms B).Nodup → s ∉ r.2.stms B) ∧
      (∃ added, r.2.deleted_stms B = σ.deleted_stms B ++ added ∧ s ∈ added ∧
        (r.2.stms B ++ added).Perm (σ.stms B)) ∧
      (∀ b, (r.2.stms b ++ r.2.deleted_stms b).Perm (σ.stms b ++ σ.deleted_stms b)) := by
  obtain ⟨r, hr⟩ := remove_stmt_total env D fuel B s σ hD hfuel
  have hsh := remove_stmt_shrinks env fuel B s σ r hr
  have hmv := remove_stmt_moved env fuel B s σ r hr
  have hc := remove_stmt_count_lt env fuel B s σ r hs hr
  refine ⟨r, hr, hsh.stms B, hc, ?_, ?_, ?_⟩
  · intro hnd hmem
    have h1 : (σ.stms B).count s ≤ 1 := List.nodup_iff_count_le_one.mp hnd s
    have h2 : 0 < (r.2.stms B).count s := List.count_pos_iff.mpr hmem
    omega
  · obtain ⟨added, hd, hp⟩ := hmv B
    refine ⟨added, hd, ?_, hp⟩
    have hcount := hp.count_eq s
    rw [List.count_append] at hcount
    have : 0 < added.count s := by omega
    exact List.count_pos_iff.mp this
  · intro b
    obtain ⟨added, hd, hp⟩ := hmv b
    rw [hd]
    have h1 : (r.2.stms b ++ (σ.deleted_stms b ++ added)).Perm
        (r.2.stms b ++ (added ++ σ.deleted_stms b)) :=
      List.Perm.append_left _ List.perm_append_comm
    have h2 : (r.2.stms b ++ (added ++ σ.deleted_stms b)).Perm
        (σ.stms b ++ σ.deleted_stms b) := by
      rw [← List.append_assoc]
      exact List.Perm.append_right _ hp
    exact h1.trans h2

/-- Witness of C13: the assignment `11` is removed from block `1` = `[10, 11, 12]`, with
the goto `10` that jumps to it. -/
theorem remove_stmt_moves_to_deleted_witness :
    (11 ∈ exGotoBlock.stms 1 ∧ (∀ b, enclosing_loop exGotoBlock 3 b ≠ none) ∧
      remove_stmt_fuel exGotoBlock.cfg_edges.length 3 ≤ 8) ∧
    ∃ r, remove_stmt (exEnv exKind [] false) 8 1 11 exGotoBlock = some r ∧
      (r.2.stms 1).Sublist (exGotoBlock.stms 1) ∧
      (r.2.stms 1).count 11 < (exGotoBlock.stms 1).count 11 ∧
      ((exGotoBlock.stms 1).Nodup → 11 ∉ r.2.stms 1) ∧
      (∃ added, r.2.deleted_stms 1 = exGotoBlock.deleted_stms 1 ++ added ∧ 11 ∈ added ∧
        (r.2.stms 1 ++ added).Perm (exGotoBlock.stms 1)) ∧
      (∀ b, (r.2.stms b ++ r.2.deleted_stms b).Perm
        (exGotoBlock.stms b ++ exGotoBlock.deleted_stms b)) :=
  ⟨⟨by decide, exState_walks_end _ _ _ _ _ (by decide), by decide⟩,
    remove_stmt_moves_to_deleted (exEnv exKind [] false) 3 8 1 11 exGotoBlock (by decide)
      (exState_walks_end _ _ _ _ _ (by decide)) (by decide)⟩

/-! ## C19 -/

theorem from_tail_to_head_iff (env : Env X E) (τ : State X E) (this : Ptr) :
    from_tail_to_head env τ this = true ↔
      (τ.looping this = true ∧ τ.stms this ≠ [] ∧
        env.must_jump τ (get_last_stm τ this) = false) := by
  unfold from_tail_to_head
  constructor
  · intro h
    split at h
    · next hc =>
      refine ⟨hc.1, ?_, by simpa using h⟩
      intro hnil
      rw [hnil] at hc
      exact absurd hc.2 (by simp)
    · cases h
  · rintro ⟨h1, h2, h3⟩
    rw [if_pos ⟨h1, List.length_pos.mpr h2⟩, h3]
    rfl

theorem after_prune_edges (env : Env X E) (this : Ptr) (pre_effect : E) (sbe : Bool)
    (σ1 : State X E) :
    ((after_prune env this pre_effect sbe σ1).2.cfg_edges = σ1.cfg_edges ∧
      (after_prune env this pre_effect sbe σ1).1 = sbe) ∨
    (sbe = false ∧ (after_prune env this pre_effect sbe σ1).1 = true ∧
      from_tail_to_head env (after_reset env this σ1) this = true ∧
      (after_prune env this pre_effect sbe σ1).2.cfg_edges
        = σ1.cfg_edges ++ [self_edge this]) := by
  unfold after_prune
  dsimp only
  split
  · next h => exact Or.inr ⟨h.1, rfl, h.2, rfl⟩
  · exact Or.inl ⟨rfl, rfl⟩

theorem from_tail_to_head_after_reset (env : Env X E) (this : Ptr) (σ1 : State X E)
    (h : from_tail_to_head env (after_reset env this σ1) this = true) :
    σ1.looping this = true ∧ σ1.stms this ≠ [] := by
  have := (from_tail_to_head_iff env _ this).mp h
  exact ⟨this.1, this.2.1⟩

theorem converge_or_prune_edges (env : Env X E) (this : Ptr) (facts_copy : FactVec)
    (pre_effect : E) (fuel : Nat) :
    ∀ n (sbe : Bool) (post_facts : FactVec) (σ : State X E) r,
      converge_or_prune env this facts_copy pre_effect fuel n sbe post_facts σ = Outcome.ok r →
      r.2.parent = σ.parent ∧ r.2.looping = σ.looping ∧
      (∀ b, (r.2.stms b).Sublist (σ.stms b)) ∧
      r.2.cfg_edges.Sublist
        (σ.cfg_edges ++ (if sbe = true then [] else [self_edge this])) ∧
      ((σ.looping this = false ∨ σ.stms this = []) → r.2.cfg_edges.Sublist σ.cfg_edges) := by
  intro n
  induction n with
  | zero => intro sbe post_facts σ r h; simp [converge_or_prune] at h
  | succ k ih =>
    intro sbe post_facts σ r h
    rw [converge_or_prune] at h
    split at h
    · cases h
    · cases h
    · cases h
      exact ⟨rfl, rfl, fun _ => List.Sublist.refl _, List.sublist_append_left _ _,
        fun _ => List.Sublist.refl _⟩
    · next index pf fm hff =>
      split at h
      · cases h
      · next σ1 hp =>
        obtain ⟨i1, i2, i3, i4, i5⟩ := ih _ _ _ _ h
        have hs := (prune_spec env this _ fuel fuel _ _ hp).1
        obtain ⟨f1, f2, f3, _, _, _⟩ := after_prune_frame env this pre_effect sbe σ1
        have hst : ∀ b, (r.2.stms b).Sublist (σ.stms b) := by
          intro b
          have h1 := i3 b
          rw [f1] at h1
          exact h1.trans (hs.stms b)
        refine ⟨i1.trans (f2.trans hs.parent), i2.trans (f3.trans hs.looping), hst, ?_, ?_⟩
        · rcases after_prune_edges env this pre_effect sbe σ1 with ⟨e1, e2⟩ | ⟨e1, e2, _, e4⟩
          · rw [e1, e2] at i4
            exact i4.trans (List.Sublist.append hs.cfg_edges (List.Sublist.refl _))
          · rw [e4, e2] at i4
            rw [e1]
            simp only [if_true, List.append_nil] at i4
            simp only [Bool.false_eq_true, if_false]
            exact i4.trans (List.Sublist.append hs.cfg_edges (List.Sublist.refl _))
        · intro hne
          have hne1 : σ1.looping this = false ∨ σ1.stms this = [] := by
            rcases hne with hl | he
            · left
              have : σ1.looping = σ.looping := hs.looping
              rw [this]; exact hl
            · right
              have hsub := hs.stms this
              rw [show ({ σ with fm := fm } : State X E).stms this = σ.stms this from rfl, he]
                at hsub
              exact List.eq_nil_of_sublist_nil hsub
          rcases after_prune_edges env this pre_effect sbe σ1 with ⟨e1, _⟩ | ⟨_, _, e3, _⟩
          · have h5 := i5 (by
              rw [f3, f1]
              exact hne1)
            rw [e1] at h5
            exact h5.trans hs.cfg_edges
          · exfalso
            obtain ⟨a1, a2⟩ := from_tail_to_head_after_reset env this σ1 e3
            rcases hne1 with hl | he
            · rw [hl] at a1; cases a1
            · exact a2 he

theorem fixed_point_phase_edges (env : Env X E) (this : Ptr) (pre_effect : E)
    (rounds fuel : Nat) (post_facts : FactVec) (σ1 : State X E) (r : FactVec × State X E)
    (h : fixed_point_phase env this pre_effect rounds fuel post_facts σ1 = Outcome.ok r) :
    r.2.parent = σ1.parent ∧ r.2.looping = σ1.looping ∧
    (∀ b, (r.2.stms b).Sublist (σ1.stms b)) ∧
    r.2.cfg_edges.Sublist (σ1.cfg_edges ++ [self_edge this]) ∧
    ((σ1.looping this = false ∨ σ1.stms this = []) → r.2.cfg_edges.Sublist σ1.cfg_edges) := by
  unfold fixed_point_phase at h
  split at h
  · dsimp only at h
    split at h
    · next r' hc =>
      cases h
      obtain ⟨i1, i2, i3, i4, i5⟩ := converge_or_prune_edges env this _ pre_effect fuel _ _ _ _ _ hc
      rcases first_self_back_edge_cases env this σ1 with ⟨e1, e2⟩ | ⟨e1, _, hft, e2⟩
      · rw [e1, e2] at i4
        rw [e2] at i1 i2 i3 i5
        simp only [Bool.false_eq_true, if_false] at i4
        exact ⟨i1, i2, i3, i4, i5⟩
      · rw [e1, e2] at i4
        rw [e2] at i1 i2 i3
        simp only [if_true, List.append_nil] at i4
        refine ⟨i1, i2, i3, i4, ?_⟩
        intro hne
        exfalso
        obtain ⟨a1, a2, _⟩ := (from_tail_to_head_iff env σ1 this).mp hft
        rcases hne with hl | he
        · rw [hl] at a1; cases a1
        · exact a2 he
    · cases h
    · cases h
  · cases h
    exact ⟨rfl, rfl, fun _ => List.Sublist.refl _, List.sublist_append_left _ _,
      fun _ => List.Sublist.refl _⟩

theorem return_phase_skip (env : Env X E) (this : Ptr) (pf : FactVec) (σ5 : State X E)
    (hc : ¬ (σ5.parent this = 0 ∧ env.need_return_stmt σ5 = true
      ∧ must_return env σ5 this = false)) :
    return_phase env this pf σ5 = Outcome.ok σ5 := by
  unfold return_phase
  rw [if_neg hc]

theorem append_return_stmt_error (env : Env X E) (this : Ptr) (pf : FactVec) (σ5 : State X E)
    (he : (return_request env pf σ5).2.error = true) :
    append_return_stmt env this { σ5 with fm := { σ5.fm with global_facts := pf } }
      = Outcome.ok (0, (return_request env pf σ5).2) := by
  unfold append_return_stmt
  dsimp only
  split
  · rfl
  · next h => exact absurd he h

theorem append_return_stmt_assert (env : Env X E) (this : Ptr) (pf : FactVec) (σ5 : State X E)
    (he : (return_request env pf σ5).2.error = false)
    (hv : (return_visit env this pf σ5).1 = false) :
    append_return_stmt env this { σ5 with fm := { σ5.fm with global_facts := pf } }
      = Outcome.assert_failed := by
  unfold append_return_stmt
  dsimp only
  have he2 : ¬ ((return_request env pf σ5).2.error = true) := by simp [he]
  split
  · next h => exact absurd h he2
  · split
    · rfl
    · next h => exact absurd hv h

theorem append_return_stmt_ok (env : Env X E) (this : Ptr) (pf : FactVec) (σ5 : State X E)
    (he : (return_request env pf σ5).2.error = false)
    (hv : (return_visit env this pf σ5).1 = true) :
    ∃ r, append_return_stmt env this { σ5 with fm := { σ5.fm with global_facts := pf } }
        = Outcome.ok r ∧
      r.1 = (return_request env pf σ5).1 ∧
      r.2.stms = (return_pushed env this pf σ5).stms ∧
      r.2.fm.map_facts_in r.1
        = env.makeup_new_var_facts (return_pushed env this pf σ5) pf
            (return_request env pf σ5).2.fm.global_facts ∧
      r.2.fm.map_facts_out r.1 = (return_visit env this pf σ5).2.1 := by
  unfold append_return_stmt
  dsimp only
  have he2 : ¬ ((return_request env pf σ5).2.error = true) := by simp [he]
  have hv2 : ¬ ((return_visit env this pf σ5).1 = false) := by simp [hv]
  split
  · next h => exact absurd h he2
  · split
    · next h => exact absurd h hv2
    · refine ⟨_, rfl, rfl, rfl, ?_, ?_⟩
      · exact upd_same _ _ _
      · exact upd_same _ _ _

/-- C18. After the fixed-point phase of `post_creation_analysis` has ended in state
`σ5` with the local `post_facts` = `pf`, the condition `parent == 0 &&
func->need_return_stmt() && !must_return()` decides whether a return statement is
requested, but it is appended only when the request leaves the Error flag clear:
(1) when the condition is false, the call ends in `σ5`, nothing is appended;
(2) when it holds and the request sets the Error flag, `ERROR_GUARD` leaves before
`stms.push_back(sr)`: the lists of statements are those the request left;
(3) when it holds, the flag is clear and `visit_facts` reports false, the assertion
fails;
(4) when it holds, the flag is clear and `visit_facts` reports true, exactly the
statement requested is appended as the last element of `stms` of the block (the
other lists are those the request left), the request was made with `global_facts`
set to `post_facts`, the incoming facts recorded for the statement are
`makeup_new_var_facts(post_facts, global_facts)`, its outgoing facts are those of the
visit, and the outgoing facts recorded for the block are those recorded for the
statement. -/
theorem post_creation_analysis_return_stmt (env : Env X E) (this : Ptr) (pre_effect : E)
    (rounds fuel : Nat) (σ0 : State X E) (pf : FactVec) (σ5 : State X E)
    (hphase : fixed_point_phase env this pre_effect rounds fuel
      (analysis_prologue env this σ0).1 (analysis_prologue env this σ0).2
        = Outcome.ok (pf, σ5)) :
    (¬ (σ5.parent this = 0 ∧ env.need_return_stmt σ5 = true ∧ must_return env σ5 this = false) →
      post_creation_analysis env this pre_effect rounds fuel σ0 = Outcome.ok σ5) ∧
    ((σ5.parent this = 0 ∧ env.need_return_stmt σ5 = true ∧ must_return env σ5 this = false) →
      ((return_request env pf σ5).2.error = true →
        ∃ σ', post_creation_analysis env this pre_effect rounds fuel σ0 = Outcome.ok σ' ∧
          σ'.stms = (return_request env pf σ5).2.stms) ∧
      ((return_request env pf σ5).2.error = false → (return_visit env this pf σ5).1 = false →
        post_creation_analysis env this pre_effect rounds fuel σ0 = Outcome.assert_failed) ∧
      ((return_request env pf σ5).2.error = false → (return_visit env this pf σ5).1 = true →
        ∃ σ', post_creation_analysis env this pre_effect rounds fuel σ0 = Outcome.ok σ' ∧
          σ'.stms this = (return_request env pf σ5).2.stms this
            ++ [(return_request env pf σ5).1] ∧
          (∀ b, b ≠ this → σ'.stms b = (return_request env pf σ5).2.stms b) ∧
          σ'.fm.map_facts_in (return_request env pf σ5).1
            = env.makeup_new_var_facts (return_pushed env this pf σ5) pf
                (return_request env pf σ5).2.fm.global_facts ∧
          σ'.fm.map_facts_out (return_request env pf σ5).1 = (return_visit env this pf σ5).2.1 ∧
          σ'.fm.map_facts_out this = σ'.fm.map_facts_out (return_request env pf σ5).1)) := by
  have hpca : post_creation_analysis env this pre_effect rounds fuel σ0
      = return_phase env this pf σ5 := by
    unfold post_creation_analysis
    rw [hphase]
  rw [hpca]
  refine ⟨return_phase_skip env this pf σ5, ?_⟩
  intro hc
  unfold return_phase
  rw [if_pos hc]
  refine ⟨?_, ?_, ?_⟩
  · intro he
    rw [append_return_stmt_error env this pf σ5 he]
    exact ⟨_, rfl, rfl⟩
  · intro he hv
    rw [append_return_stmt_assert env this pf σ5 he hv]
  · intro he hv
    obtain ⟨r, hr, r1, r2, r3, r4⟩ := append_return_stmt_ok env this pf σ5 he hv
    rw [hr]
    refine ⟨_, rfl, ?_, ?_, ?_, ?_, ?_⟩
    · show r.2.stms this = _
      rw [r2]
      exact upd_same _ _ _
    · intro b hb
      show r.2.stms b = _
      rw [r2]
      show upd _ this _ b = _
      unfold upd
      rw [if_neg hb]
    · show r.2.fm.map_facts_in _ = _
      rw [← r1]
      exact r3
    · show upd r.2.fm.map_facts_out this (r.2.fm.map_facts_out r.1) _ = _
      rw [← r1, ← r4]
      unfold upd
      split
      · rfl
      · rfl
    · show upd r.2.fm.map_facts_out this (r.2.fm.map_facts_out r.1) this
        = upd r.2.fm.map_facts_out this (r.2.fm.map_facts_out r.1) _
      rw [← r1]
      unfold upd
      rw [if_pos rfl]
      split
      · rfl
      · rfl

/-- Witness of C18: block `1` = `[11]` has no parent, its function needs a return
statement and `11` is an assignment; the statement `14` requested is appended. -/
theorem post_creation_analysis_return_stmt_witness :
    fixed_point_phase (exEnv exKind [] true) 1 () 4 13
        (analysis_prologue (exEnv exKind [] true) 1 (exState exKind false [11] [] [14])).1
        (analysis_prologue (exEnv exKind [] true) 1 (exState exKind false [11] [] [14])).2
      = Outcome.ok
        ((analysis_prologue (exEnv exKind [] true) 1 (exState exKind false [11] [] [14])).1,
         (analysis_prologue (exEnv exKind [] true) 1 (exState exKind false [11] [] [14])).2) ∧
    (∃ σ', post_creation_analysis (exEnv exKind [] true) 1 () 4 13
        (exState exKind false [11] [] [14]) = Outcome.ok σ' ∧ σ'.stms 1 = [11, 14]) := by
  refine ⟨rfl, ?_⟩
  obtain ⟨σ', h1, h2, _⟩ :=
    (post_creation_analysis_return_stmt (exEnv exKind [] true) 1 () 4 13
      (exState exKind false [11] [] [14]) _ _ rfl).2 (by decide) |>.2.2 rfl rfl
  exact ⟨σ', h1, h2.trans (by decide)⟩

/-- Counterexample to C18 as stated: after the fixed-point phase block `1` = `[11]` has
no parent, its function needs a return statement and `must_return()` is false, but
the request for the return statement sets the Error flag, and no statement is
appended. -/
theorem post_creation_analysis_error_appends_nothing :
    ∃ pf σ5,
      fixed_point_phase (exErrorEnv true) 1 () 4 13
          (analysis_prologue (exErrorEnv true) 1 (exState exKind false [11] [] [])).1
          (analysis_prologue (exErrorEnv true) 1 (exState exKind false [11] [] [])).2
        = Outcome.ok (pf, σ5) ∧
      σ5.parent 1 = 0 ∧ (exErrorEnv true).need_return_stmt σ5 = true ∧
      must_return (exErrorEnv true) σ5 1 = false ∧ σ5.stms 1 = [11] ∧
      (post_creation_analysis (exErrorEnv true) 1 () 4 13
        (exState exKind false [11] [] [])).result.map (fun σ => σ.stms 1) = some [11] :=
  ⟨(analysis_prologue (exErrorEnv true) 1 (exState exKind false [11] [] [])).1,
   (analysis_prologue (exErrorEnv true) 1 (exState exKind false [11] [] [])).2,
   rfl, by decide, rfl, by decide, by decide, by decide⟩

/-! ## C16 -/

theorem converge_or_prune_empty (env : Env X E) (this : Ptr) (facts_copy : FactVec)
    (pre_effect : E) (fuel n : Nat) (sbe : Bool) (post_facts : FactVec) (σ : State X E)
    (hn : 1 ≤ n) (he : σ.stms this = []) :
    converge_or_prune env this facts_copy pre_effect fuel n sbe post_facts σ
      ≠ Outcome.timeout := by
  cases n with
  | zero => omega
  | succ k =>
    rw [converge_or_prune]
    cases hff : find_fixed_point env σ this facts_copy post_facts (σ.need_revisit this) with
    | none => exact absurd hff (find_fixed_point_total env σ this _ _ _)
    | some res =>
      cases res with
      | success pf fm => simp
      | assert_failed => simp
      | failure i pf fm =>
        have hlt := find_fixed_point_fail_lt env σ this _ _ _ _ _ _ hff
        rw [he] at hlt
        exact absurd hlt (by simp)

theorem fixed_point_phase_empty (env : Env X E) (this : Ptr) (pre_effect : E)
    (rounds fuel : Nat) (post_facts : FactVec) (σ1 : State X E)
    (hn : 1 ≤ rounds) (he : σ1.stms this = []) :
    fixed_point_phase env this pre_effect rounds fuel post_facts σ1 ≠ Outcome.timeout := by
  unfold fixed_point_phase
  split
  · dsimp only
    split
    · simp
    · simp
    · next hc =>
      exfalso
      refine converge_or_prune_empty env this _ pre_effect fuel rounds _ post_facts _ hn ?_ hc
      rcases first_self_back_edge_cases env this σ1 with ⟨_, e2⟩ | ⟨_, _, _, e2⟩
      · rw [e2]; exact he
      · rw [e2]; exact he
  · simp

theorem return_phase_no_timeout (env : Env X E) (this : Ptr) (post_facts : FactVec)
    (σ5 : State X E) : return_phase env this post_facts σ5 ≠ Outcome.timeout := by
  unfold return_phase
  split
  · split
    · simp
    · next hc =>
      exfalso
      unfold append_return_stmt at hc
      dsimp only at hc
      split at hc
      · cases hc
      · split at hc
        · cases hc
        · cases hc
    · simp
  · simp

theorem post_creation_analysis_empty (env : Env X E) (this : Ptr) (pre_effect : E)
    (rounds fuel : Nat) (σ0 : State X E) (hn : 1 ≤ rounds) (he : σ0.stms this = []) :
    post_creation_analysis env this pre_effect rounds fuel σ0 ≠ Outcome.timeout := by
  unfold post_creation_analysis
  split
  · simp
  · next hc => exact absurd hc (fixed_point_phase_empty env this _ _ _ _ _ hn he)
  · exact return_phase_no_timeout env this _ _

theorem post_creation_analysis_empty_stays (env : Env X E) (this : Ptr) (pre_effect : E)
    (rounds fuel : Nat) (σ0 σ' : State X E) (he : σ0.stms this = [])
    (hskip : σ0.parent this ≠ 0 ∨ ∀ τ, env.need_return_stmt τ = false)
    (h : post_creation_analysis env this pre_effect rounds fuel σ0 = Outcome.ok σ') :
    σ'.stms this = [] := by
  unfold post_creation_analysis at h
  split at h
  · cases h
  · cases h
  · next r hr =>
    obtain ⟨p1, _, p3, _, _⟩ := fixed_point_phase_edges env this _ _ _ _ _ _ hr
    have hnc : ¬ (r.2.parent this = 0 ∧ env.need_return_stmt r.2 = true
        ∧ must_return env r.2 this = false) := by
      rintro ⟨c1, c2, _⟩
      rcases hskip with hp | hnr
      · rw [p1] at c1
        exact hp c1
      · rw [hnr] at c2
        cases c2
    rw [return_phase_skip env this r.1 r.2 hnc] at h
    cases h
    have hsub := p3 this
    rw [show (analysis_prologue env this σ0).2.stms this = σ0.stms this from rfl, he] at hsub
    exact List.eq_nil_of_sublist_nil hsub

theorem post_creation_analysis_empty_result (env : Env X E) (this : Ptr) (pre_effect : E)
    (rounds fuel : Nat) (σ0 σ' : State X E) (he : σ0.stms this = [])
    (h : post_creation_analysis env this pre_effect rounds fuel σ0 = Outcome.ok σ') :
    ∃ pf σ5, σ5.stms this = [] ∧
      σ'.stms this =
        (if σ0.parent this = 0 ∧ env.need_return_stmt σ5 = true then
          (if (return_request env pf σ5).2.error = true then
            (return_request env pf σ5).2.stms this
          else (return_request env pf σ5).2.stms this ++ [(return_request env pf σ5).1])
        else []) := by
  unfold post_creation_analysis at h
  split at h
  · cases h
  · cases h
  · next r hr =>
    obtain ⟨p1, _, p3, _, _⟩ := fixed_point_phase_edges env this _ _ _ _ _ _ hr
    have hnil : r.2.stms this = [] := by
      have hsub := p3 this
      rw [show (analysis_prologue env this σ0).2.stms this = σ0.stms this from rfl, he] at hsub
      exact List.eq_nil_of_sublist_nil hsub
    have hpar : r.2.parent this = σ0.parent this := by
      rw [p1]
      rfl
    have hmr : must_return env r.2 this = false := by
      unfold must_return
      rw [hnil]
      simp
    refine ⟨r.1, r.2, hnil, ?_⟩
    by_cases hc : σ0.parent this = 0 ∧ env.need_return_stmt r.2 = true
    · rw [if_pos hc]
      unfold return_phase at h
      rw [if_pos ⟨hpar.trans hc.1, hc.2, hmr⟩] at h
      cases herr : (return_request env r.1 r.2).2.error with
      | true =>
        rw [append_return_stmt_error env this r.1 r.2 herr] at h
        cases h
        simp
      | false =>
        cases hvis : (return_visit env this r.1 r.2).1 with
        | false =>
          rw [append_return_stmt_assert env this r.1 r.2 herr hvis] at h
          cases h
        | true =>
          obtain ⟨r', hr', _, r2, _, _⟩ := append_return_stmt_ok env this r.1 r.2 herr hvis
          rw [hr'] at h
          cases h
          simp only [Bool.false_eq_true, if_false]
          show r'.2.stms this = _
          rw [r2]
          exact upd_same _ _ _
    · rw [if_neg hc]
      have hnc : ¬ (r.2.parent this = 0 ∧ env.need_return_stmt r.2 = true
          ∧ must_return env r.2 this = false) := by
        rintro ⟨c1, c2, _⟩
        exact hc ⟨hpar.symm.trans c1, c2⟩
      rw [return_phase_skip env this r.1 r.2 hnc] at h
      cases h
      exact hnil

/-- C16. The call `make_dummy_block(cg_context)` terminates (one allowed call of
`find_fixed_point` is enough, an empty block cannot fail its analysis): it returns
a block unless an assertion of `post_creation_analysis` fails. The block returned is
the one `new Block` allocated; it has zero statements when the generation context
has a current block (the dummy block then has a parent), and when the function
never requires a return statement. In general, `pf` and `σ5` being the local
`post_facts` and the state at the end of the fixed-point phase, in which the block
is still empty: when there is no current block and the function requires a return
statement, a return statement is requested; if the request sets the Error flag the
statements of the block are those the request left, otherwise they are those
followed by the statement requested; in every other case the block has zero
statements. -/
theorem make_dummy_block_empty (env : Env X E) (fuel : Nat) (σ : State X E)
    (hfuel : 1 ≤ fuel) :
    make_dummy_block env fuel σ ≠ Outcome.timeout ∧
    ∀ r, make_dummy_block env fuel σ = Outcome.ok r →
      r.1 = (env.alloc σ).1 ∧
      (env.get_current_block σ ≠ 0 → r.2.stms r.1 = []) ∧
      ((∀ τ, env.need_return_stmt τ = false) → r.2.stms r.1 = []) ∧
      (∃ pf σ5, σ5.stms r.1 = [] ∧
        r.2.stms r.1 =
          (if env.get_current_block σ = 0 ∧ env.need_return_stmt σ5 = true then
            (if (return_request env pf σ5).2.error = true then
              (return_request env pf σ5).2.stms r.1
            else (return_request env pf σ5).2.stms r.1 ++ [(return_request env pf σ5).1])
          else [])) := by
  unfold make_dummy_block
  dsimp only
  constructor
  · split
    · simp
    · next hc =>
      exfalso
      refine post_creation_analysis_empty env _ _ fuel fuel _ hfuel ?_ hc
      exact upd_same _ _ _
    · simp
  · intro r h
    split at h
    · cases h
    · cases h
    · next σ4 hc =>
      cases h
      refine ⟨rfl, ?_, ?_, ?_⟩
      · intro hcur
        refine post_creation_analysis_empty_stays env _ _ fuel fuel _ σ4 (upd_same _ _ _)
          (Or.inl ?_) hc
        show upd σ.parent (env.alloc σ).1 (env.get_current_block σ) (env.alloc σ).1 ≠ 0
        rw [upd_same]
        exact hcur
      · intro hnr
        exact post_creation_analysis_empty_stays env _ _ fuel fuel _ σ4 (upd_same _ _ _)
          (Or.inr hnr) hc
      · obtain ⟨pf, σ5, h5, hres⟩ :=
          post_creation_analysis_empty_result env _ _ fuel fuel _ σ4 (upd_same _ _ _) hc
        refine ⟨pf, σ5, h5, ?_⟩
        have hpar : upd σ.parent (env.alloc σ).1 (env.get_current_block σ) (env.alloc σ).1
            = env.get_current_block σ := upd_same _ _ _
        rw [← hpar]
        exact hres

/-- Witness of C16: with block `1` as the current block the dummy block `2` is
returned without statements. -/
theorem make_dummy_block_empty_witness :
    (make_dummy_block (exEnv exKind [] true) 13 exGenState).result.map
        (fun r => (r.1, r.2.stms r.1)) = some (2, []) ∧
    make_dummy_block (exEnv exKind [] true) 13 exGenState ≠ Outcome.timeout :=
  ⟨by decide, (make_dummy_block_empty (exEnv exKind [] true) 13 exGenState (by decide)).1⟩

/-- Counterexample to C16 as stated: with no current block, in a function that needs a
return statement, the dummy block `2` is returned with one statement, the return
statement `14` that `post_creation_analysis` appended. -/
theorem make_dummy_block_with_return_stmt :
    (make_dummy_block (exEnv exKind [] true) 13 (exState exKind false [11] [] [2, 14])).result.map
        (fun r => (r.1, r.2.parent r.1, r.2.stms r.1, r.2.eType 14))
      = some (2, 0, [14], eReturn) := by
  decide

/-! ## C20 -/

theorem find_fixed_point_loop_count_fst (env : Env X E) (σ : State X E) (this : Ptr) :
    ∀ fuel cnt inputs post_facts visit_once fm,
      (find_fixed_point_loop_count env σ this fuel cnt inputs post_facts visit_once fm).map
          Prod.fst
        = find_fixed_point_loop env σ this fuel cnt inputs post_facts visit_once fm := by
  intro fuel
  induction fuel with
  | zero => intro cnt inputs post_facts visit_once fm; rfl
  | succ n ih =>
    intro cnt inputs post_facts visit_once fm
    rw [find_fixed_point_loop_count, find_fixed_point_loop]
    cases hp : find_fixed_point_pass env σ this cnt inputs post_facts visit_once fm with
    | done r => rfl
    | again cnt1 inputs1 pf1 fm1 =>
      dsimp only
      rw [← ih cnt1 inputs1 pf1 false fm1]
      cases find_fixed_point_loop_count env σ this n cnt1 inputs1 pf1 false fm1 with
      | none => rfl
      | some q => rfl

theorem find_fixed_point_pass_done_visited (env : Env X E) (σ : State X E) (this : Ptr)
    (cnt : Nat) (inputs post_facts : FactVec) (visit_once : Bool) (fm : FactMgr X E)
    (r : FixResult X E) (hv : fm.map_visited this = true)
    (h : find_fixed_point_pass env σ this cnt inputs post_facts visit_once fm
      = PassResult.done r) :
    r = FixResult.assert_failed ∨ cnt ≤ 7 := by
  rcases find_fixed_point_pass_cases env σ this cnt inputs post_facts visit_once fm with
    ⟨_, _, h1⟩ | ⟨hn, _, _, h1⟩ | ⟨hn, _, i', o, fm3, ha, h1⟩ | ⟨hna, _, o, fm3, _, h1⟩
  · rw [h1] at h
    cases h
    exact Or.inl rfl
  · right
    by_contra hc
    exact hn ⟨hv, by omega⟩
  · right
    by_contra hc
    exact hn ⟨hv, by omega⟩
  · rw [h1] at h
    cases h

theorem find_fixed_point_loop_count_visited (env : Env X E) (σ : State X E) (this : Ptr) :
    ∀ fuel cnt inputs post_facts visit_once fm q, fm.map_visited this = true → cnt ≤ 8 →
      find_fixed_point_loop_count env σ this fuel cnt inputs post_facts visit_once fm = some q →
      q.2 + cnt ≤ 9 ∧ (q.1 = FixResult.assert_failed ∨ q.2 + cnt ≤ 8) := by
  intro fuel
  induction fuel with
  | zero =>
    intro cnt inputs post_facts visit_once fm q _ _ h
    simp [find_fixed_point_loop_count] at h
  | succ n ih =>
    intro cnt inputs post_facts visit_once fm q hv hle h
    rw [find_fixed_point_loop_count] at h
    cases hp : find_fixed_point_pass env σ this cnt inputs post_facts visit_once fm with
    | done r =>
      rw [hp] at h
      cases h
      rcases find_fixed_point_pass_done_visited env σ this _ _ _ _ _ _ hv hp with ha | hc
      · exact ⟨by show 1 + cnt ≤ 9; omega, Or.inl ha⟩
      · exact ⟨by show 1 + cnt ≤ 9; omega, Or.inr (by show 1 + cnt ≤ 8; omega)⟩
    | again cnt1 inputs1 pf1 fm1 =>
      rw [hp] at h
      dsimp only at h
      obtain ⟨h1, h2, h3⟩ := find_fixed_point_pass_again_visited env σ this _ _ _ _ _ _ _ _ _ hp
      rw [if_pos hv] at h2
      have hc7 := h3 hv
      cases hq : find_fixed_point_loop_count env σ this n cnt1 inputs1 pf1 false fm1 with
      | none => rw [hq] at h; cases h
      | some q1 =>
        rw [hq] at h
        cases h
        obtain ⟨i1, i2⟩ := ih cnt1 inputs1 pf1 false fm1 q1 h1 (by omega) hq
        refine ⟨by show q1.2 + 1 + cnt ≤ 9; omega, ?_⟩
        rcases i2 with ia | ib
        · exact Or.inl ia
        · exact Or.inr (by show q1.2 + 1 + cnt ≤ 8; omega)

theorem find_fixed_point_count_bound (env : Env X E) (σ : State X E) (this : Ptr)
    (inputs post_facts : FactVec) (visit_once : Bool) (q : FixResult X E × Nat)
    (h : find_fixed_point_count env σ this inputs post_facts visit_once = some q) :
    (σ.fm.map_visited this = true → q.2 ≤ 9 ∧ (q.1 = FixResult.assert_failed ∨ q.2 ≤ 8)) ∧
    q.2 ≤ 10 ∧ (q.1 = FixResult.assert_failed ∨ q.2 ≤ 9) := by
  unfold find_fixed_point_count at h
  by_cases hv : σ.fm.map_visited this = true
  · have hb := find_fixed_point_loop_count_visited env σ this 10 0 _ _ _ _ q hv (by omega) h
    simp only [Nat.add_zero] at hb
    refine ⟨fun _ => hb, by omega, ?_⟩
    rcases hb.2 with ha | hc
    · exact Or.inl ha
    · exact Or.inr (by omega)
  · refine ⟨fun hv2 => absurd hv2 hv, ?_⟩
    rw [find_fixed_point_loop_count] at h
    cases hp : find_fixed_point_pass env σ this 0 inputs post_facts visit_once σ.fm with
    | done r =>
      rw [hp] at h
      cases h
      exact ⟨by show 1 ≤ 10; omega, Or.inr (by show 1 ≤ 9; omega)⟩
    | again cnt1 inputs1 pf1 fm1 =>
      rw [hp] at h
      dsimp only at h
      obtain ⟨h1, h2, _⟩ := find_fixed_point_pass_again_visited env σ this _ _ _ _ _ _ _ _ _ hp
      rw [if_neg hv] at h2
      cases hq : find_fixed_point_loop_count env σ this 9 cnt1 inputs1 pf1 false fm1 with
      | none => rw [hq] at h; cases h
      | some q1 =>
        rw [hq] at h
        cases h
        obtain ⟨i1, i2⟩ := find_fixed_point_loop_count_visited env σ this 9 cnt1 _ _ _ _ q1 h1
          (by omega) hq
        rw [h2] at i1 i2
        refine ⟨by show q1.2 + 1 ≤ 10; omega, ?_⟩
        rcases i2 with ia | ib
        · exact Or.inl ia
        · exact Or.inr (by show q1.2 + 1 ≤ 9; omega)

/-- C20. With `assert(0)` modelled as a fatal internal error, `find_fixed_point`
terminates on every input: it gives a result `r` after beginning `k` iterations of
its loop. On a block already visited at the call, at most 9 iterations are begun
and a result other than the fatal error is returned within 8 iterations (the test
`cnt++ > 7` lets the eighth iteration through, the ninth raises the fatal error).
On a block not yet visited the first iteration is not counted: at most 10
iterations are begun and a result other than the fatal error is returned within
9. -/
theorem find_fixed_point_iterations (env : Env X E) (σ : State X E) (this : Ptr)
    (inputs post_facts : FactVec) (visit_once : Bool) :
    ∃ r k, find_fixed_point_count env σ this inputs post_facts visit_once = some (r, k) ∧
      find_fixed_point env σ this inputs post_facts visit_once = some r ∧
      (σ.fm.map_visited this = true → k ≤ 9 ∧ (r = FixResult.assert_failed ∨ k ≤ 8)) ∧
      k ≤ 10 ∧ (r = FixResult.assert_failed ∨ k ≤ 9) := by
  have hfst := find_fixed_point_loop_count_fst env σ this 10 0 inputs post_facts visit_once σ.fm
  cases hq : find_fixed_point_count env σ this inputs post_facts visit_once with
  | none =>
    exfalso
    unfold find_fixed_point_count at hq
    rw [hq] at hfst
    exact find_fixed_point_total env σ this inputs post_facts visit_once hfst.symm
  | some q =>
    refine ⟨q.1, q.2, rfl, ?_, find_fixed_point_count_bound env σ this _ _ _ q hq⟩
    unfold find_fixed_point_count at hq
    rw [hq] at hfst
    exact hfst.symm

/-- Counterexample to C20 as stated: on the visited loop body `1` = `[11]`, whose
analysis adds a fact in each of the first six iterations, `find_fixed_point` begins
an eighth iteration and returns `true` in it. -/
theorem find_fixed_point_eighth_iteration :
    exVisitedLoop.fm.map_visited 1 = true ∧
    (find_fixed_point_count exGrowEnv exVisitedLoop 1 [] [] true).map
        (fun q => (q.1.succeeded, q.2)) = some (true, 8) ∧
    (find_fixed_point exGrowEnv exVisitedLoop 1 [] [] true).map FixResult.succeeded
      = some true := by
  decide

/-! ## C21 -/

theorem populate_log_bound (env : Env X E) (b max : Nat) (hmax : max + 1 < 2 ^ 32) :
    ∀ fuel i (σ : State X E), i ≤ max + 1 → max + 2 ≤ fuel + i →
      ∃ r, populate_log env b max fuel i σ = some r ∧ r.2.length + i ≤ max + 1 ∧
        (r.2.length + i < max + 1 →
          (∃ pre q, r.2 = pre ++ [q] ∧ q.2 = true) ∨
          ∃ τ, (env.Statement_make_random none τ).1 = 0 ∧
            r.1 = (env.Statement_make_random none τ).2) := by
  intro fuel
  induction fuel with
  | zero => intro i σ hi hf; omega
  | succ n ih =>
    intro i σ hi hf
    rw [populate_log]
    by_cases hle : i ≤ max
    · rw [if_pos hle]
      by_cases hnull : (env.Statement_make_random none σ).1 = 0
      · rw [if_pos hnull]
        exact ⟨_, rfl, by show 0 + i ≤ max + 1; omega, fun _ => Or.inr ⟨σ, hnull, rfl⟩⟩
      · rw [if_neg hnull]
        by_cases hret : env.must_return (populate_push env b σ)
            (env.Statement_make_random none σ).1 = true
        · rw [if_pos hret]
          exact ⟨_, rfl, by show 1 + i ≤ max + 1; omega,
            fun _ => Or.inl ⟨[], _, rfl, rfl⟩⟩
        · rw [if_neg hret]
          have hmod : (i + 1) % 2 ^ 32 = i + 1 := Nat.mod_eq_of_lt (by omega)
          rw [hmod]
          obtain ⟨r, hr, hlen, hearly⟩ := ih (i + 1) (populate_push env b σ) (by omega) (by omega)
          rw [hr]
          refine ⟨_, rfl, by show r.2.length + 1 + i ≤ max + 1; omega, ?_⟩
          intro hlt
          have hlt2 : r.2.length + (i + 1) < max + 1 := by
            have : r.2.length + 1 + i < max + 1 := hlt
            omega
          rcases hearly hlt2 with ⟨pre, q, hq, hq2⟩ | ⟨τ, hτ, hτ2⟩
          · left
            refine ⟨((env.Statement_make_random none σ).1, false) :: pre, q, ?_, hq2⟩
            show _ :: r.2 = _
            rw [hq]
            rfl
          · exact Or.inr ⟨τ, hτ, hτ2⟩
    · rw [if_neg hle]
      exact ⟨_, rfl, by show 0 + i ≤ max + 1; omega, fun h => by
        have : 0 + i < max + 1 := h
        omega⟩

/-- C21. In `Block::make_random` the loop `for (i = 0; i <= max; ++i)` is entered with
`max` = the value `n` of `BlockProbability(*b)`, that is of `rnd_upto(block_size,
&filter)`. When `rnd_upto(k, ...)` gives a value below `k` (`hrnd`, its contract; it
is outside `Block.cpp`) and `block_size` is positive and fits `unsigned int`, `n`
lies in `[0, block_size - 1]`, the loop ends, and it appends at most `n + 1`
statements to the block, hence never more than `block_size`: the statements of the
block afterwards are the former ones followed by those of the log (`hgen`: a
statement request leaves the statements of the block alone). Every statement of
the log but the last reported `must_return()` false, and when fewer than `n + 1`
statements were appended, the last one appended reported `must_return()` true or a
statement request gave NULL. -/
theorem make_random_statement_count (env : Env X E) (b : Ptr) (σ : State X E) (fuel : Nat)
    (hrnd : ∀ k f τ, 0 < k → (env.rnd_upto k f τ).1 < k)
    (hsize : 0 < σ.block_size b) (hint : σ.block_size b < 2 ^ 32)
    (hgen : ∀ τ, (env.Statement_make_random none τ).2.stms b = τ.stms b)
    (hfuel : σ.block_size b < fuel) :
    (BlockProbability env σ b).1 < σ.block_size b ∧
    ∃ r, populate_log env b ((BlockProbability env σ b).1 % 2 ^ 32) fuel 0
          (BlockProbability env σ b).2 = some r ∧
      populate env b ((BlockProbability env σ b).1 % 2 ^ 32) fuel 0
          (BlockProbability env σ b).2 = some r.1 ∧
      r.2.length ≤ (BlockProbability env σ b).1 + 1 ∧
      r.2.length ≤ σ.block_size b ∧
      r.1.stms b = (BlockProbability env σ b).2.stms b ++ r.2.map Prod.fst ∧
      (∀ p ∈ r.2.dropLast, p.2 = false) ∧
      (r.2.length < (BlockProbability env σ b).1 + 1 →
        (∃ pre q, r.2 = pre ++ [q] ∧ q.2 = true) ∨
        ∃ τ, (env.Statement_make_random none τ).1 = 0 ∧
          r.1 = (env.Statement_make_random none τ).2) := by
  have hn : (BlockProbability env σ b).1 < σ.block_size b := hrnd _ _ _ hsize
  have hmod : (BlockProbability env σ b).1 % 2 ^ 32 = (BlockProbability env σ b).1 :=
    Nat.mod_eq_of_lt (by omega)
  rw [hmod]
  obtain ⟨r, hr, hlen, hearly⟩ := populate_log_bound env b (BlockProbability env σ b).1
    (by omega) fuel 0 (BlockProbability env σ b).2 (by omega) (by omega)
  refine ⟨hn, r, hr, ?_, by omega, by omega, ?_, ?_, ?_⟩
  · rw [← populate_log_fst, hr]
    rfl
  · exact populate_log_stms env b _ hgen fuel 0 _ r hr
  · exact populate_log_verdicts env b _ fuel 0 _ r hr
  · intro hlt
    exact hearly (by omega)

/-- Witness of C21: for block `1` of size 4 `BlockProbability` gives 3 and the loop
appends the four statements `11`, `12`, `13`, `14`. -/
theorem make_random_statement_count_witness :
    (BlockProbability (exEnv exKind [] false)
        (exState exKind false [] [] [11, 12, 13, 14, 15]) 1).1 = 3 ∧
    (populate_log (exEnv exKind [] false) 1 3 13 0
        (exState exKind false [] [] [11, 12, 13, 14, 15])).map
          (fun r => (r.1.stms 1, r.2.length)) = some ([11, 12, 13, 14], 4) ∧
    (BlockProbability (exEnv exKind [] false)
        (exState exKind false [] [] [11, 12, 13, 14, 15]) 1).1
      < (exState exKind false [] [] [11, 12, 13, 14, 15]).block_size 1 :=
  ⟨by decide, by decide,
    (make_random_statement_count (exEnv exKind [] false) 1
      (exState exKind false [] [] [11, 12, 13, 14, 15]) 13
      (fun _ _ _ h => Nat.sub_lt h Nat.one_pos) (by decide) (by decide) (fun _ => rfl)
      (by decide)).1⟩

/-- Counterexample to C21 as stated: in the call of `make_random` the block `2` has
size 4, `BlockProbability` gives `n` = 3, and the population loop appends the four
statements `11`, `12`, `13`, `14`, one more than `n` and more than `block_size - 1`;
the block returned holds them. -/
theorem make_random_appends_one_more :
    (BlockProbability (exEnv exKind [] false)
        (enter_block (exEnv exKind [] false) false exCountState).2
        (enter_block (exEnv exKind [] false) false exCountState).1).1 = 3 ∧
    (populate_log (exEnv exKind [] false)
        (enter_block (exEnv exKind [] false) false exCountState).1 3 13 0
        (BlockProbability (exEnv exKind [] false)
          (enter_block (exEnv exKind [] false) false exCountState).2
          (enter_block (exEnv exKind [] false) false exCountState).1).2).map
      (fun r => r.2.map Prod.fst) = some [11, 12, 13, 14] ∧
    (make_random (exEnv exKind [] false) 13 false exCountState).result.map
        (fun r => (r.1, r.2.block_size r.1, r.2.stms r.1)) = some (2, 4, [11, 12, 13, 14]) := by
  decide

/-! ## C10 -/

end Block
